import Mathlib

/-!
# dbxout.c — dbx-format symbol table output of GNU CC

A shallow embedding of `src/dbxout.c` and theorems about it.

Modelling conventions.

* A `tree` is the address of a node of the compiler.  The nodes themselves are
  read through an environment `Env` (they are not written by this pass), except
  for the one field this pass writes, `TYPE_SYMTAB_ADDRESS`, which lives in the
  `State`.
* Chains linked by `TREE_CHAIN` (fields, enumerators, tags, declarations) are
  lists; statement chains are the inductive type `stmt`.
* The assembler file is the string of everything written to it so far.
* C `int`s are unbounded numbers here: type numbers and character counts are
  `Nat` (they start at 0 and only grow), integer constants are `Int`.  Nothing
  below depends on wrap-around.
* `typevec` is the list of its allocated elements; a read or write outside it is
  the outcome `wild` (undefined behaviour in C), `abort ()` is the outcome
  `aborted`, and the recursion of `dbxout_type` is bounded by a fuel argument,
  with `nofuel` the outcome of running out of it.
-/

namespace Dbxout

/-! ## Data model -/

/-- Address of a tree node. -/
abbrev tree := Nat

/-- The `enum typestatus` of the source, in the order of the enum. -/
inductive typestatus where
  | TYPE_UNSEEN
  | TYPE_XREF
  | TYPE_DEFINED
deriving DecidableEq

/-- Value of a `typestatus` as a C enum constant. -/
def typestatus.rank : typestatus → Nat
  | .TYPE_UNSEEN => 0
  | .TYPE_XREF => 1
  | .TYPE_DEFINED => 2

/-- Tree codes of type nodes; `OTHER_TYPE` is any code the switch of
`dbxout_type` has no case for. -/
inductive tree_code where
  | VOID_TYPE
  | INTEGER_TYPE
  | REAL_TYPE
  | ARRAY_TYPE
  | RECORD_TYPE
  | UNION_TYPE
  | ENUMERAL_TYPE
  | POINTER_TYPE
  | FUNCTION_TYPE
  | OTHER_TYPE
deriving DecidableEq

/-- What `TYPE_NAME (type)` points to when it is not null. -/
inductive name_node where
  | IDENTIFIER_NODE (IDENTIFIER_POINTER : String)
  | TYPE_DECL (DECL_NAME : String)
  | OTHER
deriving DecidableEq

/-- A `FIELD_DECL` of a record or union.  `DECL_NAME` is `none` for the nameless
fields that only skip bits; `DECL_SIZE` is `TREE_INT_CST_LOW (DECL_SIZE (tem))`. -/
structure field_decl where
  DECL_NAME : Option String
  TREE_TYPE : tree
  DECL_OFFSET : Int
  DECL_SIZE : Int
  DECL_SIZE_UNIT : Int
deriving DecidableEq

/-- A type node, with the fields `dbxout_type` reads.  `TYPE_SIZE` is `none` when
`TYPE_SIZE (type) == 0` and otherwise holds `TREE_INT_CST_LOW (size_in_bytes (type))`;
`TYPE_DOMAIN_MAX` is `TREE_INT_CST_LOW (TYPE_MAX_VALUE (TYPE_DOMAIN (type)))`, `none`
when there is no domain; `TYPE_VALUES` pairs `IDENTIFIER_POINTER (TREE_PURPOSE (tem))`
with `TREE_INT_CST_LOW (TREE_VALUE (tem))`. -/
structure type_node where
  TREE_CODE : tree_code
  TYPE_NAME : Option name_node
  TYPE_SIZE : Option Int
  TYPE_MIN_VALUE : Int
  TYPE_MAX_VALUE : Int
  TYPE_DOMAIN_MAX : Option Int
  TREE_TYPE : Option tree
  TYPE_FIELDS : List field_decl
  TYPE_VALUES : List (String × Int)

/-- The rtl expressions told apart by this file. -/
inductive rtx where
  | REG (REGNO : Int)
  | MEM (XEXP0 : rtx)
  | SYMBOL_REF (name : String)
  | PLUS (XEXP0 XEXP1 : rtx)
  | CONST_INT (INTVAL : Int)
  | OTHER
deriving DecidableEq

/-- The static variables of the file, the assembler file, and the
`TYPE_SYMTAB_ADDRESS` field of every type node. -/
structure State where
  asmfile : String
  TYPE_SYMTAB_ADDRESS : tree → Nat
  typevec : List typestatus
  typevec_len : Nat
  next_type_number : Nat
  next_block_number : Nat
  current_sym_code : Int
  current_sym_value : Int
  current_sym_addr : Option rtx
  current_sym_nchars : Nat

/-- What the file reads and does not define: the tree nodes, the standard type
nodes, `input_filename`, the `N_...` codes of `<stab.h>`, and the functions and
macros of the rest of the compiler. -/
structure Env where
  node : tree → type_node
  integer_type_node : tree
  char_type_node : tree
  void_type_node : tree
  input_filename : String
  N_SO : Int
  N_LSYM : Int
  N_FUN : Int
  N_GSYM : Int
  N_LCSYM : Int
  N_STSYM : Int
  N_RSYM : Int
  N_PSYM : Int
  N_LBRAC : Int
  N_RBRAC : Int
  output_addr_const : rtx → String
  DBX_REGISTER_NUMBER : Int → Int
  BITS_PER_UNIT : Int
  BYTES_BIG_ENDIAN : Bool

/-- How a call ends: normally, in `abort ()`, in an access outside `typevec` or
through a null or wrongly typed node, or (model only) out of fuel. -/
inductive outcome where
  | done (s : State)
  | aborted (s : State)
  | wild
  | nofuel

/-- Sequencing: go on with `k` after a normal completion. -/
def outcome.bind (o : outcome) (k : State → outcome) : outcome :=
  match o with
  | .done s => k s
  | .aborted s => .aborted s
  | .wild => .wild
  | .nofuel => .nofuel

/-! ## Output primitives -/

/-- The text of `%d`. -/
def fmt_d : Int → String
  | .ofNat n => Nat.repr n
  | .negSucc n => "-" ++ Nat.repr (n + 1)

/-- Write text to the assembler file (`fprintf`, `putc`). -/
def fprintf (text : String) (s : State) : State :=
  { s with asmfile := s.asmfile ++ text }

/-- The macro `CHARS (N)`. -/
def CHARS (n : Nat) (s : State) : State :=
  { s with current_sym_nchars := s.current_sym_nchars + n }

/-- The assignment `typevec[n] = status`, for `n` inside `typevec`. -/
def set_typevec (n : Nat) (status : typestatus) (s : State) : State :=
  { s with typevec := s.typevec.set n status }

/-- The function `dbxout_finish_symbol`. -/
def dbxout_finish_symbol (E : Env) (s : State) : State :=
  let s := fprintf ("\"," ++ fmt_d s.current_sym_code ++ ",0,0,") s
  let s :=
    match s.current_sym_addr with
    | some addr => fprintf (E.output_addr_const addr) s
    | none => fprintf (fmt_d s.current_sym_value) s
  fprintf "\n" s

/-- The function `dbxout_continue`. -/
def dbxout_continue (E : Env) (s : State) : State :=
  let s := fprintf "\\\\" s
  let s := dbxout_finish_symbol E s
  let s := fprintf ".stabs \"" s
  { s with current_sym_nchars := 0 }

/-- The macro `CONTIN`. -/
def CONTIN (E : Env) (s : State) : State :=
  if s.current_sym_nchars > 80 then dbxout_continue E s else s

/-! ## Types -/

/-- The function `dbxout_type_name`. -/
def dbxout_type_name (E : Env) (type : tree) (s : State) : outcome :=
  match (E.node type).TYPE_NAME with
  | none => .aborted s
  | some (.IDENTIFIER_NODE name) => .done (CHARS name.length (fprintf name s))
  | some (.TYPE_DECL name) => .done (CHARS name.length (fprintf name s))
  | some .OTHER => .aborted s

/-- Lines 212-225 of `dbxout_type`: give the type a number if it has none, and
make `typevec` long enough. -/
def assign_type_number (type : tree) (s : State) : State :=
  if s.TYPE_SYMTAB_ADDRESS type = 0 then
    let s := { s with
      TYPE_SYMTAB_ADDRESS := Function.update s.TYPE_SYMTAB_ADDRESS type s.next_type_number
      next_type_number := s.next_type_number + 1 }
    if s.next_type_number = s.typevec_len then
      { s with
        typevec := s.typevec ++ List.replicate s.typevec_len typestatus.TYPE_UNSEEN
        typevec_len := s.typevec_len * 2 }
    else s
  else s

/-- The loop over `TYPE_FIELDS` in `dbxout_type` (lines 321-334).  `contin` is the
macro `CONTIN`; `ref t` is the call `dbxout_type (t, 0)`. -/
def dbxout_fields (contin : State → State) (ref : tree → State → outcome) :
    List field_decl → State → outcome
  | [], s => .done s
  | tem :: chain, s =>
    match tem.DECL_NAME with
    | none => dbxout_fields contin ref chain s
    | some name =>
      let s := contin s
      let s := CHARS (1 + name.length) (fprintf (name ++ ":") s)
      (ref tem.TREE_TYPE s).bind fun s =>
        let s := CHARS 23 (fprintf ("," ++ fmt_d tem.DECL_OFFSET ++ ","
          ++ fmt_d (tem.DECL_SIZE * tem.DECL_SIZE_UNIT) ++ ";") s)
        dbxout_fields contin ref chain s

/-- The loop over `TYPE_VALUES` in `dbxout_type` (lines 352-359). -/
def dbxout_values (contin : State → State) : List (String × Int) → State → State
  | [], s => s
  | tem :: chain, s =>
    let s := CHARS (11 + tem.1.length) (fprintf (tem.1 ++ ":" ++ fmt_d tem.2 ++ ",") s)
    let s := if chain.isEmpty then s else contin s
    dbxout_values contin chain s

/-- Lines 246-375 of `dbxout_type`: output a definition of `type`, whose number is
`n = TYPE_SYMTAB_ADDRESS (type)`, an index inside `typevec`. -/
def dbxout_type_definition (contin : State → State) (E : Env)
    (ref : tree → State → outcome) (type : tree) (full : Bool) (s : State) : outcome :=
  let n := s.TYPE_SYMTAB_ADDRESS type
  let s := CHARS 1 (fprintf "=" s)
  let s := set_typevec n typestatus.TYPE_DEFINED s
  let node := E.node type
  match node.TREE_CODE with
  | .VOID_TYPE => .done (CHARS 3 (fprintf (Nat.repr n) s))
  | .INTEGER_TYPE =>
    let s :=
      if type = E.char_type_node then fprintf "r2;0;127;" s
      else fprintf ("r1;" ++ fmt_d node.TYPE_MIN_VALUE ++ ";"
        ++ fmt_d node.TYPE_MAX_VALUE ++ ";") s
    .done (CHARS 25 s)
  | .REAL_TYPE =>
    match node.TYPE_SIZE with
    | none => .wild
    | some size => .done (CHARS 16 (fprintf ("r1;" ++ fmt_d size ++ ";0;") s))
  | .ARRAY_TYPE =>
    match node.TYPE_DOMAIN_MAX with
    | none => .wild
    | some max =>
      let s := CHARS 17 (fprintf ("ar1;0;" ++ fmt_d max ++ ";") s)
      match node.TREE_TYPE with
      | none => .wild
      | some target => ref target s
  | .RECORD_TYPE | .UNION_TYPE =>
    let is_record : Bool := node.TREE_CODE = tree_code.RECORD_TYPE
    let xref : outcome :=
      let s := CHARS 3 (fprintf (if is_record then "xs" else "xu") s)
      (dbxout_type_name E type s).bind fun s =>
        let s := fprintf ":" s
        .done (set_typevec n typestatus.TYPE_XREF s)
    match node.TYPE_SIZE with
    | none => xref
    | some size =>
      if node.TYPE_NAME.isSome && !full then xref
      else
        let s := CHARS 11 (fprintf ((if is_record then "s" else "u") ++ fmt_d size) s)
        (dbxout_fields contin ref node.TYPE_FIELDS s).bind fun s =>
          .done (CHARS 1 (fprintf ";" s))
  | .ENUMERAL_TYPE =>
    if (node.TYPE_NAME.isSome && !full) || node.TYPE_SIZE.isNone then
      let s := CHARS 3 (fprintf "xe" s)
      (dbxout_type_name E type s).bind fun s =>
        let s := set_typevec n typestatus.TYPE_XREF s
        .done (fprintf ":" s)
    else
      let s := CHARS 1 (fprintf "e" s)
      let s := dbxout_values contin node.TYPE_VALUES s
      .done (CHARS 1 (fprintf ";" s))
  | .POINTER_TYPE =>
    let s := CHARS 1 (fprintf "*" s)
    match node.TREE_TYPE with
    | none => .wild
    | some target => ref target s
  | .FUNCTION_TYPE =>
    let s := CHARS 1 (fprintf "f" s)
    match node.TREE_TYPE with
    | none => .wild
    | some target => ref target s
  | .OTHER_TYPE => .done s

/-- The function `dbxout_type`, with the macro `CONTIN` as the parameter `contin`.
The first argument bounds the depth of the recursion. -/
def dbxout_type_with (contin : State → State) (E : Env) :
    Nat → tree → Bool → State → outcome
  | 0, _, _, _ => .nofuel
  | fuel + 1, type, full, s =>
    let s := assign_type_number type s
    let s := CHARS 3 (fprintf (Nat.repr (s.TYPE_SYMTAB_ADDRESS type)) s)
    match s.typevec[s.TYPE_SYMTAB_ADDRESS type]? with
    | none => .wild
    | some .TYPE_UNSEEN =>
      dbxout_type_definition contin E (fun t s => dbxout_type_with contin E fuel t false s)
        type full s
    | some .TYPE_XREF =>
      if !full then .done s
      else
        dbxout_type_definition contin E (fun t s => dbxout_type_with contin E fuel t false s)
          type full s
    | some .TYPE_DEFINED => .done s

/-- The function `dbxout_type` of the source. -/
def dbxout_type (E : Env) (fuel : Nat) (type : tree) (full : Bool) (s : State) : outcome :=
  dbxout_type_with (CONTIN E) E fuel type full s

/-! ## Symbols -/

/-- A `TREE_LIST` node of a chain of tags: `TREE_PURPOSE` is the tag name
(`none` when null), `TREE_VALUE` the type. -/
structure tag_link where
  TREE_PURPOSE : Option String
  TREE_VALUE : tree
deriving DecidableEq

/-- Tree codes of declaration nodes; `OTHER_DECL` is any code the switch of
`dbxout_symbol` has no case for. -/
inductive decl_code where
  | CONST_DECL
  | FUNCTION_DECL
  | TYPE_DECL
  | PARM_DECL
  | VAR_DECL
  | OTHER_DECL
deriving DecidableEq

/-- A declaration node.  `DECL_NAME` is `IDENTIFIER_POINTER (DECL_NAME (decl))`,
`DECL_INITIAL` says whether `DECL_INITIAL (decl)` is nonzero, and the two mode
sizes are `GET_MODE_SIZE (TYPE_MODE (DECL_ARG_TYPE (parms)))` and
`GET_MODE_SIZE (GET_MODE (DECL_RTL (parms)))`. -/
structure decl where
  TREE_CODE : decl_code
  DECL_NAME : String
  TREE_TYPE : tree
  TREE_EXTERNAL : Bool
  TREE_PUBLIC : Bool
  TREE_PERMANENT : Bool
  TREE_READONLY : Bool
  TREE_VOLATILE : Bool
  DECL_INITIAL : Bool
  DECL_RTL : rtx
  DECL_OFFSET : Int
  ARG_TYPE_MODE_SIZE : Int
  RTL_MODE_SIZE : Int
deriving DecidableEq

/-- A chain of statement nodes; `null` is the null pointer that ends a chain and
`OTHER_STMT` any statement `dbxout_block` has no case for. -/
inductive stmt where
  | null
  | COMPOUND_STMT (STMT_BODY : stmt) (TREE_CHAIN : stmt)
  | LOOP_STMT (STMT_BODY : stmt) (TREE_CHAIN : stmt)
  | IF_STMT (STMT_THEN : stmt) (STMT_ELSE : stmt) (TREE_CHAIN : stmt)
  | LET_STMT (STMT_TYPE_TAGS : List tag_link) (STMT_VARS : List decl) (STMT_BODY : stmt)
      (TREE_CHAIN : stmt)
  | OTHER_STMT (TREE_CHAIN : stmt)

/-- The function `dbxout_type_def`.  `DECL_NAME (TYPE_NAME (type))` is read
without a test, so a type whose name is not a `TYPE_DECL` gives `wild`. -/
def dbxout_type_def (E : Env) (fuel : Nat) (type : tree) (s : State) : outcome :=
  match (E.node type).TYPE_NAME with
  | some (.TYPE_DECL name) =>
    let s := { s with
      current_sym_code := E.N_LSYM
      current_sym_value := 0
      current_sym_addr := none
      current_sym_nchars := 2 + name.length }
    let s := fprintf (".stabs \"" ++ name ++ ":t") s
    (dbxout_type E fuel type true s).bind fun s =>
      .done (dbxout_finish_symbol E s)
  | _ => .wild

/-- The function `dbxout_types`. -/
def dbxout_types (E : Env) (fuel : Nat) : List tree → State → outcome
  | [], s => .done s
  | types :: chain, s =>
    match (E.node types).TYPE_NAME with
    | some (.TYPE_DECL _) =>
      (dbxout_type_def E fuel types s).bind fun s => dbxout_types E fuel chain s
    | _ => dbxout_types E fuel chain s

/-- The test `TYPE_SYMTAB_ADDRESS (type) == 0 || typevec[...] != TYPE_DEFINED` of
`dbxout_tags`; `none` when the read is outside `typevec`. -/
def tag_not_defined (type : tree) (s : State) : Option Bool :=
  if s.TYPE_SYMTAB_ADDRESS type = 0 then some true
  else
    match s.typevec[s.TYPE_SYMTAB_ADDRESS type]? with
    | none => none
    | some status => some (status != typestatus.TYPE_DEFINED)

/-- The function `dbxout_tags`. -/
def dbxout_tags (E : Env) (fuel : Nat) : List tag_link → State → outcome
  | [], s => .done s
  | link :: chain, s =>
    let type := link.TREE_VALUE
    match link.TREE_PURPOSE with
    | none => dbxout_tags E fuel chain s
    | some name =>
      match tag_not_defined type s with
      | none => .wild
      | some false => dbxout_tags E fuel chain s
      | some true =>
        if (E.node type).TYPE_SIZE.isNone then dbxout_tags E fuel chain s
        else
          let s := { s with
            current_sym_code := E.N_LSYM
            current_sym_value := 0
            current_sym_addr := none
            current_sym_nchars := 2 + name.length }
          let s := fprintf (".stabs \"" ++ name ++ ":T") s
          (dbxout_type E fuel type true s).bind fun s =>
            let s := dbxout_finish_symbol E s
            let s := set_typevec (s.TYPE_SYMTAB_ADDRESS type) typestatus.TYPE_DEFINED s
            dbxout_tags E fuel chain s

/-- The function `dbxout_init`.  `get_permanent_types` is what the call
`get_permanent_types ()` returns. -/
def dbxout_init (E : Env) (fuel : Nat) (get_permanent_types : List tree) (s : State) :
    outcome :=
  let s := { s with
    typevec_len := 100
    typevec := List.replicate 100 typestatus.TYPE_UNSEEN }
  let s := fprintf ("Ltext:\t.stabs \"" ++ E.input_filename ++ "\"," ++ fmt_d E.N_SO
    ++ ",0,0,Ltext\n") s
  let s := { s with next_type_number := 1, next_block_number := 2 }
  (dbxout_type_def E fuel E.integer_type_node s).bind fun s =>
    (dbxout_type_def E fuel E.char_type_node s).bind fun s =>
      dbxout_types E fuel get_permanent_types s

/-- The function `dbxout_symbol`.  `gettags` and `get_permanent_types` are what
the calls `gettags ()` and `get_permanent_types ()` return. -/
def dbxout_symbol (E : Env) (fuel : Nat) (gettags : List tag_link)
    (get_permanent_types : List tree) (decl : decl) (local_ : Bool) (s : State) : outcome :=
  (if local_ then outcome.done s
   else (dbxout_tags E fuel gettags s).bind fun s =>
     dbxout_types E fuel get_permanent_types s).bind fun s =>
  let s := { s with current_sym_code := 0, current_sym_value := 0, current_sym_addr := none }
  let s := { s with current_sym_nchars := 2 + decl.DECL_NAME.length }
  match decl.TREE_CODE with
  | .CONST_DECL => .done s
  | .FUNCTION_DECL =>
    if decl.TREE_EXTERNAL then .done s
    else
      match decl.DECL_RTL with
      | .MEM (.SYMBOL_REF name) =>
        let s := fprintf (".stabs \"" ++ decl.DECL_NAME ++ ":"
          ++ (if decl.TREE_PUBLIC then "F" else "f")) s
        let s := { s with
          current_sym_code := E.N_FUN
          current_sym_addr := some (.SYMBOL_REF name) }
        (match (E.node decl.TREE_TYPE).TREE_TYPE with
          | some type => dbxout_type E fuel type false s
          | none => dbxout_type E fuel E.void_type_node false s).bind fun s =>
        .done (dbxout_finish_symbol E s)
      | _ => .done s
  | .TYPE_DECL =>
    let s := fprintf (".stabs \"" ++ decl.DECL_NAME ++ ":t") s
    let s := { s with current_sym_code := E.N_LSYM }
    (dbxout_type E fuel decl.TREE_TYPE false s).bind fun s =>
      .done (dbxout_finish_symbol E s)
  | .PARM_DECL => .aborted s
  | .VAR_DECL =>
    if decl.TREE_EXTERNAL then .done s
    else if decl.DECL_RTL = .REG (-1) then .done s
    else
      let s := fprintf (".stabs \"" ++ decl.DECL_NAME ++ ":") s
      match decl.DECL_RTL with
      | .MEM (.SYMBOL_REF name) =>
        let s :=
          if decl.TREE_PUBLIC then
            fprintf "G" { s with current_sym_code := E.N_GSYM }
          else
            let s := { s with current_sym_addr := some (.SYMBOL_REF name) }
            let s :=
              if !decl.DECL_INITIAL then { s with current_sym_code := E.N_LCSYM }
              else if decl.TREE_READONLY && !decl.TREE_VOLATILE then
                { s with current_sym_code := E.N_FUN }
              else { s with current_sym_code := E.N_STSYM }
            fprintf (if decl.TREE_PERMANENT then "S" else "v") s
        (dbxout_type E fuel decl.TREE_TYPE false s).bind fun s =>
          .done (dbxout_finish_symbol E s)
      | .REG regno =>
        let s := { s with
          current_sym_code := E.N_RSYM
          current_sym_value := E.DBX_REGISTER_NUMBER regno }
        let s := fprintf "r" s
        (dbxout_type E fuel decl.TREE_TYPE false s).bind fun s =>
          .done (dbxout_finish_symbol E s)
      | .MEM (.PLUS _ (.CONST_INT value)) =>
        let s := { s with current_sym_code := E.N_LSYM, current_sym_value := value }
        (dbxout_type E fuel decl.TREE_TYPE false s).bind fun s =>
          .done (dbxout_finish_symbol E s)
      | _ => .wild
  | .OTHER_DECL => .done s

/-- The function `dbxout_syms`. -/
def dbxout_syms (E : Env) (fuel : Nat) : List decl → State → outcome
  | [], s => .done s
  | syms :: chain, s =>
    (dbxout_symbol E fuel [] [] syms true s).bind fun s => dbxout_syms E fuel chain s

/-- The function `dbxout_parms`. -/
def dbxout_parms (E : Env) (fuel : Nat) : List decl → State → outcome
  | [], s => .done s
  | parms :: chain, s =>
    let s := { s with
      current_sym_code := E.N_PSYM
      current_sym_value := Int.tdiv parms.DECL_OFFSET E.BITS_PER_UNIT }
    let s :=
      if E.BYTES_BIG_ENDIAN then
        { s with current_sym_value :=
            s.current_sym_value + (parms.ARG_TYPE_MODE_SIZE - parms.RTL_MODE_SIZE) }
      else s
    let s := { s with
      current_sym_addr := none
      current_sym_nchars := 2 + parms.DECL_NAME.length }
    let s := fprintf (".stabs \"" ++ parms.DECL_NAME ++ ":p") s
    (dbxout_type E fuel parms.TREE_TYPE false s).bind fun s =>
      dbxout_parms E fuel chain (dbxout_finish_symbol E s)

/-- The function `dbxout_reg_parms`. -/
def dbxout_reg_parms (E : Env) (fuel : Nat) : List decl → State → outcome
  | [], s => .done s
  | parms :: chain, s =>
    match parms.DECL_RTL with
    | .REG regno =>
      if regno ≥ 0 then
        let s := { s with
          current_sym_code := E.N_RSYM
          current_sym_value := E.DBX_REGISTER_NUMBER regno
          current_sym_addr := none
          current_sym_nchars := 2 + parms.DECL_NAME.length }
        let s := fprintf (".stabs \"" ++ parms.DECL_NAME ++ ":r") s
        (dbxout_type E fuel parms.TREE_TYPE false s).bind fun s =>
          dbxout_reg_parms E fuel chain (dbxout_finish_symbol E s)
      else dbxout_reg_parms E fuel chain s
    | _ => dbxout_reg_parms E fuel chain s

/-- The function `dbxout_block`. -/
def dbxout_block (E : Env) (fuel : Nat) : stmt → Nat → List decl → State → outcome
  | .null, _, _, s => .done s
  | .COMPOUND_STMT body chain, depth, args, s =>
    (dbxout_block E fuel body depth [] s).bind fun s =>
      dbxout_block E fuel chain depth args s
  | .LOOP_STMT body chain, depth, args, s =>
    (dbxout_block E fuel body depth [] s).bind fun s =>
      dbxout_block E fuel chain depth args s
  | .IF_STMT sthen selse chain, depth, args, s =>
    (dbxout_block E fuel sthen depth [] s).bind fun s =>
      (dbxout_block E fuel selse depth [] s).bind fun s =>
        dbxout_block E fuel chain depth args s
  | .LET_STMT tags vars body chain, depth, args, s =>
    (dbxout_tags E fuel tags s).bind fun s =>
      (dbxout_syms E fuel vars s).bind fun s =>
        (if args.isEmpty then outcome.done s else dbxout_reg_parms E fuel args s).bind fun s =>
          let blocknum := s.next_block_number
          let s :=
            if depth > 0 then
              fprintf (".stabn " ++ fmt_d E.N_LBRAC ++ ",0,0,LBB" ++ Nat.repr blocknum ++ "\n")
                { s with next_block_number := s.next_block_number + 1 }
            else s
          (dbxout_block E fuel body (depth + 1) [] s).bind fun s =>
            let s :=
              if depth > 0 then
                fprintf (".stabn " ++ fmt_d E.N_RBRAC ++ ",0,0,LBE" ++ Nat.repr blocknum ++ "\n") s
              else s
            dbxout_block E fuel chain depth args s
  | .OTHER_STMT chain, depth, args, s => dbxout_block E fuel chain depth args s

/-- A `FUNCTION_DECL` as `dbxout_function` reads it: the declaration, its
`DECL_ARGUMENTS` and the statement `DECL_INITIAL` points to. -/
structure function_decl where
  decl : Dbxout.decl
  DECL_ARGUMENTS : List Dbxout.decl
  DECL_INITIAL : stmt

/-- The function `dbxout_function`. -/
def dbxout_function (E : Env) (fuel : Nat) (gettags : List tag_link)
    (get_permanent_types : List tree) (decl : function_decl) (s : State) : outcome :=
  (dbxout_symbol E fuel gettags get_permanent_types decl.decl false s).bind fun s =>
    (dbxout_parms E fuel decl.DECL_ARGUMENTS s).bind fun s =>
      dbxout_block E fuel decl.DECL_INITIAL 0 decl.DECL_ARGUMENTS s

/-! ## Predicates of the specification -/

/-- The numbering invariant: numbers start at 1, every number in use is below
`next_type_number`, two nodes never share a number, and every number from 1 up
to `next_type_number - 1` is in use. -/
structure numbered (s : State) : Prop where
  next_pos : 1 ≤ s.next_type_number
  below : ∀ v, s.TYPE_SYMTAB_ADDRESS v < s.next_type_number
  distinct : ∀ v w, s.TYPE_SYMTAB_ADDRESS v = s.TYPE_SYMTAB_ADDRESS w →
    s.TYPE_SYMTAB_ADDRESS v ≠ 0 → v = w
  consecutive : ∀ k, 1 ≤ k → k < s.next_type_number → ∃ v, s.TYPE_SYMTAB_ADDRESS v = k

/-- The invariant of the status vector: `typevec_len` is its allocated length,
`next_type_number` is inside it, and no slot from `next_type_number` on has been
written. -/
structure typevec_ok (s : State) : Prop where
  len : s.typevec.length = s.typevec_len
  room : s.next_type_number < s.typevec_len
  unseen : ∀ i, s.next_type_number ≤ i → i < s.typevec_len →
    s.typevec[i]? = some typestatus.TYPE_UNSEEN

/-- A registry state as `dbxout_init` and the later calls leave it. -/
def well_formed (s : State) : Prop := numbered s ∧ typevec_ok s

/-- What every completed piece of the encoder guarantees between the state `s` it
starts in and the state `s'` it ends in. -/
structure Later (s s' : State) : Prop where
  next_le : s.next_type_number ≤ s'.next_type_number
  keep : ∀ v, s.TYPE_SYMTAB_ADDRESS v ≠ 0 → s'.TYPE_SYMTAB_ADDRESS v = s.TYPE_SYMTAB_ADDRESS v
  fresh : ∀ v, s'.TYPE_SYMTAB_ADDRESS v ≠ s.TYPE_SYMTAB_ADDRESS v →
    s.next_type_number ≤ s'.TYPE_SYMTAB_ADDRESS v ∧
      s'.TYPE_SYMTAB_ADDRESS v < s'.next_type_number
  status : ∀ (i : Nat) (st : typestatus), s.typevec[i]? = some st →
    ∃ st' : typestatus, s'.typevec[i]? = some st' ∧ st.rank ≤ st'.rank
  written : ∃ text, s'.asmfile = s.asmfile ++ text
  num : numbered s → numbered s'
  wf : well_formed s → well_formed s'

/-- The variables `dbxout_finish_symbol` reads are the same in both states. -/
def same_symbol (s s' : State) : Prop :=
  s'.current_sym_code = s.current_sym_code ∧ s'.current_sym_value = s.current_sym_value ∧
    s'.current_sym_addr = s.current_sym_addr ∧ s'.next_block_number = s.next_block_number

/-- The property `P` holds of the state a call ends in, if it ends normally or in
`abort ()`. -/
def outcome.ends_in (P : State → Prop) : outcome → Prop
  | .done s => P s
  | .aborted s => P s
  | .wild => True
  | .nofuel => True

/-- The node `v` has a number whose status is `TYPE_DEFINED`. -/
def defined_in (s : State) (v : tree) : Prop :=
  s.TYPE_SYMTAB_ADDRESS v ≠ 0 ∧
    s.typevec[s.TYPE_SYMTAB_ADDRESS v]? = some typestatus.TYPE_DEFINED

instance (s : State) (v : tree) : Decidable (defined_in s v) := by
  unfold defined_in; infer_instance

/-- The types `dbxout_type` goes on to from a node. -/
def type_node.children (node : type_node) : List tree :=
  match node.TREE_CODE with
  | .ARRAY_TYPE | .POINTER_TYPE | .FUNCTION_TYPE => node.TREE_TYPE.toList
  | .RECORD_TYPE | .UNION_TYPE =>
    (node.TYPE_FIELDS.filter fun tem => tem.DECL_NAME.isSome).map fun tem => tem.TREE_TYPE
  | _ => []

/-- The set `dom` of nodes holds every type `dbxout_type` can go on to from one
of its nodes. -/
def closed (E : Env) (dom : Finset tree) : Prop :=
  ∀ v ∈ dom, ∀ w ∈ (E.node v).children, w ∈ dom

instance (E : Env) (dom : Finset tree) : Decidable (closed E dom) := by
  unfold closed; infer_instance

/-- The node has what `dbxout_type` reads without a test: a size for a real type,
a domain and an element type for an array, a target for a pointer or function
type, and for a record, union or enum a name that is an identifier or a
`TYPE_DECL`, present when the size is not known. -/
def type_node.sound (node : type_node) : Bool :=
  match node.TREE_CODE with
  | .REAL_TYPE => node.TYPE_SIZE.isSome
  | .ARRAY_TYPE => node.TYPE_DOMAIN_MAX.isSome && node.TREE_TYPE.isSome
  | .POINTER_TYPE | .FUNCTION_TYPE => node.TREE_TYPE.isSome
  | .RECORD_TYPE | .UNION_TYPE | .ENUMERAL_TYPE =>
    node.TYPE_NAME != some name_node.OTHER && (node.TYPE_SIZE.isSome || node.TYPE_NAME.isSome)
  | _ => true

/-- The text `dbxout_finish_symbol` writes to end a record in state `s`. -/
def record_end (E : Env) (s : State) : String :=
  "\"," ++ fmt_d s.current_sym_code ++ ",0,0,"
    ++ (match s.current_sym_addr with
        | some addr => E.output_addr_const addr
        | none => fmt_d s.current_sym_value)
    ++ "\n"

/-- The text `dbxout_continue` writes in state `s`: the two backslashes, the end
of the record, and the start of the next record. -/
def continuation (E : Env) (s : State) : String :=
  "\\\\" ++ record_end E s ++ ".stabs \""

/-- One completed call of an entry point of the encoder, or of `dbxout_type`
or `dbxout_type_def`, leading from `s` to `s'`.  The environment is the one of
the call: the compiler may have made new nodes since the call before. -/
inductive encoder_step : State → State → Prop where
  | type (E : Env) (fuel : Nat) (type : tree) (full : Bool) (s s' : State) :
      dbxout_type E fuel type full s = outcome.done s' → encoder_step s s'
  | type_def (E : Env) (fuel : Nat) (type : tree) (s s' : State) :
      dbxout_type_def E fuel type s = outcome.done s' → encoder_step s s'
  | types (E : Env) (fuel : Nat) (types : List tree) (s s' : State) :
      dbxout_types E fuel types s = outcome.done s' → encoder_step s s'
  | tags (E : Env) (fuel : Nat) (tags : List tag_link) (s s' : State) :
      dbxout_tags E fuel tags s = outcome.done s' → encoder_step s s'
  | symbol (E : Env) (fuel : Nat) (gettags : List tag_link) (get_permanent_types : List tree)
      (decl : decl) (local_ : Bool) (s s' : State) :
      dbxout_symbol E fuel gettags get_permanent_types decl local_ s = outcome.done s' →
      encoder_step s s'
  | function (E : Env) (fuel : Nat) (gettags : List tag_link)
      (get_permanent_types : List tree) (decl : function_decl) (s s' : State) :
      dbxout_function E fuel gettags get_permanent_types decl s = outcome.done s' →
      encoder_step s s'

/-- The states reachable from `dbxout_init`, started when no type node has a
number, by any sequence of completed calls. -/
inductive reachable : State → Prop where
  | init (E : Env) (fuel : Nat) (get_permanent_types : List tree) (s s' : State) :
      (∀ v, s.TYPE_SYMTAB_ADDRESS v = 0) →
      dbxout_init E fuel get_permanent_types s = outcome.done s' → reachable s'
  | step (s s' : State) : reachable s → encoder_step s s' → reachable s'

/-- The nodes of `dom` that are not yet marked `TYPE_DEFINED`: the measure that
bounds the depth of the recursion of `dbxout_type`. -/
def undefined_nodes (dom : Finset tree) (s : State) : Finset tree :=
  dom.filter fun v => ¬ defined_in s v

/-- A call that does not run out of fuel and, when the inputs are good (`G`),
ends normally. -/
def outcome.fine (G : Prop) (o : outcome) : Prop :=
  o ≠ outcome.nofuel ∧ (G → ∃ s, o = outcome.done s)

/-- The state a call ends in, and `s` when it ends in none. -/
def outcome.state_or (o : outcome) (s : State) : State :=
  match o with
  | .done s' => s'
  | .aborted s' => s'
  | _ => s

/-- The text `dbxout_type` writes for a field whose type is written as its bare
number: name, `:`, type number, `,`, bit offset, `,`, bit size, `;`. -/
def field_text (s : State) (tem : field_decl) : String :=
  tem.DECL_NAME.getD "" ++ ":" ++ Nat.repr (s.TYPE_SYMTAB_ADDRESS tem.TREE_TYPE) ++ ","
    ++ fmt_d tem.DECL_OFFSET ++ "," ++ fmt_d (tem.DECL_SIZE * tem.DECL_SIZE_UNIT) ++ ";"

/-- What such a field adds to `current_sym_nchars`: `CHARS (1 + strlen (name))`,
`CHARS (3)` for the type number and `CHARS (23)`. -/
def field_chars (tem : field_decl) : Nat :=
  1 + (tem.DECL_NAME.getD "").length + 3 + 23

/-- The text `x` is the text `y` cut into pieces, each piece but the last
followed by `sep`; both start with `base`. -/
def pieces (sep base x y : String) : Prop :=
  ∃ segs : List String, segs ≠ [] ∧ x = base ++ String.intercalate sep segs ∧
    y = base ++ String.join segs

/-- The state `s` of the encoder that splits and the state `u` of the encoder
that does not, the same but for the character count and the continuations in
the text written since `base`. -/
structure split_of (E : Env) (sep base : String) (s u : State) : Prop where
  symtab : s.TYPE_SYMTAB_ADDRESS = u.TYPE_SYMTAB_ADDRESS
  typevec : s.typevec = u.typevec
  typevec_len : s.typevec_len = u.typevec_len
  next : s.next_type_number = u.next_type_number
  block : s.next_block_number = u.next_block_number
  code : s.current_sym_code = u.current_sym_code
  value : s.current_sym_value = u.current_sym_value
  addr : s.current_sym_addr = u.current_sym_addr
  text : pieces sep base s.asmfile u.asmfile
  sep_eq : continuation E s = sep

/-- The two encoders end the same way, in states related by `split_of`. -/
def split_outcome (E : Env) (sep base : String) : outcome → outcome → Prop
  | .done s, .done u => split_of E sep base s u
  | .aborted s, .aborted u => split_of E sep base s u
  | .wild, .wild => True
  | .nofuel, .nofuel => True
  | _, _ => False

/-- The function `dbxout_type` with the macro `CONTIN` doing nothing: the encoder
that never splits a description. -/
def dbxout_type_unsplit (E : Env) (fuel : Nat) (type : tree) (full : Bool) (s : State) :
    outcome :=
  dbxout_type_with (fun s => s) E fuel type full s

/-! ## A small compilation unit, for the examples -/

/-- A type node with nothing in it but its code and a size of 4 bytes. -/
def plain_node (code : tree_code) : type_node where
  TREE_CODE := code
  TYPE_NAME := none
  TYPE_SIZE := some 4
  TYPE_MIN_VALUE := 0
  TYPE_MAX_VALUE := 0
  TYPE_DOMAIN_MAX := none
  TREE_TYPE := none
  TYPE_FIELDS := []
  TYPE_VALUES := []

/-- The type nodes of the examples: `int` (1), `char` (2), `void` (3);
`struct { ... *next; }` (10) and the pointer to it (11);
`struct pair { int a; int b; }` (12); `struct list { struct list *next; }` (13)
and the pointer to it (15); a typedef of `unsigned char` with a name of 83
characters (14); `struct big` with five `int` fields (16); `struct gap` with a
nameless field, of the type 18, between two `int` fields (17); the type of the
functions that return `int` (19). -/
def example_node : tree → type_node
  | 1 => { plain_node .INTEGER_TYPE with
      TYPE_NAME := some (.TYPE_DECL "int")
      TYPE_MIN_VALUE := -2147483648
      TYPE_MAX_VALUE := 2147483647 }
  | 2 => { plain_node .INTEGER_TYPE with
      TYPE_NAME := some (.TYPE_DECL "char")
      TYPE_SIZE := some 1
      TYPE_MIN_VALUE := -128
      TYPE_MAX_VALUE := 127 }
  | 10 => { plain_node .RECORD_TYPE with
      TYPE_FIELDS := [⟨some "next", 11, 0, 32, 1⟩] }
  | 11 => { plain_node .POINTER_TYPE with TREE_TYPE := some 10 }
  | 12 => { plain_node .RECORD_TYPE with
      TYPE_NAME := some (.IDENTIFIER_NODE "pair")
      TYPE_SIZE := some 8
      TYPE_FIELDS := [⟨some "a", 1, 0, 32, 1⟩, ⟨some "b", 1, 32, 32, 1⟩] }
  | 13 => { plain_node .RECORD_TYPE with
      TYPE_NAME := some (.IDENTIFIER_NODE "list")
      TYPE_FIELDS := [⟨some "next", 15, 0, 32, 1⟩] }
  | 15 => { plain_node .POINTER_TYPE with TREE_TYPE := some 13 }
  | 14 => { plain_node .INTEGER_TYPE with
      TYPE_NAME := some (.TYPE_DECL
        "a_very_long_typedef_name_of_more_than_eighty_characters_for_an_unsigned_char_type_x")
      TYPE_SIZE := some 1
      TYPE_MIN_VALUE := 0
      TYPE_MAX_VALUE := 255 }
  | 16 => { plain_node .RECORD_TYPE with
      TYPE_NAME := some (.IDENTIFIER_NODE "big")
      TYPE_SIZE := some 20
      TYPE_FIELDS := [⟨some "alpha", 1, 0, 32, 1⟩, ⟨some "beta", 1, 32, 32, 1⟩,
        ⟨some "gamma", 1, 64, 32, 1⟩, ⟨some "delta", 1, 96, 32, 1⟩,
        ⟨some "epsilon", 1, 128, 32, 1⟩] }
  | 17 => { plain_node .RECORD_TYPE with
      TYPE_NAME := some (.IDENTIFIER_NODE "gap")
      TYPE_SIZE := some 12
      TYPE_FIELDS := [⟨some "a", 1, 0, 32, 1⟩, ⟨none, 18, 32, 32, 1⟩,
        ⟨some "b", 1, 64, 32, 1⟩] }
  | 19 => { plain_node .FUNCTION_TYPE with TREE_TYPE := some 1 }
  | _ => plain_node .VOID_TYPE

/-- The environment of the examples, with the `N_...` values of the BSD
`<stab.h>`. -/
def example_env : Env where
  node := example_node
  integer_type_node := 1
  char_type_node := 2
  void_type_node := 3
  input_filename := "t.c"
  N_SO := 100
  N_LSYM := 128
  N_FUN := 36
  N_GSYM := 32
  N_LCSYM := 40
  N_STSYM := 38
  N_RSYM := 64
  N_PSYM := 160
  N_LBRAC := 192
  N_RBRAC := 224
  output_addr_const := fun x =>
    match x with
    | .SYMBOL_REF name => "_" ++ name
    | _ => ""
  DBX_REGISTER_NUMBER := fun regno => regno
  BITS_PER_UNIT := 8
  BYTES_BIG_ENDIAN := true

/-- The state before `dbxout_init`: nothing written, no type node numbered. -/
def zero_state : State where
  asmfile := ""
  TYPE_SYMTAB_ADDRESS := fun _ => 0
  typevec := []
  typevec_len := 0
  next_type_number := 0
  next_block_number := 0
  current_sym_code := 0
  current_sym_value := 0
  current_sym_addr := none
  current_sym_nchars := 0

/-- The state `dbxout_init` leaves in the example, with no permanent types
beyond `int` and `char`. -/
def after_init : State :=
  (dbxout_init example_env 1 [] zero_state).state_or zero_state

/-- The state of the example at the start of a typedef symbol: as `after_init`,
with the character count of a symbol whose name has one character. -/
def at_symbol : State :=
  { after_init with current_sym_nchars := 3 }

/-- The state of the example after `struct pair` has been written as a
cross-reference. -/
def after_xref : State :=
  (dbxout_type example_env 3 12 false at_symbol).state_or zero_state

/-- The state of the example after `struct pair` has then been written in full. -/
def after_full : State :=
  (dbxout_type example_env 3 12 true after_xref).state_or zero_state

/-- The state of the example after `struct list` has been written as a
cross-reference. -/
def list_xref : State :=
  (dbxout_type example_env 3 13 false at_symbol).state_or zero_state

/-- The state of the example after `struct list` has then been written in full. -/
def list_full : State :=
  (dbxout_type example_env 3 13 true list_xref).state_or zero_state

/-- The description of the typedef of the example whose name has 83
characters, as `dbxout_type_def` writes it when it is the third type. -/
def long_description : String :=
  "a_very_long_typedef_name_of_more_than_eighty_characters_for_an_unsigned_char_type_x"
    ++ ":t3=r1;0;255;"

/-- The state of the example after `struct big` has been written in full. -/
def after_big : State :=
  (dbxout_type example_env 2 16 true at_symbol).state_or zero_state

/-! ## Symbols and blocks: predicates and examples -/

/-- A declaration with nothing in it but its code, name, type and `DECL_RTL`:
not external, not public, not permanent, no initial value. -/
def plain_decl (code : decl_code) (name : String) (type : tree) (rtl : rtx) : decl where
  TREE_CODE := code
  DECL_NAME := name
  TREE_TYPE := type
  TREE_EXTERNAL := false
  TREE_PUBLIC := false
  TREE_PERMANENT := false
  TREE_READONLY := false
  TREE_VOLATILE := false
  DECL_INITIAL := false
  DECL_RTL := rtl
  DECL_OFFSET := 0
  ARG_TYPE_MODE_SIZE := 4
  RTL_MODE_SIZE := 4

/-- The declaration `extern int x;` of the examples. -/
def extern_x : decl :=
  { plain_decl .VAR_DECL "x" 1 (.MEM (.SYMBOL_REF "x")) with
    TREE_EXTERNAL := true
    TREE_PUBLIC := true }

/-- The state in which `dbxout_symbol` starts the record of the declaration
`decl`, after the tags and types have been written. -/
def symbol_start (decl : decl) (s : State) : State :=
  { s with
    current_sym_code := 0
    current_sym_value := 0
    current_sym_addr := none
    current_sym_nchars := 2 + decl.DECL_NAME.length }

/-- The declaration of a parameter `n` of type `int` in the examples, passed at
offset 64 of the argument list and kept in register 5. -/
def parm_n : decl :=
  { plain_decl .PARM_DECL "n" 1 (.REG 5) with DECL_OFFSET := 64 }

/-- The state in which `dbxout_symbol` calls `dbxout_type` for the declaration
`decl`, but for the text written: the code, value and address of the symbol as
the case of the declaration has set them, and the count of the name. -/
def symbol_vars (decl : decl) (code value : Int) (addr : Option rtx) (s : State) : State :=
  { s with
    current_sym_code := code
    current_sym_value := value
    current_sym_addr := addr
    current_sym_nchars := 2 + decl.DECL_NAME.length }

/-- The declaration `int g;` of the examples, at file level: public, in static
storage at the address symbol `g`. -/
def public_g : decl :=
  { plain_decl .VAR_DECL "g" 1 (.MEM (.SYMBOL_REF "g")) with
    TREE_PUBLIC := true
    TREE_PERMANENT := true }

/-- The declaration `static int g;` of the examples: as `public_g`, not public. -/
def static_g : decl :=
  { public_g with TREE_PUBLIC := false }

/-- The declaration `static const volatile int k = 1;` of the examples. -/
def const_volatile_k : decl :=
  { plain_decl .VAR_DECL "k" 1 (.MEM (.SYMBOL_REF "k")) with
    TREE_PERMANENT := true
    TREE_READONLY := true
    TREE_VOLATILE := true
    DECL_INITIAL := true }

/-- The environment `E` with the nameless fields taken out of the field list of
the node `type`. -/
def without_nameless_fields (E : Env) (type : tree) : Env :=
  { E with
    node := Function.update E.node type
      { E.node type with
        TYPE_FIELDS := (E.node type).TYPE_FIELDS.filter fun tem => tem.DECL_NAME.isSome } }

/-- The state of the example inside a symbol whose description has reached 70
characters. -/
def at_long_symbol : State :=
  { after_init with current_sym_nchars := 70 }

/-- A marker record of `dbxout_block`: the beginning `LBBn` or the end `LBEn` of
the block with the number `n`. -/
inductive marker where
  | LBB (n : Nat)
  | LBE (n : Nat)
deriving DecidableEq

/-- The text of a marker record, as `dbxout_block` writes it. -/
def marker.text (E : Env) : marker → String
  | .LBB n => ".stabn " ++ fmt_d E.N_LBRAC ++ ",0,0,LBB" ++ Nat.repr n ++ "\n"
  | .LBE n => ".stabn " ++ fmt_d E.N_RBRAC ++ ",0,0,LBE" ++ Nat.repr n ++ "\n"

/-- A piece of the text `dbxout_block` writes: a marker record, or the records
of the symbols of one `LET_STMT`. -/
inductive piece where
  | mark (m : marker)
  | symbols (text : String)

/-- The text of a piece. -/
def piece.text (E : Env) : piece → String
  | .mark m => m.text E
  | .symbols text => text

/-- The marker of a piece that is one. -/
def piece.marker : piece → Option marker
  | .mark m => some m
  | .symbols _ => none

@[simp] theorem fprintf_asmfile (t : String) (s : State) :
    (fprintf t s).asmfile = s.asmfile ++ t := rfl
@[simp] theorem fprintf_symtab (t : String) (s : State) :
    (fprintf t s).TYPE_SYMTAB_ADDRESS = s.TYPE_SYMTAB_ADDRESS := rfl
@[simp] theorem fprintf_typevec (t : String) (s : State) :
    (fprintf t s).typevec = s.typevec := rfl
@[simp] theorem fprintf_typevec_len (t : String) (s : State) :
    (fprintf t s).typevec_len = s.typevec_len := rfl
@[simp] theorem fprintf_next (t : String) (s : State) :
    (fprintf t s).next_type_number = s.next_type_number := rfl
@[simp] theorem fprintf_code (t : String) (s : State) :
    (fprintf t s).current_sym_code = s.current_sym_code := rfl
@[simp] theorem fprintf_value (t : String) (s : State) :
    (fprintf t s).current_sym_value = s.current_sym_value := rfl
@[simp] theorem fprintf_addr (t : String) (s : State) :
    (fprintf t s).current_sym_addr = s.current_sym_addr := rfl
@[simp] theorem fprintf_nchars (t : String) (s : State) :
    (fprintf t s).current_sym_nchars = s.current_sym_nchars := rfl

@[simp] theorem CHARS_asmfile (n : Nat) (s : State) : (CHARS n s).asmfile = s.asmfile := rfl
@[simp] theorem CHARS_symtab (n : Nat) (s : State) :
    (CHARS n s).TYPE_SYMTAB_ADDRESS = s.TYPE_SYMTAB_ADDRESS := rfl
@[simp] theorem CHARS_typevec (n : Nat) (s : State) : (CHARS n s).typevec = s.typevec := rfl
@[simp] theorem CHARS_typevec_len (n : Nat) (s : State) :
    (CHARS n s).typevec_len = s.typevec_len := rfl
@[simp] theorem CHARS_next (n : Nat) (s : State) :
    (CHARS n s).next_type_number = s.next_type_number := rfl
@[simp] theorem CHARS_block (n : Nat) (s : State) :
    (CHARS n s).next_block_number = s.next_block_number := rfl
@[simp] theorem CHARS_code (n : Nat) (s : State) :
    (CHARS n s).current_sym_code = s.current_sym_code := rfl
@[simp] theorem CHARS_value (n : Nat) (s : State) :
    (CHARS n s).current_sym_value = s.current_sym_value := rfl
@[simp] theorem CHARS_addr (n : Nat) (s : State) :
    (CHARS n s).current_sym_addr = s.current_sym_addr := rfl
@[simp] theorem CHARS_nchars (n : Nat) (s : State) :
    (CHARS n s).current_sym_nchars = s.current_sym_nchars + n := rfl

@[simp] theorem set_typevec_asmfile (n : Nat) (v : typestatus) (s : State) :
    (set_typevec n v s).asmfile = s.asmfile := rfl
@[simp] theorem set_typevec_symtab (n : Nat) (v : typestatus) (s : State) :
    (set_typevec n v s).TYPE_SYMTAB_ADDRESS = s.TYPE_SYMTAB_ADDRESS := rfl
@[simp] theorem set_typevec_typevec (n : Nat) (v : typestatus) (s : State) :
    (set_typevec n v s).typevec = s.typevec.set n v := rfl
@[simp] theorem set_typevec_typevec_len (n : Nat) (v : typestatus) (s : State) :
    (set_typevec n v s).typevec_len = s.typevec_len := rfl
@[simp] theorem set_typevec_next (n : Nat) (v : typestatus) (s : State) :
    (set_typevec n v s).next_type_number = s.next_type_number := rfl
@[simp] theorem set_typevec_block (n : Nat) (v : typestatus) (s : State) :
    (set_typevec n v s).next_block_number = s.next_block_number := rfl
@[simp] theorem set_typevec_code (n : Nat) (v : typestatus) (s : State) :
    (set_typevec n v s).current_sym_code = s.current_sym_code := rfl
@[simp] theorem set_typevec_value (n : Nat) (v : typestatus) (s : State) :
    (set_typevec n v s).current_sym_value = s.current_sym_value := rfl
@[simp] theorem set_typevec_addr (n : Nat) (v : typestatus) (s : State) :
    (set_typevec n v s).current_sym_addr = s.current_sym_addr := rfl
@[simp] theorem set_typevec_nchars (n : Nat) (v : typestatus) (s : State) :
    (set_typevec n v s).current_sym_nchars = s.current_sym_nchars := rfl

theorem rank_le_two (st : typestatus) : st.rank ≤ 2 := by cases st <;> decide

theorem rank_defined {st : typestatus} (h : typestatus.TYPE_DEFINED.rank ≤ st.rank) :
    st = typestatus.TYPE_DEFINED := by
  cases st <;> first | rfl | exact absurd h (by decide)

theorem rank_le_xref {st : typestatus} (h : st ≠ typestatus.TYPE_DEFINED) :
    st.rank ≤ typestatus.TYPE_XREF.rank := by
  cases st <;> first | decide | exact absurd rfl h

theorem numbered_congr {s s' : State} (h1 : s'.TYPE_SYMTAB_ADDRESS = s.TYPE_SYMTAB_ADDRESS)
    (h2 : s'.next_type_number = s.next_type_number) (h : numbered s) : numbered s' := by
  obtain ⟨a, b, c, d⟩ := h
  exact ⟨by rw [h2]; exact a, by rw [h1, h2]; exact b, by rw [h1]; exact c,
    by rw [h1, h2]; exact d⟩

theorem typevec_ok_congr {s s' : State} (h1 : s'.typevec = s.typevec)
    (h2 : s'.typevec_len = s.typevec_len)
    (h3 : s'.next_type_number = s.next_type_number) (h : typevec_ok s) : typevec_ok s' := by
  obtain ⟨a, b, c⟩ := h
  exact ⟨by rw [h1, h2]; exact a, by rw [h2, h3]; exact b, by rw [h1, h2, h3]; exact c⟩

theorem Later.refl (s : State) : Later s s :=
  ⟨le_refl _, fun _ _ => rfl, fun _ h => absurd rfl h, fun _ st h => ⟨st, h, le_refl _⟩,
    ⟨"", (String.append_empty _).symm⟩, id, id⟩

theorem Later.trans {a b c : State} (h1 : Later a b) (h2 : Later b c) : Later a c := by
  refine ⟨le_trans h1.next_le h2.next_le, ?_, ?_, ?_, ?_, fun h => h2.num (h1.num h),
    fun h => h2.wf (h1.wf h)⟩
  · intro v hv
    have e1 := h1.keep v hv
    rw [h2.keep v (by rw [e1]; exact hv), e1]
  · intro v hv
    by_cases hab : b.TYPE_SYMTAB_ADDRESS v = a.TYPE_SYMTAB_ADDRESS v
    · have := h2.fresh v (by rw [hab]; exact hv)
      exact ⟨le_trans h1.next_le this.1, this.2⟩
    · have hf := h1.fresh v hab
      have ha0 : a.TYPE_SYMTAB_ADDRESS v = 0 := by
        by_contra h0
        exact hab (h1.keep v h0)
      have hb0 : b.TYPE_SYMTAB_ADDRESS v ≠ 0 := by
        intro h0; exact hab (by rw [h0, ha0])
      rw [h2.keep v hb0]
      exact ⟨hf.1, lt_of_lt_of_le hf.2 h2.next_le⟩
  · intro i st h
    obtain ⟨st1, e1, r1⟩ := h1.status i st h
    obtain ⟨st2, e2, r2⟩ := h2.status i st1 e1
    exact ⟨st2, e2, le_trans r1 r2⟩
  · obtain ⟨x, hx⟩ := h1.written
    obtain ⟨y, hy⟩ := h2.written
    exact ⟨x ++ y, by rw [hy, hx, String.append_assoc]⟩

/-- A step that leaves the registry alone. -/
theorem Later.of_eq {s s' : State} (h1 : s'.TYPE_SYMTAB_ADDRESS = s.TYPE_SYMTAB_ADDRESS)
    (h2 : s'.typevec = s.typevec) (h3 : s'.typevec_len = s.typevec_len)
    (h4 : s'.next_type_number = s.next_type_number)
    (h5 : ∃ text, s'.asmfile = s.asmfile ++ text) : Later s s' :=
  ⟨le_of_eq h4.symm, fun v _ => by rw [h1], fun v h => absurd (by rw [h1]) h,
    fun i st h => ⟨st, by rw [h2]; exact h, le_refl _⟩, h5, numbered_congr h1 h4,
    fun h => ⟨numbered_congr h1 h4 h.1, typevec_ok_congr h2 h3 h4 h.2⟩⟩

theorem getElem?_set_status (l : List typestatus) (n i : Nat) (v st : typestatus)
    (h : l[i]? = some st) :
    (l.set n v)[i]? = some (if n = i then v else st) := by
  rw [List.getElem?_set]
  split
  · next e =>
    subst e
    have : n < l.length := by
      rcases Nat.lt_or_ge n l.length with h' | h'
      · exact h'
      · rw [List.getElem?_eq_none h'] at h; cases h
    simp [this]
  · exact h

/-- A step that writes one status, not earlier than the one it replaces, at the
number of a node. -/
theorem Later.of_set {s s' : State} (type : tree) (v : typestatus)
    (h1 : s'.TYPE_SYMTAB_ADDRESS = s.TYPE_SYMTAB_ADDRESS)
    (h2 : s'.typevec = s.typevec.set (s.TYPE_SYMTAB_ADDRESS type) v)
    (h3 : s'.typevec_len = s.typevec_len)
    (h4 : s'.next_type_number = s.next_type_number)
    (h5 : ∃ text, s'.asmfile = s.asmfile ++ text)
    (h6 : ∀ st, s.typevec[s.TYPE_SYMTAB_ADDRESS type]? = some st → st.rank ≤ v.rank) :
    Later s s' := by
  refine ⟨le_of_eq h4.symm, fun v _ => by rw [h1], fun v h => absurd (by rw [h1]) h,
    ?_, h5, numbered_congr h1 h4, ?_⟩
  · intro i st h
    rw [h2, getElem?_set_status _ _ _ _ _ h]
    refine ⟨_, rfl, ?_⟩
    split
    · next e => subst e; exact h6 st h
    · exact le_refl _
  · intro h
    refine ⟨numbered_congr h1 h4 h.1, ?_⟩
    obtain ⟨a, b, c⟩ := h.2
    refine ⟨by rw [h2, h3, List.length_set]; exact a, by rw [h3, h4]; exact b, ?_⟩
    intro i hi hi'
    rw [h4] at hi
    rw [h3] at hi'
    have hne : s.TYPE_SYMTAB_ADDRESS type ≠ i := by
      have := h.1.below type
      omega
    rw [h2, List.getElem?_set_ne hne]
    exact c i hi hi'

theorem later_fprintf (text : String) (s : State) : Later s (fprintf text s) :=
  Later.of_eq rfl rfl rfl rfl ⟨text, rfl⟩

theorem later_CHARS (n : Nat) (s : State) : Later s (CHARS n s) :=
  Later.of_eq rfl rfl rfl rfl ⟨"", (String.append_empty _).symm⟩

theorem dbxout_finish_symbol_asmfile (E : Env) (s : State) :
    (dbxout_finish_symbol E s).asmfile = s.asmfile ++ record_end E s := by
  unfold dbxout_finish_symbol record_end
  cases h : s.current_sym_addr <;> simp [fprintf, h, String.append_assoc]

theorem dbxout_finish_symbol_eq (E : Env) (s : State) :
    dbxout_finish_symbol E s = fprintf (record_end E s) s := by
  unfold dbxout_finish_symbol record_end
  cases h : s.current_sym_addr <;> simp [fprintf, h, String.append_assoc]

theorem dbxout_continue_eq (E : Env) (s : State) :
    dbxout_continue E s =
      { fprintf (continuation E s) s with current_sym_nchars := 0 } := by
  simp only [dbxout_continue, continuation, dbxout_finish_symbol_eq]
  simp [fprintf, record_end, String.append_assoc]

theorem later_finish (E : Env) (s : State) : Later s (dbxout_finish_symbol E s) := by
  rw [dbxout_finish_symbol_eq]; exact later_fprintf _ _

theorem later_CONTIN (E : Env) (s : State) : Later s (CONTIN E s) := by
  unfold Dbxout.CONTIN
  split
  · rw [dbxout_continue_eq]
    exact Later.of_eq rfl rfl rfl rfl ⟨continuation E s, rfl⟩
  · exact Later.refl s

theorem same_symbol_refl (s : State) : same_symbol s s := ⟨rfl, rfl, rfl, rfl⟩

theorem same_symbol_trans {a b c : State} (h1 : same_symbol a b) (h2 : same_symbol b c) :
    same_symbol a c :=
  ⟨h2.1.trans h1.1, h2.2.1.trans h1.2.1, h2.2.2.1.trans h1.2.2.1, h2.2.2.2.trans h1.2.2.2⟩

theorem same_symbol_CONTIN (E : Env) (s : State) : same_symbol s (CONTIN E s) := by
  unfold Dbxout.CONTIN
  split
  · rw [dbxout_continue_eq]; exact ⟨rfl, rfl, rfl, rfl⟩
  · exact same_symbol_refl s

theorem later_assign (type : tree) (s : State) : Later s (assign_type_number type s) := by
  unfold assign_type_number
  by_cases h0 : s.TYPE_SYMTAB_ADDRESS type = 0
  swap
  · rw [if_neg h0]; exact Later.refl s
  rw [if_pos h0]
  -- the number is given, the vector may grow
  have key : ∀ s' : State,
      s'.TYPE_SYMTAB_ADDRESS = Function.update s.TYPE_SYMTAB_ADDRESS type s.next_type_number →
      s'.next_type_number = s.next_type_number + 1 →
      s'.asmfile = s.asmfile →
      ((s'.typevec = s.typevec ∧ s'.typevec_len = s.typevec_len ∧
          s.next_type_number + 1 ≠ s.typevec_len) ∨
        (s'.typevec = s.typevec ++ List.replicate s.typevec_len typestatus.TYPE_UNSEEN ∧
          s'.typevec_len = s.typevec_len * 2 ∧ s.next_type_number + 1 = s.typevec_len)) →
      Later s s' := by
    intro s' e1 e2 e3 e4
    have hnum : numbered s → numbered s' := by
      intro hn
      refine ⟨by omega, ?_, ?_, ?_⟩
      · intro v
        rw [e1, e2]
        by_cases hv : v = type
        · subst hv; simp
        · rw [Function.update_noteq hv]; have := hn.below v; omega
      · intro v w hvw hv
        rw [e1] at hvw hv
        by_cases hv' : v = type <;> by_cases hw' : w = type
        · rw [hv', hw']
        · exfalso
          rw [hv', Function.update_same, Function.update_noteq hw'] at hvw
          have := hn.below w; omega
        · exfalso
          rw [hw', Function.update_same, Function.update_noteq hv'] at hvw
          have := hn.below v; omega
        · rw [Function.update_noteq hv'] at hvw hv
          rw [Function.update_noteq hw'] at hvw
          exact hn.distinct v w hvw hv
      · intro k hk1 hk2
        rw [e2] at hk2
        rw [e1]
        by_cases hk : k = s.next_type_number
        · exact ⟨type, by rw [Function.update_same, hk]⟩
        · obtain ⟨v, hv⟩ := hn.consecutive k hk1 (by omega)
          refine ⟨v, ?_⟩
          have : v ≠ type := by
            intro e; rw [e, h0] at hv; omega
          rw [Function.update_noteq this, hv]
    refine ⟨by omega, ?_, ?_, ?_, ⟨"", by rw [e3, String.append_empty]⟩, hnum, ?_⟩
    · intro v hv
      have : v ≠ type := by intro e; rw [e] at hv; exact hv h0
      rw [e1, Function.update_noteq this]
    · intro v hv
      have : v = type := by
        by_contra hne
        rw [e1, Function.update_noteq hne] at hv
        exact hv rfl
      rw [this, e1, Function.update_same, e2]
      omega
    · intro i st hi
      refine ⟨st, ?_, le_refl _⟩
      rcases e4 with ⟨e, _, _⟩ | ⟨e, _, _⟩
      · rw [e]; exact hi
      · rw [e]
        have : i < s.typevec.length := by
          rcases Nat.lt_or_ge i s.typevec.length with h' | h'
          · exact h'
          · rw [List.getElem?_eq_none h'] at hi; cases hi
        rw [List.getElem?_append_left this]; exact hi
    · intro hwf
      refine ⟨hnum hwf.1, ?_⟩
      obtain ⟨a, b, c⟩ := hwf.2
      rcases e4 with ⟨e, e', hne⟩ | ⟨e, e', heq⟩
      · refine ⟨by rw [e, e']; exact a, by rw [e2, e']; omega, ?_⟩
        intro i hi hi'
        rw [e]
        exact c i (by omega) (by rw [e'] at hi'; exact hi')
      · refine ⟨by rw [e, e', List.length_append, List.length_replicate, a]; omega,
          by rw [e2, e']; omega, ?_⟩
        intro i hi hi'
        rw [e]
        rw [e'] at hi'
        by_cases hlt : i < s.typevec_len
        · rw [List.getElem?_append_left (by rw [a]; exact hlt)]
          exact c i (by omega) hlt
        · rw [List.getElem?_append_right (by rw [a]; omega)]
          rw [List.getElem?_replicate]
          simp only [ite_eq_left_iff, not_lt, reduceCtorEq, imp_false, not_le]
          rw [a]; omega
  simp only []
  split
  · next hg => exact key _ rfl rfl rfl (Or.inr ⟨rfl, rfl, hg⟩)
  · next hg => exact key _ rfl rfl rfl (Or.inl ⟨rfl, rfl, hg⟩)

/-! ## The relation `Later` across `dbxout_type` -/

theorem ends_in_mono {P Q : State → Prop} {o : outcome} (h : o.ends_in P)
    (hPQ : ∀ s, P s → Q s) : o.ends_in Q := by
  cases o with
  | done s => exact hPQ s h
  | aborted s => exact hPQ s h
  | wild => trivial
  | nofuel => trivial

theorem ends_in_bind {P Q : State → Prop} {o : outcome} {k : State → outcome}
    (ho : o.ends_in P) (hab : ∀ s, P s → Q s) (hk : ∀ s, P s → (k s).ends_in Q) :
    (o.bind k).ends_in Q := by
  cases o with
  | done s => exact hk s ho
  | aborted s => exact hab s ho
  | wild => trivial
  | nofuel => trivial

/-- Sequencing for a transitive relation: if `o` ends in a state related to `s`
and `k` ends in a state related to where it starts, so does `o.bind k`. -/
theorem ends_in_bind_later {s : State} {o : outcome} {k : State → outcome}
    (ho : o.ends_in (Later s)) (hk : ∀ s', Later s s' → (k s').ends_in (Later s')) :
    (o.bind k).ends_in (Later s) :=
  ends_in_bind ho (fun _ h => h) fun s' h => ends_in_mono (hk s' h) fun _ h' => h.trans h'

theorem dbxout_type_name_later (E : Env) (type : tree) (s : State) :
    (dbxout_type_name E type s).ends_in (Later s) := by
  unfold dbxout_type_name
  split
  · exact Later.refl s
  · exact (later_fprintf _ _).trans (later_CHARS _ _)
  · exact (later_fprintf _ _).trans (later_CHARS _ _)
  · exact Later.refl s

theorem dbxout_fields_later {contin : State → State} (hc : ∀ s, Later s (contin s))
    {ref : tree → State → outcome} (href : ∀ t s, (ref t s).ends_in (Later s))
    (fields : List field_decl) :
    ∀ s, (dbxout_fields contin ref fields s).ends_in (Later s) := by
  induction fields with
  | nil => intro s; exact Later.refl s
  | cons tem chain ih =>
    intro s
    unfold dbxout_fields
    split
    · exact ih s
    · next name _ =>
      have h1 : Later s (CHARS (1 + name.length) (fprintf (name ++ ":") (contin s))) :=
        (hc s).trans ((later_fprintf _ _).trans (later_CHARS _ _))
      refine ends_in_bind (ends_in_mono (href _ _) fun _ h => h1.trans h) (fun _ h => h) ?_
      intro s' hs'
      exact ends_in_mono (ih _) fun _ h =>
        hs'.trans (((later_fprintf _ _).trans (later_CHARS _ _)).trans h)

theorem dbxout_values_later {contin : State → State} (hc : ∀ s, Later s (contin s))
    (values : List (String × Int)) :
    ∀ s, Later s (dbxout_values contin values s) := by
  induction values with
  | nil => intro s; exact Later.refl s
  | cons tem chain ih =>
    intro s
    unfold dbxout_values
    simp only []
    have h1 : Later s (CHARS (11 + tem.1.length)
        (fprintf (tem.1 ++ ":" ++ fmt_d tem.2 ++ ",") s)) :=
      (later_fprintf _ _).trans (later_CHARS _ _)
    split
    · exact h1.trans (ih _)
    · exact h1.trans ((hc _).trans (ih _))

theorem later_step {s a : State} (t : String) (n : Nat) (h : Later s a) :
    Later s (CHARS n (fprintf t a)) :=
  h.trans ((later_fprintf _ _).trans (later_CHARS _ _))

theorem later_mark (type : tree) (s : State) :
    Later s (set_typevec (s.TYPE_SYMTAB_ADDRESS type) typestatus.TYPE_DEFINED s) :=
  Later.of_set type typestatus.TYPE_DEFINED rfl rfl rfl rfl
    ⟨"", (String.append_empty _).symm⟩ fun st _ => rank_le_two st

theorem dbxout_type_name_done (E : Env) (type : tree) (s s' : State)
    (h : dbxout_type_name E type s = outcome.done s') :
    ∃ name, s' = CHARS name.length (fprintf name s) ∧
      ((E.node type).TYPE_NAME = some (name_node.IDENTIFIER_NODE name) ∨
        (E.node type).TYPE_NAME = some (name_node.TYPE_DECL name)) := by
  unfold dbxout_type_name at h
  split at h
  · cases h
  · next name e => exact ⟨name, by cases h; rfl, Or.inl e⟩
  · next name e => exact ⟨name, by cases h; rfl, Or.inr e⟩
  · cases h

theorem dbxout_type_name_aborted (E : Env) (type : tree) (s s' : State)
    (h : dbxout_type_name E type s = outcome.aborted s') : s' = s := by
  unfold dbxout_type_name at h
  split at h <;> cases h <;> rfl

/-- The cross-reference branch of a record, union or enum, from the state `s` in
which the definition starts: the status written last is `TYPE_XREF`. -/
theorem xref_later (E : Env) (type : tree) (s : State) (tag : String)
    (wrap : State → State)
    (hwrap : ∀ s' : State, (wrap s').TYPE_SYMTAB_ADDRESS = s'.TYPE_SYMTAB_ADDRESS ∧
      (wrap s').typevec = s'.typevec.set (s.TYPE_SYMTAB_ADDRESS type) typestatus.TYPE_XREF ∧
      (wrap s').typevec_len = s'.typevec_len ∧
      (wrap s').next_type_number = s'.next_type_number ∧
      (wrap s').asmfile = s'.asmfile ++ ":")
    (hst : s.typevec[s.TYPE_SYMTAB_ADDRESS type]? ≠ some typestatus.TYPE_DEFINED) :
    ((dbxout_type_name E type (CHARS 3 (fprintf tag
        (set_typevec (s.TYPE_SYMTAB_ADDRESS type) typestatus.TYPE_DEFINED
          (CHARS 1 (fprintf "=" s)))))).bind fun s' =>
      outcome.done (wrap s')).ends_in (Later s) := by
  cases ho : dbxout_type_name E type (CHARS 3 (fprintf tag
        (set_typevec (s.TYPE_SYMTAB_ADDRESS type) typestatus.TYPE_DEFINED
          (CHARS 1 (fprintf "=" s))))) with
  | done s' =>
    obtain ⟨name, rfl, _⟩ := dbxout_type_name_done _ _ _ _ ho
    obtain ⟨w1, w2, w3, w4, w5⟩ := hwrap (CHARS name.length (fprintf name (CHARS 3 (fprintf tag
        (set_typevec (s.TYPE_SYMTAB_ADDRESS type) typestatus.TYPE_DEFINED
          (CHARS 1 (fprintf "=" s)))))))
    refine Later.of_set type typestatus.TYPE_XREF (by rw [w1]; rfl) ?_ (by rw [w3]; rfl)
      (by rw [w4]; rfl) ⟨"=" ++ tag ++ name ++ ":", ?_⟩ ?_
    · rw [w2]
      simp only [fprintf_typevec, CHARS_typevec, set_typevec_typevec, List.set_set]
    · rw [w5]
      simp only [fprintf_asmfile, CHARS_asmfile, set_typevec_asmfile, String.append_assoc]
    · intro st h
      exact rank_le_xref fun e => hst (by rw [h, e])
  | aborted s' =>
    rw [dbxout_type_name_aborted _ _ _ _ ho]
    exact later_step _ _ ((later_step "=" 1 (Later.refl s)).trans (later_mark type _))
  | wild => trivial
  | nofuel => trivial

theorem dbxout_type_definition_later {contin : State → State}
    (hc : ∀ s, Later s (contin s)) (E : Env)
    {ref : tree → State → outcome} (href : ∀ t s, (ref t s).ends_in (Later s))
    (type : tree) (full : Bool) (s : State)
    (hst : s.typevec[s.TYPE_SYMTAB_ADDRESS type]? ≠ some typestatus.TYPE_DEFINED) :
    (dbxout_type_definition contin E ref type full s).ends_in (Later s) := by
  have h2 : Later s (set_typevec (s.TYPE_SYMTAB_ADDRESS type) typestatus.TYPE_DEFINED
      (CHARS 1 (fprintf "=" s))) :=
    (later_step "=" 1 (Later.refl s)).trans (later_mark type _)
  have hx1 := fun tag => xref_later E type s tag
    (fun s' => set_typevec (s.TYPE_SYMTAB_ADDRESS type) typestatus.TYPE_XREF (fprintf ":" s'))
    (fun s' => ⟨rfl, rfl, rfl, rfl, rfl⟩) hst
  have hx2 := fun tag => xref_later E type s tag
    (fun s' => fprintf ":" (set_typevec (s.TYPE_SYMTAB_ADDRESS type) typestatus.TYPE_XREF s'))
    (fun s' => ⟨rfl, rfl, rfl, rfl, rfl⟩) hst
  have hrec : ∀ size : Int,
      ((if (E.node type).TYPE_NAME.isSome && !full then
          (dbxout_type_name E type (CHARS 3 (fprintf
            (if decide ((E.node type).TREE_CODE = tree_code.RECORD_TYPE) then "xs" else "xu")
            (set_typevec (s.TYPE_SYMTAB_ADDRESS type) typestatus.TYPE_DEFINED
              (CHARS 1 (fprintf "=" s)))))).bind fun s' =>
            outcome.done (set_typevec (s.TYPE_SYMTAB_ADDRESS type) typestatus.TYPE_XREF
              (fprintf ":" s'))
        else
          (dbxout_fields contin ref (E.node type).TYPE_FIELDS (CHARS 11 (fprintf
            ((if decide ((E.node type).TREE_CODE = tree_code.RECORD_TYPE) then "s" else "u")
              ++ fmt_d size)
            (set_typevec (s.TYPE_SYMTAB_ADDRESS type) typestatus.TYPE_DEFINED
              (CHARS 1 (fprintf "=" s)))))).bind fun s' =>
            outcome.done (CHARS 1 (fprintf ";" s')))).ends_in (Later s) := by
    intro size
    split
    · exact hx1 _
    · exact ends_in_bind
        (ends_in_mono (dbxout_fields_later hc href _ _) fun _ h => (later_step _ _ h2).trans h)
        (fun _ h => h) fun s' h => later_step ";" 1 h
  unfold dbxout_type_definition
  simp only []
  split
  · exact later_step _ _ h2
  · split
    · exact later_step _ _ h2
    · exact later_step _ _ h2
  · split
    · trivial
    · exact later_step _ _ h2
  · split
    · trivial
    · split
      · trivial
      · exact ends_in_mono (href _ _) fun _ h => (later_step _ _ h2).trans h
  · split
    · exact hx1 _
    · exact hrec _
  · split
    · exact hx1 _
    · exact hrec _
  · split
    · exact hx2 _
    · exact later_step ";" 1 ((later_step "e" 1 h2).trans (dbxout_values_later hc _ _))
  · split
    · trivial
    · exact ends_in_mono (href _ _) fun _ h => (later_step _ _ h2).trans h
  · split
    · trivial
    · exact ends_in_mono (href _ _) fun _ h => (later_step _ _ h2).trans h
  · exact h2

theorem dbxout_type_with_later {contin : State → State} (hc : ∀ s, Later s (contin s))
    (E : Env) : ∀ (fuel : Nat) (type : tree) (full : Bool) (s : State),
    (dbxout_type_with contin E fuel type full s).ends_in (Later s) := by
  intro fuel
  induction fuel with
  | zero => intro type full s; trivial
  | succ fuel ih =>
    intro type full s
    have h2 : Later s (CHARS 3 (fprintf
        (Nat.repr ((assign_type_number type s).TYPE_SYMTAB_ADDRESS type))
        (assign_type_number type s))) :=
      later_step _ _ (later_assign type s)
    have hdef : ∀ st, st ≠ typestatus.TYPE_DEFINED →
        (CHARS 3 (fprintf (Nat.repr ((assign_type_number type s).TYPE_SYMTAB_ADDRESS type))
          (assign_type_number type s))).typevec[(assign_type_number type s).TYPE_SYMTAB_ADDRESS
            type]? = some st →
        (dbxout_type_definition contin E (fun t s => dbxout_type_with contin E fuel t false s)
          type full (CHARS 3 (fprintf
            (Nat.repr ((assign_type_number type s).TYPE_SYMTAB_ADDRESS type))
            (assign_type_number type s)))).ends_in (Later s) := by
      intro st hne hst
      refine ends_in_mono (dbxout_type_definition_later hc E (fun t s => ih t false s) type full
        _ ?_) fun _ h => h2.trans h
      intro e
      simp only [CHARS_typevec, fprintf_typevec, CHARS_symtab, fprintf_symtab] at e hst
      rw [hst] at e
      exact hne (Option.some.inj e)
    unfold dbxout_type_with
    simp only []
    split
    · trivial
    · next h => exact hdef _ (by decide) h
    · next h =>
      split
      · exact h2
      · exact hdef _ (by decide) h
    · exact h2

theorem dbxout_type_later (E : Env) (fuel : Nat) (type : tree) (full : Bool) (s : State) :
    (dbxout_type E fuel type full s).ends_in (Later s) :=
  dbxout_type_with_later (later_CONTIN E) E fuel type full s

/-- A reflexive and transitive relation that holds across each elementary step
of `dbxout_type` holds across every call of it. -/
theorem dbxout_type_with_preserves (R : State → State → Prop)
    (hrefl : ∀ s, R s s) (htrans : ∀ a b c, R a b → R b c → R a c)
    (hf : ∀ t s, R s (fprintf t s)) (hC : ∀ n s, R s (CHARS n s))
    (hset : ∀ n v s, R s (set_typevec n v s)) (ha : ∀ t s, R s (assign_type_number t s))
    {contin : State → State} (hc : ∀ s, R s (contin s)) (E : Env) :
    ∀ (fuel : Nat) (type : tree) (full : Bool) (s : State),
    (dbxout_type_with contin E fuel type full s).ends_in (R s) := by
  have step : ∀ {s a : State} (t : String) (n : Nat), R s a → R s (CHARS n (fprintf t a)) :=
    fun t n h => htrans _ _ _ h (htrans _ _ _ (hf _ _) (hC _ _))
  have hname : ∀ type s, (dbxout_type_name E type s).ends_in (R s) := by
    intro type s
    unfold dbxout_type_name
    split
    · exact hrefl s
    · exact step _ _ (hrefl s)
    · exact step _ _ (hrefl s)
    · exact hrefl s
  have hfields : ∀ (ref : tree → State → outcome), (∀ t s, (ref t s).ends_in (R s)) →
      ∀ fields s, (dbxout_fields contin ref fields s).ends_in (R s) := by
    intro ref href fields
    induction fields with
    | nil => intro s; exact hrefl s
    | cons tem chain ih =>
      intro s
      unfold dbxout_fields
      split
      · exact ih s
      · next name _ =>
        refine ends_in_bind (ends_in_mono (href _ _) fun _ h =>
          htrans _ _ _ (htrans _ _ _ (hc s) (step (name ++ ":") (1 + name.length) (hrefl _))) h)
          (fun _ h => h) ?_
        intro s' hs'
        exact ends_in_mono (ih _) fun _ h => htrans _ _ _ (step _ _ hs') h
  have hvalues : ∀ values s, R s (dbxout_values contin values s) := by
    intro values
    induction values with
    | nil => intro s; exact hrefl s
    | cons tem chain ih =>
      intro s
      unfold dbxout_values
      simp only []
      have h1 : R s (CHARS (11 + tem.1.length)
          (fprintf (tem.1 ++ ":" ++ fmt_d tem.2 ++ ",") s)) := step _ _ (hrefl s)
      split
      · exact htrans _ _ _ h1 (ih _)
      · exact htrans _ _ _ h1 (htrans _ _ _ (hc _) (ih _))
  have hdef : ∀ (ref : tree → State → outcome), (∀ t s, (ref t s).ends_in (R s)) →
      ∀ type full s, (dbxout_type_definition contin E ref type full s).ends_in (R s) := by
    intro ref href type full s
    have h2 : R s (set_typevec (s.TYPE_SYMTAB_ADDRESS type) typestatus.TYPE_DEFINED
        (CHARS 1 (fprintf "=" s))) :=
      htrans _ _ _ (step "=" 1 (hrefl s)) (hset _ _ _)
    have hx1 : ∀ tag, ((dbxout_type_name E type (CHARS 3 (fprintf tag
        (set_typevec (s.TYPE_SYMTAB_ADDRESS type) typestatus.TYPE_DEFINED
          (CHARS 1 (fprintf "=" s)))))).bind fun s' =>
        outcome.done (set_typevec (s.TYPE_SYMTAB_ADDRESS type) typestatus.TYPE_XREF
          (fprintf ":" s'))).ends_in (R s) := fun tag =>
      ends_in_bind (ends_in_mono (hname _ _) fun _ h => htrans _ _ _ (step tag 3 h2) h)
        (fun _ h => h) fun s' h => htrans _ _ _ (htrans _ _ _ h (hf _ _)) (hset _ _ _)
    have hx2 : ∀ tag, ((dbxout_type_name E type (CHARS 3 (fprintf tag
        (set_typevec (s.TYPE_SYMTAB_ADDRESS type) typestatus.TYPE_DEFINED
          (CHARS 1 (fprintf "=" s)))))).bind fun s' =>
        outcome.done (fprintf ":" (set_typevec (s.TYPE_SYMTAB_ADDRESS type)
          typestatus.TYPE_XREF s'))).ends_in (R s) := fun tag =>
      ends_in_bind (ends_in_mono (hname _ _) fun _ h => htrans _ _ _ (step tag 3 h2) h)
        (fun _ h => h) fun s' h => htrans _ _ _ (htrans _ _ _ h (hset _ _ _)) (hf _ _)
    have hrec : ∀ (tag : String) (s2 : State), R s s2 →
        ((dbxout_fields contin ref (E.node type).TYPE_FIELDS (CHARS 11 (fprintf tag s2))).bind
          fun s' => outcome.done (CHARS 1 (fprintf ";" s'))).ends_in (R s) := fun tag s2 h =>
      ends_in_bind (ends_in_mono (hfields ref href _ _) fun _ h' =>
        htrans _ _ _ (step tag 11 h) h') (fun _ h => h) fun s' h => step ";" 1 h
    unfold dbxout_type_definition
    simp only []
    split
    · exact step _ _ h2
    · split
      · exact step _ _ h2
      · exact step _ _ h2
    · split
      · trivial
      · exact step _ _ h2
    · split
      · trivial
      · split
        · trivial
        · exact ends_in_mono (href _ _) fun _ h => htrans _ _ _ (step _ _ h2) h
    · split
      · exact hx1 _
      · split
        · exact hx1 _
        · exact hrec _ _ h2
    · split
      · exact hx1 _
      · split
        · exact hx1 _
        · exact hrec _ _ h2
    · split
      · exact hx2 _
      · exact step ";" 1 (htrans _ _ _ (step "e" 1 h2) (hvalues _ _))
    · split
      · trivial
      · exact ends_in_mono (href _ _) fun _ h => htrans _ _ _ (step _ _ h2) h
    · split
      · trivial
      · exact ends_in_mono (href _ _) fun _ h => htrans _ _ _ (step _ _ h2) h
    · exact h2
  intro fuel
  induction fuel with
  | zero => intro type full s; trivial
  | succ fuel ih =>
    intro type full s
    have h2 : R s (CHARS 3 (fprintf
        (Nat.repr ((assign_type_number type s).TYPE_SYMTAB_ADDRESS type))
        (assign_type_number type s))) :=
      htrans _ _ _ (ha type s) (step _ _ (hrefl _))
    have hd := fun s' (h : R s s') => ends_in_mono (hdef
      (fun t s => dbxout_type_with contin E fuel t false s) (fun t s => ih t false s)
      type full s') fun _ h' => htrans _ _ _ h h'
    unfold dbxout_type_with
    simp only []
    split
    · trivial
    · exact hd _ h2
    · split
      · exact h2
      · exact hd _ h2
    · exact h2

theorem same_symbol_assign (type : tree) (s : State) :
    same_symbol s (assign_type_number type s) := by
  unfold assign_type_number
  split
  · simp only []
    split <;> exact ⟨rfl, rfl, rfl, rfl⟩
  · exact same_symbol_refl s

theorem dbxout_type_with_same_symbol {contin : State → State}
    (hc : ∀ s, same_symbol s (contin s)) (E : Env) (fuel : Nat) (type : tree) (full : Bool)
    (s : State) : (dbxout_type_with contin E fuel type full s).ends_in (same_symbol s) :=
  dbxout_type_with_preserves same_symbol same_symbol_refl
    (fun _ _ _ => same_symbol_trans) (fun _ _ => ⟨rfl, rfl, rfl, rfl⟩)
    (fun _ _ => ⟨rfl, rfl, rfl, rfl⟩) (fun _ _ _ => ⟨rfl, rfl, rfl, rfl⟩)
    same_symbol_assign hc E fuel type full s

/-! ## The relation `Later` across the entry points -/

/-- A step that writes neither the registry nor the assembler file. -/
theorem later_quiet {s s' : State} (h1 : s'.TYPE_SYMTAB_ADDRESS = s.TYPE_SYMTAB_ADDRESS)
    (h2 : s'.typevec = s.typevec) (h3 : s'.typevec_len = s.typevec_len)
    (h4 : s'.next_type_number = s.next_type_number) (h5 : s'.asmfile = s.asmfile) :
    Later s s' :=
  Later.of_eq h1 h2 h3 h4 ⟨"", by rw [h5, String.append_empty]⟩

/-- Setting the variables of the current symbol is a step that writes neither
the registry nor the assembler file. -/
theorem later_sym (c v : Int) (a : Option rtx) (n : Nat) (s : State) :
    Later s { s with current_sym_code := c, current_sym_value := v, current_sym_addr := a,
                     current_sym_nchars := n } :=
  later_quiet rfl rfl rfl rfl rfl

/-- A symbol written by `dbxout_type` between a start of record and
`dbxout_finish_symbol`. -/
theorem symbol_later (E : Env) (fuel : Nat) (type : tree) (full : Bool) {s s1 : State}
    (h : Later s s1) :
    ((dbxout_type E fuel type full s1).bind fun s =>
      outcome.done (dbxout_finish_symbol E s)).ends_in (Later s) :=
  ends_in_bind (ends_in_mono (dbxout_type_later E fuel type full s1) fun _ h' => h.trans h')
    (fun _ h => h) fun s' h' => h'.trans (later_finish E s')

theorem dbxout_type_def_later (E : Env) (fuel : Nat) (type : tree) (s : State) :
    (dbxout_type_def E fuel type s).ends_in (Later s) := by
  unfold dbxout_type_def
  split
  · refine symbol_later E fuel type true ?_
    refine Later.trans ?_ (later_fprintf _ _)
    exact later_sym _ _ _ _ s
  · trivial

theorem dbxout_types_later (E : Env) (fuel : Nat) (types : List tree) :
    ∀ s, (dbxout_types E fuel types s).ends_in (Later s) := by
  induction types with
  | nil => intro s; exact Later.refl s
  | cons t chain ih =>
    intro s
    unfold dbxout_types
    split
    · exact ends_in_bind_later (dbxout_type_def_later E fuel t s) fun s' _ => ih s'
    · exact ih s

theorem dbxout_tags_later (E : Env) (fuel : Nat) (tags : List tag_link) :
    ∀ s, (dbxout_tags E fuel tags s).ends_in (Later s) := by
  induction tags with
  | nil => intro s; exact Later.refl s
  | cons link chain ih =>
    intro s
    unfold dbxout_tags
    simp only []
    split
    · exact ih s
    · split
      · trivial
      · exact ih s
      · split
        · exact ih s
        · refine ends_in_bind_later (ends_in_mono (dbxout_type_later E fuel _ true _)
            fun _ h => Later.trans ?_ h) ?_
          · refine Later.trans ?_ (later_fprintf _ _)
            exact later_sym _ _ _ _ s
          intro s' _
          exact ends_in_mono (ih _) fun _ h =>
            ((later_finish E s').trans (later_mark _ _)).trans h

theorem dbxout_symbol_later (E : Env) (fuel : Nat) (gettags : List tag_link)
    (get_permanent_types : List tree) (decl : decl) (local_ : Bool) (s : State) :
    (dbxout_symbol E fuel gettags get_permanent_types decl local_ s).ends_in (Later s) := by
  unfold dbxout_symbol
  have h0 : (if local_ then outcome.done s
      else (dbxout_tags E fuel gettags s).bind fun s =>
        dbxout_types E fuel get_permanent_types s).ends_in (Later s) := by
    split
    · exact Later.refl s
    · exact ends_in_bind_later (dbxout_tags_later E fuel gettags s) fun s' _ =>
        dbxout_types_later E fuel _ s'
  refine ends_in_bind_later h0 ?_
  intro s' _
  have q : ∀ {a b : State}, b.TYPE_SYMTAB_ADDRESS = a.TYPE_SYMTAB_ADDRESS →
      b.typevec = a.typevec → b.typevec_len = a.typevec_len →
      b.next_type_number = a.next_type_number → b.asmfile = a.asmfile → Later a b :=
    fun h1 h2 h3 h4 h5 => later_quiet h1 h2 h3 h4 h5
  simp only []
  split
  · exact later_sym _ _ _ _ s'
  · split
    · exact later_sym _ _ _ _ s'
    · split
      · refine ends_in_bind (Q := Later s') ?_ (fun _ h => h) fun s2 h =>
          h.trans (later_finish E s2)
        split
        · refine ends_in_mono (dbxout_type_later E fuel _ false _) fun _ h => Later.trans ?_ h
          refine Later.trans ?_ (later_sym _ _ _ _ _)
          refine Later.trans ?_ (later_fprintf _ _)
          exact later_sym _ _ _ _ s'
        · refine ends_in_mono (dbxout_type_later E fuel _ false _) fun _ h => Later.trans ?_ h
          refine Later.trans ?_ (later_sym _ _ _ _ _)
          refine Later.trans ?_ (later_fprintf _ _)
          exact later_sym _ _ _ _ s'
      · exact later_sym _ _ _ _ s'
  · refine symbol_later E fuel _ false ?_
    refine Later.trans ?_ (later_sym _ _ _ _ _)
    refine Later.trans ?_ (later_fprintf _ _)
    exact later_sym _ _ _ _ s'
  · exact later_sym _ _ _ _ s'
  · split
    · exact later_sym _ _ _ _ s'
    · split
      · exact later_sym _ _ _ _ s'
      · have h1 : Later s' (fprintf (".stabs \"" ++ decl.DECL_NAME ++ ":")
            { s' with current_sym_code := 0, current_sym_value := 0,
                      current_sym_addr := none,
                      current_sym_nchars := 2 + decl.DECL_NAME.length }) :=
          (later_sym _ _ _ _ s').trans (later_fprintf _ _)
        split
        · refine symbol_later E fuel _ false ?_
          split
          · refine Later.trans ?_ (later_fprintf _ _)
            exact h1.trans (later_sym _ _ _ _ _)
          · refine Later.trans ?_ (later_fprintf _ _)
            split
            · exact h1.trans (later_sym _ _ _ _ _)
            · split
              · exact h1.trans (later_sym _ _ _ _ _)
              · exact h1.trans (later_sym _ _ _ _ _)
        · refine symbol_later E fuel _ false ?_
          refine Later.trans ?_ (later_fprintf _ _)
          exact h1.trans (later_sym _ _ _ _ _)
        · refine symbol_later E fuel _ false ?_
          exact h1.trans (later_sym _ _ _ _ _)
        · trivial
  · exact later_sym _ _ _ _ s'

theorem dbxout_syms_later (E : Env) (fuel : Nat) (syms : List decl) :
    ∀ s, (dbxout_syms E fuel syms s).ends_in (Later s) := by
  induction syms with
  | nil => intro s; exact Later.refl s
  | cons d chain ih =>
    intro s
    unfold dbxout_syms
    exact ends_in_bind_later (dbxout_symbol_later E fuel [] [] d true s) fun s' _ => ih s'

theorem dbxout_parms_later (E : Env) (fuel : Nat) (parms : List decl) :
    ∀ s, (dbxout_parms E fuel parms s).ends_in (Later s) := by
  induction parms with
  | nil => intro s; exact Later.refl s
  | cons d chain ih =>
    intro s
    unfold dbxout_parms
    simp only []
    refine ends_in_bind_later (ends_in_mono (dbxout_type_later E fuel _ false _)
      fun _ h => Later.trans ?_ h) ?_
    · refine Later.trans ?_ (later_fprintf _ _)
      refine Later.trans ?_ (later_sym _ _ _ _ _)
      split
      · exact (later_sym _ _ _ _ s).trans (later_sym _ _ _ _ _)
      · exact later_sym _ _ _ _ s
    · intro s' _
      exact ends_in_mono (ih _) fun _ h => (later_finish E s').trans h

theorem dbxout_reg_parms_later (E : Env) (fuel : Nat) (parms : List decl) :
    ∀ s, (dbxout_reg_parms E fuel parms s).ends_in (Later s) := by
  induction parms with
  | nil => intro s; exact Later.refl s
  | cons d chain ih =>
    intro s
    unfold dbxout_reg_parms
    split
    · split
      · refine ends_in_bind_later (ends_in_mono (dbxout_type_later E fuel _ false _)
          fun _ h => Later.trans ?_ h) ?_
        · refine Later.trans ?_ (later_fprintf _ _)
          exact later_sym _ _ _ _ s
        · intro s' _
          exact ends_in_mono (ih _) fun _ h => (later_finish E s').trans h
      · exact ih s
    · exact ih s

theorem later_block_number (n : Nat) (s : State) :
    Later s { s with next_block_number := n } :=
  later_quiet rfl rfl rfl rfl rfl

theorem dbxout_block_later (E : Env) (fuel : Nat) (stmt : stmt) :
    ∀ (depth : Nat) (args : List decl) (s : State),
      (dbxout_block E fuel stmt depth args s).ends_in (Later s) := by
  induction stmt with
  | null => intro depth args s; exact Later.refl s
  | COMPOUND_STMT body chain ihb ihc =>
    intro depth args s
    unfold dbxout_block
    exact ends_in_bind_later (ihb depth [] s) fun s' _ => ihc depth args s'
  | LOOP_STMT body chain ihb ihc =>
    intro depth args s
    unfold dbxout_block
    exact ends_in_bind_later (ihb depth [] s) fun s' _ => ihc depth args s'
  | IF_STMT sthen selse chain iht ihe ihc =>
    intro depth args s
    unfold dbxout_block
    exact ends_in_bind_later (iht depth [] s) fun s' _ =>
      ends_in_bind_later (ihe depth [] s') fun s'' _ => ihc depth args s''
  | LET_STMT tags vars body chain ihb ihc =>
    intro depth args s
    unfold dbxout_block
    refine ends_in_bind_later (dbxout_tags_later E fuel tags s) fun s1 _ => ?_
    refine ends_in_bind_later (dbxout_syms_later E fuel vars s1) fun s2 _ => ?_
    have h3 : (if args.isEmpty then outcome.done s2
        else dbxout_reg_parms E fuel args s2).ends_in (Later s2) := by
      split
      · exact Later.refl s2
      · exact dbxout_reg_parms_later E fuel args s2
    refine ends_in_bind_later h3 fun s3 _ => ?_
    simp only []
    refine ends_in_bind_later (ends_in_mono (ihb _ _ _) fun _ h => Later.trans ?_ h) ?_
    · split
      · exact (later_block_number _ s3).trans (later_fprintf _ _)
      · exact Later.refl s3
    · intro s4 _
      refine ends_in_mono (ihc _ _ _) fun _ h => Later.trans ?_ h
      split
      · exact later_fprintf _ _
      · exact Later.refl s4
  | OTHER_STMT chain ihc =>
    intro depth args s
    unfold dbxout_block
    exact ihc depth args s

theorem dbxout_function_later (E : Env) (fuel : Nat) (gettags : List tag_link)
    (get_permanent_types : List tree) (decl : function_decl) (s : State) :
    (dbxout_function E fuel gettags get_permanent_types decl s).ends_in (Later s) := by
  unfold dbxout_function
  exact ends_in_bind_later (dbxout_symbol_later E fuel _ _ _ false s) fun s1 _ =>
    ends_in_bind_later (dbxout_parms_later E fuel _ s1) fun s2 _ =>
      dbxout_block_later E fuel _ 0 _ s2

/-- The status vector `dbxout_init` sets up satisfies its invariant. -/
theorem typevec_ok_start (s : State) (h1 : s.next_type_number = 1)
    (h2 : s.typevec_len = 100)
    (h3 : s.typevec = List.replicate 100 typestatus.TYPE_UNSEEN) : typevec_ok s := by
  refine ⟨by rw [h3, h2, List.length_replicate], by omega, ?_⟩
  intro i _ hi
  rw [h3, List.getElem?_replicate]
  simp only [ite_eq_left_iff, not_lt, reduceCtorEq, imp_false, not_le]
  omega

/-- The registry `dbxout_init` sets up before it writes the standard types is
well formed when no type node has a number. -/
theorem well_formed_start (s : State) (h0 : ∀ v, s.TYPE_SYMTAB_ADDRESS v = 0)
    (h1 : s.next_type_number = 1) (h2 : s.typevec_len = 100)
    (h3 : s.typevec = List.replicate 100 typestatus.TYPE_UNSEEN) : well_formed s := by
  refine ⟨⟨by omega, fun v => by rw [h0, h1]; omega, fun v w _ hv => absurd (h0 v) hv, ?_⟩,
    typevec_ok_start s h1 h2 h3⟩
  intro k hk1 hk2; omega

theorem dbxout_init_well_formed (E : Env) (fuel : Nat) (get_permanent_types : List tree)
    (s : State) (h0 : ∀ v, s.TYPE_SYMTAB_ADDRESS v = 0) :
    (dbxout_init E fuel get_permanent_types s).ends_in well_formed := by
  unfold dbxout_init
  simp only []
  have hs := well_formed_start
    { fprintf ("Ltext:\t.stabs \"" ++ E.input_filename ++ "\"," ++ fmt_d E.N_SO
        ++ ",0,0,Ltext\n")
        { s with typevec_len := 100, typevec := List.replicate 100 typestatus.TYPE_UNSEEN } with
      next_type_number := 1, next_block_number := 2 } h0 rfl rfl rfl
  refine ends_in_bind (ends_in_mono (dbxout_type_def_later E fuel _ _) fun _ h => h.wf hs)
    (fun _ h => h) fun s1 h1 => ?_
  refine ends_in_bind (ends_in_mono (dbxout_type_def_later E fuel _ _) fun _ h => h.wf h1)
    (fun _ h => h) fun s2 h2 => ?_
  exact ends_in_mono (dbxout_types_later E fuel _ _) fun _ h => h.wf h2

/-! ## Termination -/

theorem fine_done (G : Prop) (s : State) : (outcome.done s).fine G :=
  ⟨fun h => (by cases h), fun _ => ⟨s, rfl⟩⟩

theorem fine_bad (G : Prop) (o : outcome) (h : o ≠ outcome.nofuel) (hG : ¬ G) : o.fine G :=
  ⟨h, fun g => absurd g hG⟩

theorem fine_bind {G : Prop} {o : outcome} {k : State → outcome} (ho : o.fine G)
    (hk : ∀ s, o = outcome.done s → (k s).fine G) : (o.bind k).fine G := by
  cases o with
  | done s => exact hk s rfl
  | aborted s =>
    refine ⟨fun h => (by cases h), fun g => ?_⟩
    obtain ⟨s', hs'⟩ := ho.2 g
    cases hs'
  | wild =>
    refine ⟨fun h => (by cases h), fun g => ?_⟩
    obtain ⟨s', hs'⟩ := ho.2 g
    cases hs'
  | nofuel => exact absurd rfl ho.1

theorem ends_in_done {P : State → Prop} {o : outcome} {s : State} (h : o.ends_in P)
    (e : o = outcome.done s) : P s := by
  subst e; exact h

theorem ends_in_aborted {P : State → Prop} {o : outcome} {s : State} (h : o.ends_in P)
    (e : o = outcome.aborted s) : P s := by
  subst e; exact h

theorem defined_in_later {s s' : State} (h : Later s s') {v : tree} (hv : defined_in s v) :
    defined_in s' v := by
  obtain ⟨h0, h1⟩ := hv
  have e := h.keep v h0
  refine ⟨by rw [e]; exact h0, ?_⟩
  obtain ⟨st', e', r⟩ := h.status _ _ h1
  rw [e, e', rank_defined r]

theorem undefined_nodes_later (dom : Finset tree) {s s' : State} (h : Later s s') :
    (undefined_nodes dom s').card ≤ (undefined_nodes dom s).card := by
  apply Finset.card_le_card
  intro v hv
  simp only [undefined_nodes, Finset.mem_filter] at hv ⊢
  exact ⟨hv.1, fun hd => hv.2 (defined_in_later h hd)⟩

theorem undefined_nodes_mark (dom : Finset tree) {s s' : State} (h : Later s s') {v : tree}
    (hv : v ∈ dom) (h1 : ¬ defined_in s v) (h2 : defined_in s' v) :
    (undefined_nodes dom s').card < (undefined_nodes dom s).card := by
  apply Finset.card_lt_card
  refine ⟨?_, ?_⟩
  · intro w hw
    simp only [undefined_nodes, Finset.mem_filter] at hw ⊢
    exact ⟨hw.1, fun hd => hw.2 (defined_in_later h hd)⟩
  · intro hsub
    have : v ∈ undefined_nodes dom s' := hsub (by
      simp only [undefined_nodes, Finset.mem_filter]; exact ⟨hv, h1⟩)
    simp only [undefined_nodes, Finset.mem_filter] at this
    exact this.2 h2

theorem dbxout_fields_fine (G : Prop) {contin : State → State}
    (hc : ∀ s, Later s (contin s))
    {ref : tree → State → outcome} (href : ∀ t s, (ref t s).ends_in (Later s))
    (fields : List field_decl) :
    ∀ s0 : State,
      (∀ tem ∈ fields, tem.DECL_NAME.isSome → ∀ s', Later s0 s' →
        (ref tem.TREE_TYPE s').fine G) →
      (dbxout_fields contin ref fields s0).fine G := by
  induction fields with
  | nil => intro s0 _; exact fine_done G s0
  | cons tem chain ih =>
    intro s0 h
    unfold dbxout_fields
    split
    · exact ih s0 fun t ht => h t (List.mem_cons_of_mem _ ht)
    · next name e =>
      have h1 : Later s0 (CHARS (1 + name.length) (fprintf (name ++ ":") (contin s0))) :=
        later_step _ _ (hc s0)
      refine fine_bind (h tem (List.mem_cons_self _ _) (by rw [e]; rfl) _ h1) ?_
      intro s1 e1
      have h2 : Later s0 s1 := h1.trans (ends_in_done (href _ _) e1)
      exact ih _ fun t ht hn s' hs' =>
        h t (List.mem_cons_of_mem _ ht) hn s' ((later_step _ _ h2).trans hs')

theorem dbxout_type_definition_fine (G : Prop) {contin : State → State}
    (hc : ∀ s, Later s (contin s)) (E : Env)
    {ref : tree → State → outcome} (href : ∀ t s, (ref t s).ends_in (Later s))
    (type : tree) (full : Bool) (s : State) (hsound : G → (E.node type).sound = true)
    (hrec : ∀ t ∈ (E.node type).children, ∀ s',
      Later (set_typevec (s.TYPE_SYMTAB_ADDRESS type) typestatus.TYPE_DEFINED
        (CHARS 1 (fprintf "=" s))) s' → (ref t s').fine G) :
    (dbxout_type_definition contin E ref type full s).fine G := by
  have hx : ∀ (s2 : State) (k : State → State),
      (G → (E.node type).TYPE_NAME ≠ some name_node.OTHER ∧
        (E.node type).TYPE_NAME ≠ none) →
      ((dbxout_type_name E type s2).bind fun s' => outcome.done (k s')).fine G := by
    intro s2 k hn
    unfold dbxout_type_name
    split
    · next e => exact fine_bad G _ (fun h => by cases h) fun g => (hn g).2 e
    · exact fine_done G _
    · exact fine_done G _
    · next e => exact fine_bad G _ (fun h => by cases h) fun g => (hn g).1 e
  have hrecord : (E.node type).TREE_CODE = tree_code.RECORD_TYPE ∨
      (E.node type).TREE_CODE = tree_code.UNION_TYPE →
      ∀ (size : Int) (s2 : State),
        Later (set_typevec (s.TYPE_SYMTAB_ADDRESS type) typestatus.TYPE_DEFINED
          (CHARS 1 (fprintf "=" s))) s2 →
        ((dbxout_fields contin ref (E.node type).TYPE_FIELDS s2).bind fun s' =>
          outcome.done (CHARS 1 (fprintf ";" s'))).fine G := by
    intro hcode size s2 hl
    refine fine_bind (dbxout_fields_fine G hc href _ _ ?_) fun _ _ => fine_done G _
    intro tem ht hn s' hs'
    refine hrec _ ?_ s' (hl.trans hs')
    unfold type_node.children
    rcases hcode with hcode | hcode <;> rw [hcode] <;> simp only [List.mem_map, List.mem_filter]
      <;> exact ⟨tem, ⟨ht, hn⟩, rfl⟩
  have htarget : (E.node type).TREE_CODE = tree_code.ARRAY_TYPE ∨
      (E.node type).TREE_CODE = tree_code.POINTER_TYPE ∨
      (E.node type).TREE_CODE = tree_code.FUNCTION_TYPE →
      ∀ target, (E.node type).TREE_TYPE = some target → target ∈ (E.node type).children := by
    intro hcode target ht
    unfold type_node.children
    rcases hcode with hcode | hcode | hcode <;> rw [hcode] <;> simp [ht]
  have hm := Later.refl (set_typevec (s.TYPE_SYMTAB_ADDRESS type) typestatus.TYPE_DEFINED
    (CHARS 1 (fprintf "=" s)))
  unfold dbxout_type_definition
  simp only []
  split
  · exact fine_done G _
  · exact fine_done G _
  · next hcode =>
    split
    · next e =>
      refine fine_bad G _ (fun h => by cases h) fun g => ?_
      have := hsound g
      simp [type_node.sound, hcode, e] at this
    · exact fine_done G _
  · next hcode =>
    split
    · next e =>
      refine fine_bad G _ (fun h => by cases h) fun g => ?_
      have := hsound g
      simp [type_node.sound, hcode, e] at this
    · split
      · next e =>
        refine fine_bad G _ (fun h => by cases h) fun g => ?_
        have := hsound g
        simp [type_node.sound, hcode, e] at this
      · next target e =>
        exact hrec _ (htarget (Or.inl hcode) _ e) _ (later_step _ _ hm)
  · next hcode =>
    split
    · next e =>
      refine hx _ _ fun g => ?_
      have := hsound g
      simp [type_node.sound, hcode, e] at this
      exact ⟨this.1, fun h => by simp [h] at this⟩
    · next size e =>
      split
      · next hn =>
        refine hx _ _ fun g => ?_
        have := hsound g
        simp [type_node.sound, hcode, e] at this
        exact ⟨this, fun h => by simp [h] at hn⟩
      · exact hrecord (Or.inl hcode) size _ (later_step _ _ hm)
  · next hcode =>
    split
    · next e =>
      refine hx _ _ fun g => ?_
      have := hsound g
      simp [type_node.sound, hcode, e] at this
      exact ⟨this.1, fun h => by simp [h] at this⟩
    · next size e =>
      split
      · next hn =>
        refine hx _ _ fun g => ?_
        have := hsound g
        simp [type_node.sound, hcode, e] at this
        exact ⟨this, fun h => by simp [h] at hn⟩
      · exact hrecord (Or.inr hcode) size _ (later_step _ _ hm)
  · next hcode =>
    split
    · next hn =>
      refine hx _ _ fun g => ?_
      have := hsound g
      simp [type_node.sound, hcode] at this
      refine ⟨this.1, fun h => ?_⟩
      simp [h] at hn this
      simp [hn] at this
    · exact fine_done G _
  · next hcode =>
    split
    · next e =>
      refine fine_bad G _ (fun h => by cases h) fun g => ?_
      have := hsound g
      simp [type_node.sound, hcode, e] at this
    · next target e =>
      exact hrec _ (htarget (Or.inr (Or.inl hcode)) _ e) _ (later_step _ _ hm)
  · next hcode =>
    split
    · next e =>
      refine fine_bad G _ (fun h => by cases h) fun g => ?_
      have := hsound g
      simp [type_node.sound, hcode, e] at this
    · next target e =>
      exact hrec _ (htarget (Or.inr (Or.inr hcode)) _ e) _ (later_step _ _ hm)
  · exact fine_done G _

theorem assign_of_ne_zero {type : tree} {s : State} (h : s.TYPE_SYMTAB_ADDRESS type ≠ 0) :
    assign_type_number type s = s := by
  unfold assign_type_number; rw [if_neg h]

theorem assign_symtab_of_zero {type : tree} {s : State} (h : s.TYPE_SYMTAB_ADDRESS type = 0) :
    (assign_type_number type s).TYPE_SYMTAB_ADDRESS type = s.next_type_number := by
  unfold assign_type_number
  rw [if_pos h]
  simp only []
  split <;> simp

theorem assign_symtab_ne_zero {type : tree} {s : State} (h : s.next_type_number ≠ 0) :
    (assign_type_number type s).TYPE_SYMTAB_ADDRESS type ≠ 0 := by
  by_cases h0 : s.TYPE_SYMTAB_ADDRESS type = 0
  · rw [assign_symtab_of_zero h0]; exact h
  · rw [assign_of_ne_zero h0]; exact h0

theorem getElem?_set_self_of_some {l : List typestatus} {n : Nat} {st : typestatus}
    (h : l[n]? = some st) (v : typestatus) : (l.set n v)[n]? = some v := by
  rw [getElem?_set_status l n n v st h, if_pos rfl]

theorem well_formed_index {s : State} (h : well_formed s) (type : tree) :
    ∃ st, s.typevec[s.TYPE_SYMTAB_ADDRESS type]? = some st := by
  have h1 := h.1.below type
  have h2 := h.2.room
  have h3 := h.2.len
  have : s.TYPE_SYMTAB_ADDRESS type < s.typevec.length := by omega
  exact ⟨s.typevec[s.TYPE_SYMTAB_ADDRESS type], List.getElem?_eq_getElem this⟩

theorem dbxout_type_with_fine (G : Prop) {contin : State → State}
    (hc : ∀ s, Later s (contin s)) (E : Env) (dom : Finset tree) (hclosed : closed E dom)
    (hsound : G → ∀ v ∈ dom, (E.node v).sound = true) :
    ∀ (fuel : Nat) (type : tree) (full : Bool) (s : State), type ∈ dom →
      s.next_type_number ≠ 0 → (G → well_formed s) →
      (undefined_nodes dom s).card < fuel →
      (dbxout_type_with contin E fuel type full s).fine G := by
  intro fuel
  induction fuel with
  | zero => intro type full s _ _ _ h; exact absurd h (Nat.not_lt_zero _)
  | succ fuel ih =>
    intro type full s htype hnext hwf hcard
    have h2 : Later s (CHARS 3 (fprintf
        (Nat.repr ((assign_type_number type s).TYPE_SYMTAB_ADDRESS type))
        (assign_type_number type s))) :=
      later_step _ _ (later_assign type s)
    have hdef : ∀ st, st ≠ typestatus.TYPE_DEFINED →
        (CHARS 3 (fprintf (Nat.repr ((assign_type_number type s).TYPE_SYMTAB_ADDRESS type))
          (assign_type_number type s))).typevec[(assign_type_number type s).TYPE_SYMTAB_ADDRESS
            type]? = some st →
        (dbxout_type_definition contin E (fun t s => dbxout_type_with contin E fuel t false s)
          type full (CHARS 3 (fprintf
            (Nat.repr ((assign_type_number type s).TYPE_SYMTAB_ADDRESS type))
            (assign_type_number type s)))).fine G := by
      intro st hne hst
      simp only [CHARS_typevec, fprintf_typevec] at hst
      refine dbxout_type_definition_fine G hc E
        (fun t s => dbxout_type_with_later hc E fuel t false s) type full _
        (fun g => hsound g type htype) ?_
      intro t ht s' hs'
      have hm : Later s (set_typevec
          ((assign_type_number type s).TYPE_SYMTAB_ADDRESS type) typestatus.TYPE_DEFINED
          (CHARS 1 (fprintf "=" (CHARS 3 (fprintf
            (Nat.repr ((assign_type_number type s).TYPE_SYMTAB_ADDRESS type))
            (assign_type_number type s)))))) :=
        (later_step "=" 1 h2).trans (later_mark type _)
      have hs : Later s s' := hm.trans hs'
      refine ih t false s' (hclosed type htype t ht)
        (fun e => hnext (Nat.le_zero.mp (e ▸ hs.next_le))) (fun g => hs.wf (hwf g)) ?_
      have hlt := undefined_nodes_mark dom hm htype (v := type) ?_ ?_
      · have := undefined_nodes_later dom hs'
        simp only [CHARS_symtab, fprintf_symtab] at this
        omega
      · intro hd
        have e := assign_of_ne_zero hd.1
        rw [e] at hst
        rw [hd.2] at hst
        exact hne (Option.some.inj hst).symm
      · refine ⟨assign_symtab_ne_zero hnext, ?_⟩
        simp only [set_typevec_typevec, set_typevec_symtab, CHARS_typevec, fprintf_typevec,
          CHARS_symtab, fprintf_symtab]
        exact getElem?_set_self_of_some hst _
    unfold dbxout_type_with
    simp only []
    split
    · next e =>
      refine fine_bad G _ (fun h => by cases h) fun g => ?_
      obtain ⟨st, hst⟩ := well_formed_index (h2.wf (hwf g)) type
      simp only [CHARS_typevec, fprintf_typevec, CHARS_symtab, fprintf_symtab] at hst e
      rw [hst] at e
      cases e
    · next e => exact hdef _ (by decide) e
    · next e =>
      split
      · exact fine_done G _
      · exact hdef _ (by decide) e
    · exact fine_done G _

/-- With fuel above the number of nodes, `dbxout_type` does not run out of fuel
on a closed set of nodes. -/
theorem dbxout_type_terminates (E : Env) (dom : Finset tree) (hclosed : closed E dom)
    (fuel : Nat) (type : tree) (full : Bool) (s : State) (htype : type ∈ dom)
    (hnext : s.next_type_number ≠ 0) (hfuel : dom.card < fuel) :
    dbxout_type E fuel type full s ≠ outcome.nofuel :=
  (dbxout_type_with_fine False (later_CONTIN E) E dom hclosed (fun g => g.elim) fuel type full s
    htype hnext (fun g => g.elim)
    (lt_of_le_of_lt (Finset.card_le_card (Finset.filter_subset _ _)) hfuel)).1

/-- With fuel above the number of nodes, `dbxout_type` ends normally on a closed
set of sound nodes from a well-formed registry. -/
theorem dbxout_type_total (E : Env) (dom : Finset tree) (hclosed : closed E dom)
    (hsound : ∀ v ∈ dom, (E.node v).sound = true)
    (fuel : Nat) (type : tree) (full : Bool) (s : State) (htype : type ∈ dom)
    (hwf : well_formed s) (hfuel : dom.card < fuel) :
    ∃ s', dbxout_type E fuel type full s = outcome.done s' :=
  (dbxout_type_with_fine True (later_CONTIN E) E dom hclosed (fun _ => hsound) fuel type full s
    htype (by have := hwf.1.next_pos; omega) (fun _ => hwf)
    (lt_of_le_of_lt (Finset.card_le_card (Finset.filter_subset _ _)) hfuel)).2 trivial

/-! ## Numbers and statuses (C4, C6) -/

theorem encoder_step_later {s s' : State} (h : encoder_step s s') : Later s s' := by
  cases h with
  | type E fuel type full _ _ e => exact ends_in_done (dbxout_type_later E fuel type full s) e
  | type_def E fuel type _ _ e => exact ends_in_done (dbxout_type_def_later E fuel type s) e
  | types E fuel types _ _ e => exact ends_in_done (dbxout_types_later E fuel types s) e
  | tags E fuel tags _ _ e => exact ends_in_done (dbxout_tags_later E fuel tags s) e
  | symbol E fuel gettags perm decl local_ _ _ e =>
    exact ends_in_done (dbxout_symbol_later E fuel gettags perm decl local_ s) e
  | function E fuel gettags perm decl _ _ e =>
    exact ends_in_done (dbxout_function_later E fuel gettags perm decl s) e

theorem reachable_well_formed {s : State} (h : reachable s) : well_formed s := by
  induction h with
  | init E fuel perm s s' h0 e =>
    exact ends_in_done (dbxout_init_well_formed E fuel perm s h0) e
  | step s s' _ hstep ih => exact (encoder_step_later hstep).wf ih

@[simp] theorem assign_asmfile (type : tree) (s : State) :
    (assign_type_number type s).asmfile = s.asmfile := by
  unfold assign_type_number; split
  · simp only []; split <;> rfl
  · rfl

@[simp] theorem assign_nchars (type : tree) (s : State) :
    (assign_type_number type s).current_sym_nchars = s.current_sym_nchars := by
  unfold assign_type_number; split
  · simp only []; split <;> rfl
  · rfl

@[simp] theorem assign_code (type : tree) (s : State) :
    (assign_type_number type s).current_sym_code = s.current_sym_code :=
  (same_symbol_assign type s).1

@[simp] theorem assign_value (type : tree) (s : State) :
    (assign_type_number type s).current_sym_value = s.current_sym_value :=
  (same_symbol_assign type s).2.1

@[simp] theorem assign_addr (type : tree) (s : State) :
    (assign_type_number type s).current_sym_addr = s.current_sym_addr :=
  (same_symbol_assign type s).2.2.1

@[simp] theorem assign_block (type : tree) (s : State) :
    (assign_type_number type s).next_block_number = s.next_block_number :=
  (same_symbol_assign type s).2.2.2

/-- A call of `dbxout_type` first gives the type its number and writes it: the
state it ends in is later than that one. -/
theorem dbxout_type_with_later_number {contin : State → State}
    (hc : ∀ s, Later s (contin s)) (E : Env) (fuel : Nat) (type : tree) (full : Bool)
    (s : State) :
    (dbxout_type_with contin E (fuel + 1) type full s).ends_in
      (Later (CHARS 3 (fprintf
        (Nat.repr ((assign_type_number type s).TYPE_SYMTAB_ADDRESS type))
        (assign_type_number type s)))) := by
  have hdef : ∀ st, st ≠ typestatus.TYPE_DEFINED →
      (CHARS 3 (fprintf (Nat.repr ((assign_type_number type s).TYPE_SYMTAB_ADDRESS type))
        (assign_type_number type s))).typevec[(assign_type_number type s).TYPE_SYMTAB_ADDRESS
          type]? = some st →
      (dbxout_type_definition contin E (fun t s => dbxout_type_with contin E fuel t false s)
        type full (CHARS 3 (fprintf
          (Nat.repr ((assign_type_number type s).TYPE_SYMTAB_ADDRESS type))
          (assign_type_number type s)))).ends_in (Later (CHARS 3 (fprintf
        (Nat.repr ((assign_type_number type s).TYPE_SYMTAB_ADDRESS type))
        (assign_type_number type s)))) := by
    intro st hne hst
    refine dbxout_type_definition_later hc E
      (fun t s => dbxout_type_with_later hc E fuel t false s) type full _ ?_
    intro e
    simp only [CHARS_typevec, fprintf_typevec, CHARS_symtab, fprintf_symtab] at e hst
    rw [hst] at e
    exact hne (Option.some.inj e)
  unfold dbxout_type_with
  simp only []
  split
  · trivial
  · next h => exact hdef _ (by decide) h
  · next h =>
    split
    · exact Later.refl _
    · exact hdef _ (by decide) h
  · exact Later.refl _

/-- The text a call of `dbxout_type` writes starts with the number of the type. -/
theorem dbxout_type_writes_number (E : Env) (fuel : Nat) (type : tree) (full : Bool)
    (s s' : State) (hnext : s.next_type_number ≠ 0)
    (h : dbxout_type E fuel type full s = outcome.done s') :
    s'.TYPE_SYMTAB_ADDRESS type ≠ 0 ∧
    s'.TYPE_SYMTAB_ADDRESS type = (assign_type_number type s).TYPE_SYMTAB_ADDRESS type ∧
    ∃ text, s'.asmfile = s.asmfile ++ Nat.repr (s'.TYPE_SYMTAB_ADDRESS type) ++ text := by
  cases fuel with
  | zero => cases h
  | succ fuel =>
    have hl := ends_in_done (dbxout_type_with_later_number (later_CONTIN E) E fuel type full s) h
    have hn := @assign_symtab_ne_zero type s hnext
    have hk := hl.keep type hn
    simp only [CHARS_symtab, fprintf_symtab] at hk
    obtain ⟨y, hy⟩ := hl.written
    refine ⟨by rw [hk]; exact hn, hk, y, ?_⟩
    rw [hy, hk]
    simp only [CHARS_asmfile, fprintf_asmfile, assign_asmfile]

/-- C6: the status of a registry entry only moves forward in the order
Unseen < CrossReferenced < Defined.  For every call of `dbxout_type` (any type,
any `full`; its recursive calls are calls of `dbxout_type` too) and of
`dbxout_tags` that ends, normally or in `abort ()`, in a state `s'`, and for every
type number `i` with a status before the call, `i` has a status after the call
that is not earlier; in particular an entry that is Defined stays Defined. -/
theorem status_moves_forward (E : Env) (fuel : Nat) (s s' : State)
    (hcall : (∃ type full, dbxout_type E fuel type full s = outcome.done s' ∨
        dbxout_type E fuel type full s = outcome.aborted s') ∨
      (∃ tags, dbxout_tags E fuel tags s = outcome.done s' ∨
        dbxout_tags E fuel tags s = outcome.aborted s'))
    (i : Nat) (st : typestatus) (hst : s.typevec[i]? = some st) :
    ∃ st', s'.typevec[i]? = some st' ∧ st.rank ≤ st'.rank ∧
      (st = typestatus.TYPE_DEFINED → st' = typestatus.TYPE_DEFINED) := by
  have hl : Later s s' := by
    rcases hcall with ⟨type, full, h | h⟩ | ⟨tags, h | h⟩
    · exact ends_in_done (dbxout_type_later E fuel type full s) h
    · exact ends_in_aborted (dbxout_type_later E fuel type full s) h
    · exact ends_in_done (dbxout_tags_later E fuel tags s) h
    · exact ends_in_aborted (dbxout_tags_later E fuel tags s) h
  obtain ⟨st', e, r⟩ := hl.status i st hst
  exact ⟨st', e, r, fun hd => rank_defined (hd ▸ r)⟩

/-- C4: in every state reachable from `dbxout_init` (started with no type node
numbered) the numbers are at least 1 and below `next_type_number`, distinct
nodes have distinct numbers, and every number from 1 to `next_type_number - 1`
is the number of a node.  Every further completed call keeps this, changes the
number of a node only from none (0) to a non-zero one, and gives the nodes it
numbers larger numbers than all nodes numbered before: numbers follow the order
of first reference. -/
theorem numbers_consecutive (s : State) (h : reachable s) :
    numbered s ∧
    ∀ s', encoder_step s s' →
      numbered s' ∧
      (∀ w, s'.TYPE_SYMTAB_ADDRESS w ≠ s.TYPE_SYMTAB_ADDRESS w →
        s.TYPE_SYMTAB_ADDRESS w = 0 ∧ s'.TYPE_SYMTAB_ADDRESS w ≠ 0) ∧
      (∀ v w, s.TYPE_SYMTAB_ADDRESS v ≠ 0 → s.TYPE_SYMTAB_ADDRESS w = 0 →
        s'.TYPE_SYMTAB_ADDRESS w ≠ 0 → s'.TYPE_SYMTAB_ADDRESS v < s'.TYPE_SYMTAB_ADDRESS w) := by
  have hwf := reachable_well_formed h
  refine ⟨hwf.1, fun s' hstep => ?_⟩
  have hl := encoder_step_later hstep
  refine ⟨hl.num hwf.1, ?_, ?_⟩
  · intro w hw
    have h0 : s.TYPE_SYMTAB_ADDRESS w = 0 := by
      by_contra hne; exact hw (hl.keep w hne)
    refine ⟨h0, fun e => hw (by rw [e, h0])⟩
  · intro v w hv hw hw'
    rw [hl.keep v hv]
    have h1 := hwf.1.below v
    have h2 := (hl.fresh w (by rw [hw]; exact hw')).1
    omega

/-! ## Unfolding `dbxout_type` -/

theorem dbxout_type_with_defined (contin : State → State) (E : Env) (fuel : Nat)
    (type : tree) (full : Bool) (s : State) (h : defined_in s type) :
    dbxout_type_with contin E (fuel + 1) type full s =
      outcome.done (CHARS 3 (fprintf (Nat.repr (s.TYPE_SYMTAB_ADDRESS type)) s)) := by
  unfold dbxout_type_with
  simp only [assign_of_ne_zero h.1, CHARS_typevec, fprintf_typevec, CHARS_symtab,
    fprintf_symtab, h.2]

theorem dbxout_type_with_xref (contin : State → State) (E : Env) (fuel : Nat)
    (type : tree) (s : State) (h0 : s.TYPE_SYMTAB_ADDRESS type ≠ 0)
    (h : s.typevec[s.TYPE_SYMTAB_ADDRESS type]? = some typestatus.TYPE_XREF) :
    dbxout_type_with contin E (fuel + 1) type false s =
      outcome.done (CHARS 3 (fprintf (Nat.repr (s.TYPE_SYMTAB_ADDRESS type)) s)) := by
  unfold dbxout_type_with
  simp only [assign_of_ne_zero h0, CHARS_typevec, fprintf_typevec, CHARS_symtab,
    fprintf_symtab, h]
  rfl

theorem dbxout_type_with_define (contin : State → State) (E : Env) (fuel : Nat)
    (type : tree) (full : Bool) (s : State)
    (h : (assign_type_number type s).typevec[
          (assign_type_number type s).TYPE_SYMTAB_ADDRESS type]? =
        some typestatus.TYPE_UNSEEN ∨
      ((assign_type_number type s).typevec[
          (assign_type_number type s).TYPE_SYMTAB_ADDRESS type]? =
        some typestatus.TYPE_XREF ∧ full = true)) :
    dbxout_type_with contin E (fuel + 1) type full s =
      dbxout_type_definition contin E (fun t s => dbxout_type_with contin E fuel t false s)
        type full (CHARS 3 (fprintf
          (Nat.repr ((assign_type_number type s).TYPE_SYMTAB_ADDRESS type))
          (assign_type_number type s))) := by
  conv_lhs => unfold dbxout_type_with
  rcases h with h | ⟨h, hf⟩
  · simp only [CHARS_typevec, fprintf_typevec, CHARS_symtab, fprintf_symtab, h]
  · simp only [CHARS_typevec, fprintf_typevec, CHARS_symtab, fprintf_symtab, h, hf]
    rfl

theorem assign_fresh_unseen_of_typevec_ok {type : tree} {s : State} (htv : typevec_ok s)
    (h0 : s.TYPE_SYMTAB_ADDRESS type = 0) :
    (assign_type_number type s).typevec[
      (assign_type_number type s).TYPE_SYMTAB_ADDRESS type]? = some typestatus.TYPE_UNSEEN := by
  rw [assign_symtab_of_zero h0]
  -- the slot of the new number has not been written
  unfold assign_type_number
  rw [if_pos h0]
  simp only []
  split
  · simp only []
    rw [List.getElem?_append_left (by rw [htv.len]; exact htv.room)]
    exact htv.unseen _ (le_refl _) htv.room
  · exact htv.unseen _ (le_refl _) htv.room

theorem assign_fresh_unseen {type : tree} {s : State} (hwf : well_formed s)
    (h0 : s.TYPE_SYMTAB_ADDRESS type = 0) :
    (assign_type_number type s).typevec[
      (assign_type_number type s).TYPE_SYMTAB_ADDRESS type]? = some typestatus.TYPE_UNSEEN :=
  assign_fresh_unseen_of_typevec_ok hwf.2 h0

/-- Numbering a node that has no number keeps the invariant of the status
vector. -/
theorem typevec_ok_assign {type : tree} {s : State} (htv : typevec_ok s)
    (h0 : s.TYPE_SYMTAB_ADDRESS type = 0) : typevec_ok (assign_type_number type s) := by
  obtain ⟨a, b, c⟩ := htv
  unfold assign_type_number
  rw [if_pos h0]
  simp only []
  split
  · next heq =>
    refine ⟨?_, ?_, ?_⟩
    · simp only [List.length_append, List.length_replicate, a]; omega
    · simp only []; omega
    · intro i hi hi'
      simp only [] at hi hi' ⊢
      by_cases hlt : i < s.typevec_len
      · rw [List.getElem?_append_left (by rw [a]; exact hlt)]
        exact c i (by omega) hlt
      · rw [List.getElem?_append_right (by rw [a]; omega), List.getElem?_replicate]
        simp only [ite_eq_left_iff, not_lt, reduceCtorEq, imp_false, not_le]
        rw [a]; omega
  · next hne =>
    refine ⟨a, ?_, ?_⟩
    · simp only [] at hne ⊢; omega
    · intro i hi hi'
      simp only [] at hi hi' ⊢
      exact c i (by omega) hi'

/-- The definition of a record or union whose size is known, written in full. -/
theorem definition_record (contin : State → State) (E : Env)
    (ref : tree → State → outcome) (type : tree) (full : Bool) (s : State) (size : Int)
    (hcode : (E.node type).TREE_CODE = tree_code.RECORD_TYPE ∨
      (E.node type).TREE_CODE = tree_code.UNION_TYPE)
    (hsize : (E.node type).TYPE_SIZE = some size)
    (hfull : ((E.node type).TYPE_NAME.isSome && !full) = false) :
    dbxout_type_definition contin E ref type full s =
      (dbxout_fields contin ref (E.node type).TYPE_FIELDS
        (CHARS 11 (fprintf
          ((if (E.node type).TREE_CODE = tree_code.RECORD_TYPE then "s" else "u")
            ++ fmt_d size)
          (set_typevec (s.TYPE_SYMTAB_ADDRESS type) typestatus.TYPE_DEFINED
            (CHARS 1 (fprintf "=" s)))))).bind fun s =>
        outcome.done (CHARS 1 (fprintf ";" s)) := by
  unfold dbxout_type_definition
  rcases hcode with hcode | hcode <;> simp [hcode, hsize, hfull]

/-- The definition of a pointer type. -/
theorem definition_pointer (contin : State → State) (E : Env)
    (ref : tree → State → outcome) (type : tree) (full : Bool) (s : State) (target : tree)
    (hcode : (E.node type).TREE_CODE = tree_code.POINTER_TYPE)
    (htarget : (E.node type).TREE_TYPE = some target) :
    dbxout_type_definition contin E ref type full s =
      ref target (CHARS 1 (fprintf "*"
        (set_typevec (s.TYPE_SYMTAB_ADDRESS type) typestatus.TYPE_DEFINED
          (CHARS 1 (fprintf "=" s))))) := by
  unfold dbxout_type_definition
  simp [hcode, htarget]

/-! ## The cross-reference round trip (C2) -/

theorem bind_done {o : outcome} {k : State → outcome} {s' : State}
    (h : o.bind k = outcome.done s') : ∃ s1, o = outcome.done s1 ∧ k s1 = outcome.done s' := by
  cases o with
  | done s => exact ⟨s, rfl, h⟩
  | aborted s => cases h
  | wild => cases h
  | nofuel => cases h

theorem well_formed_after_init : well_formed after_init :=
  dbxout_init_well_formed example_env 1 [] zero_state fun _ => rfl

theorem well_formed_at_symbol : well_formed at_symbol :=
  ⟨@numbered_congr after_init at_symbol rfl rfl well_formed_after_init.1,
    @typevec_ok_congr after_init at_symbol rfl rfl rfl
      well_formed_after_init.2⟩

theorem assign_next_of_zero {type : tree} {s : State} (h : s.TYPE_SYMTAB_ADDRESS type = 0) :
    (assign_type_number type s).next_type_number = s.next_type_number + 1 := by
  unfold assign_type_number
  rw [if_pos h]
  simp only []
  split <;> rfl

theorem assign_symtab_other {type v : tree} (s : State) (h : v ≠ type) :
    (assign_type_number type s).TYPE_SYMTAB_ADDRESS v = s.TYPE_SYMTAB_ADDRESS v := by
  unfold assign_type_number
  split
  · simp only []
    split <;> simp [Function.update_noteq h]
  · rfl

/-- The definition of an integer type. -/
theorem definition_integer (contin : State → State) (E : Env)
    (ref : tree → State → outcome) (type : tree) (full : Bool) (s : State)
    (hcode : (E.node type).TREE_CODE = tree_code.INTEGER_TYPE) :
    dbxout_type_definition contin E ref type full s =
      outcome.done (CHARS 25 (fprintf
        (if type = E.char_type_node then "r2;0;127;"
          else "r1;" ++ fmt_d (E.node type).TYPE_MIN_VALUE ++ ";"
            ++ fmt_d (E.node type).TYPE_MAX_VALUE ++ ";")
        (set_typevec (s.TYPE_SYMTAB_ADDRESS type) typestatus.TYPE_DEFINED
          (CHARS 1 (fprintf "=" s))))) := by
  unfold dbxout_type_definition
  simp only [hcode]
  split <;> rfl

/-- The record `dbxout_type_def` writes for an integer type that has no number
yet, and the registry it leaves. -/
theorem dbxout_type_def_integer (E : Env) (fuel : Nat) (type : tree) (s : State)
    (name : String) (htv : typevec_ok s) (h0 : s.TYPE_SYMTAB_ADDRESS type = 0)
    (hcode : (E.node type).TREE_CODE = tree_code.INTEGER_TYPE)
    (hname : (E.node type).TYPE_NAME = some (name_node.TYPE_DECL name)) :
    ∃ s' : State, dbxout_type_def E (fuel + 1) type s = outcome.done s' ∧
      typevec_ok s' ∧
      s'.TYPE_SYMTAB_ADDRESS type = s.next_type_number ∧
      (∀ v, v ≠ type → s'.TYPE_SYMTAB_ADDRESS v = s.TYPE_SYMTAB_ADDRESS v) ∧
      s'.next_type_number = s.next_type_number + 1 ∧
      s'.typevec[s.next_type_number]? = some typestatus.TYPE_DEFINED ∧
      s'.asmfile = s.asmfile ++ (".stabs \"" ++ name ++ ":t" ++ Nat.repr s.next_type_number
        ++ "="
        ++ (if type = E.char_type_node then "r2;0;127;"
          else "r1;" ++ fmt_d (E.node type).TYPE_MIN_VALUE ++ ";"
            ++ fmt_d (E.node type).TYPE_MAX_VALUE ++ ";")
        ++ "\"," ++ fmt_d E.N_LSYM ++ ",0,0,0\n") := by
  obtain ⟨sb, hsb⟩ : ∃ sb, sb = fprintf (".stabs \"" ++ name ++ ":t")
      { s with current_sym_code := E.N_LSYM, current_sym_value := 0,
               current_sym_addr := none,
               current_sym_nchars := 2 + name.length } := ⟨_, rfl⟩
  have htvb : typevec_ok sb := by
    rw [hsb]
    exact typevec_ok_congr (s := s) rfl rfl rfl htv
  have h0b : sb.TYPE_SYMTAB_ADDRESS type = 0 := by rw [hsb]; exact h0
  have hU := assign_fresh_unseen_of_typevec_ok htvb h0b
  have hnum : (assign_type_number type sb).TYPE_SYMTAB_ADDRESS type = s.next_type_number := by
    rw [assign_symtab_of_zero h0b, hsb]; rfl
  have hcall : dbxout_type_def E (fuel + 1) type s = outcome.done (dbxout_finish_symbol E
      (CHARS 25 (fprintf
        (if type = E.char_type_node then "r2;0;127;"
          else "r1;" ++ fmt_d (E.node type).TYPE_MIN_VALUE ++ ";"
            ++ fmt_d (E.node type).TYPE_MAX_VALUE ++ ";")
        (set_typevec ((assign_type_number type sb).TYPE_SYMTAB_ADDRESS type)
          typestatus.TYPE_DEFINED
          (CHARS 1 (fprintf "=" (CHARS 3 (fprintf
            (Nat.repr ((assign_type_number type sb).TYPE_SYMTAB_ADDRESS type))
            (assign_type_number type sb))))))))) := by
    unfold dbxout_type_def
    simp only [hname]
    rw [← hsb]
    unfold dbxout_type
    rw [dbxout_type_with_define _ _ _ _ _ _ (Or.inl hU), definition_integer _ _ _ _ _ _ hcode]
    rfl
  refine ⟨_, hcall, ?_, ?_, ?_, ?_, ?_, ?_⟩
  · obtain ⟨a, b, c⟩ := typevec_ok_assign htvb h0b
    rw [dbxout_finish_symbol_eq]
    refine ⟨?_, ?_, ?_⟩
    · simp only [fprintf_typevec, CHARS_typevec, set_typevec_typevec, fprintf_typevec_len,
        CHARS_typevec_len, set_typevec_typevec_len, List.length_set]
      exact a
    · simp only [fprintf_next, CHARS_next, set_typevec_next, fprintf_typevec_len,
        CHARS_typevec_len, set_typevec_typevec_len]
      exact b
    · intro i hi hi'
      simp only [fprintf_next, CHARS_next, set_typevec_next, fprintf_typevec_len,
        CHARS_typevec_len, set_typevec_typevec_len, fprintf_typevec, CHARS_typevec,
        set_typevec_typevec] at hi hi' ⊢
      have hne : (assign_type_number type sb).TYPE_SYMTAB_ADDRESS type ≠ i := by
        rw [assign_symtab_of_zero h0b]
        rw [assign_next_of_zero h0b] at hi
        omega
      rw [List.getElem?_set_ne hne]
      exact c i hi hi'
  · rw [dbxout_finish_symbol_eq]
    simp only [fprintf_symtab, CHARS_symtab, set_typevec_symtab]
    exact hnum
  · intro v hv
    rw [dbxout_finish_symbol_eq]
    simp only [fprintf_symtab, CHARS_symtab, set_typevec_symtab]
    rw [assign_symtab_other _ hv, hsb]; rfl
  · rw [dbxout_finish_symbol_eq]
    simp only [fprintf_next, CHARS_next, set_typevec_next]
    rw [assign_next_of_zero h0b, hsb]; rfl
  · rw [dbxout_finish_symbol_eq]
    simp only [fprintf_typevec, CHARS_typevec, set_typevec_typevec]
    rw [← hnum]
    exact getElem?_set_self_of_some hU _
  · rw [dbxout_finish_symbol_eq]
    simp only [fprintf_asmfile, CHARS_asmfile, set_typevec_asmfile, assign_asmfile, hnum,
      record_end, fprintf_code, CHARS_code, set_typevec_code, assign_code, fprintf_addr,
      CHARS_addr, set_typevec_addr, assign_addr, fprintf_value, CHARS_value,
      set_typevec_value, assign_value]
    rw [hsb]
    simp only [fprintf_asmfile, String.append_assoc]
    rfl

/-- C5: `dbxout_init`, run with fuel when `int` and `char` are distinct integer
type nodes named by typedefs and carry no number, writes the source-file
record, then the record of `int` with the definition `1=r1;min;max;`, then the
record of `char` with `2=r2;0;127;`, before it goes on to the permanent types:
in the state `s2` it is in at that point `int` has number 1 and `char` number 2,
both `TYPE_DEFINED`, and whatever state the call ends in keeps these numbers and
statuses and has only added text after the three records. -/
theorem init_defines_int_and_char (E : Env) (fuel : Nat) (get_permanent_types : List tree)
    (s : State) (iname cname : String) (hfuel : 0 < fuel)
    (hi0 : s.TYPE_SYMTAB_ADDRESS E.integer_type_node = 0)
    (hc0 : s.TYPE_SYMTAB_ADDRESS E.char_type_node = 0)
    (hne : E.integer_type_node ≠ E.char_type_node)
    (hint : (E.node E.integer_type_node).TREE_CODE = tree_code.INTEGER_TYPE)
    (hiname : (E.node E.integer_type_node).TYPE_NAME = some (name_node.TYPE_DECL iname))
    (hchar : (E.node E.char_type_node).TREE_CODE = tree_code.INTEGER_TYPE)
    (hcname : (E.node E.char_type_node).TYPE_NAME = some (name_node.TYPE_DECL cname)) :
    ∃ s2 : State,
      dbxout_init E fuel get_permanent_types s = dbxout_types E fuel get_permanent_types s2 ∧
      s2.asmfile = s.asmfile
        ++ ("Ltext:\t.stabs \"" ++ E.input_filename ++ "\"," ++ fmt_d E.N_SO ++ ",0,0,Ltext\n")
        ++ (".stabs \"" ++ iname ++ ":t" ++ "1=r1;"
            ++ fmt_d (E.node E.integer_type_node).TYPE_MIN_VALUE ++ ";"
            ++ fmt_d (E.node E.integer_type_node).TYPE_MAX_VALUE ++ ";"
            ++ "\"," ++ fmt_d E.N_LSYM ++ ",0,0,0\n")
        ++ (".stabs \"" ++ cname ++ ":t" ++ "2=r2;0;127;"
            ++ "\"," ++ fmt_d E.N_LSYM ++ ",0,0,0\n") ∧
      s2.next_type_number = 3 ∧
      ∀ s', (s' = s2 ∨ dbxout_init E fuel get_permanent_types s = outcome.done s' ∨
          dbxout_init E fuel get_permanent_types s = outcome.aborted s') →
        s'.TYPE_SYMTAB_ADDRESS E.integer_type_node = 1 ∧
        s'.TYPE_SYMTAB_ADDRESS E.char_type_node = 2 ∧
        s'.typevec[1]? = some typestatus.TYPE_DEFINED ∧
        s'.typevec[2]? = some typestatus.TYPE_DEFINED ∧
        ∃ text, s'.asmfile = s2.asmfile ++ text := by
  obtain ⟨k, rfl⟩ : ∃ k, fuel = k + 1 := ⟨fuel - 1, by omega⟩
  obtain ⟨sa, hsa⟩ : ∃ sa, sa =
      { fprintf ("Ltext:\t.stabs \"" ++ E.input_filename ++ "\"," ++ fmt_d E.N_SO
          ++ ",0,0,Ltext\n")
          { s with typevec_len := 100,
                   typevec := List.replicate 100 typestatus.TYPE_UNSEEN } with
        next_type_number := 1, next_block_number := 2 } := ⟨_, rfl⟩
  have htva : typevec_ok sa := by
    rw [hsa]; exact typevec_ok_start _ rfl rfl rfl
  have hai : sa.TYPE_SYMTAB_ADDRESS E.integer_type_node = 0 := by rw [hsa]; exact hi0
  have hac : sa.TYPE_SYMTAB_ADDRESS E.char_type_node = 0 := by rw [hsa]; exact hc0
  have hanext : sa.next_type_number = 1 := by rw [hsa]
  obtain ⟨s1, c1, wf1, n1, o1, x1, d1, a1⟩ :=
    dbxout_type_def_integer E k E.integer_type_node sa iname htva hai hint hiname
  have hc1 : s1.TYPE_SYMTAB_ADDRESS E.char_type_node = 0 := by
    rw [o1 _ (Ne.symm hne)]; exact hac
  obtain ⟨s2, c2, wf2, n2, o2, x2, d2, a2⟩ :=
    dbxout_type_def_integer E k E.char_type_node s1 cname wf1 hc1 hchar hcname
  have hl12 : Later s1 s2 := ends_in_done (dbxout_type_def_later E (k + 1) _ s1) c2
  have hinit : dbxout_init E (k + 1) get_permanent_types s =
      dbxout_types E (k + 1) get_permanent_types s2 := by
    unfold dbxout_init
    simp only []
    rw [← hsa, c1]
    simp only [outcome.bind]
    rw [c2]
  have hi2 : s2.TYPE_SYMTAB_ADDRESS E.integer_type_node = 1 := by
    rw [o2 _ hne, n1, hanext]
  have hc2 : s2.TYPE_SYMTAB_ADDRESS E.char_type_node = 2 := by
    rw [n2, x1, hanext]
  have hd1 : s2.typevec[1]? = some typestatus.TYPE_DEFINED := by
    rw [hanext] at d1
    obtain ⟨st', e, r⟩ := hl12.status 1 _ d1
    rw [e, rank_defined r]
  have hd2 : s2.typevec[2]? = some typestatus.TYPE_DEFINED := by
    rw [x1, hanext] at d2; exact d2
  refine ⟨s2, hinit, ?_, by rw [x2, x1, hanext], ?_⟩
  · rw [a2, a1, x1, hanext, if_neg hne, if_pos rfl, hsa]
    simp only [fprintf_asmfile, String.append_assoc]
    rfl
  · intro s' hs'
    have hl : Later s2 s' := by
      rcases hs' with h | h | h
      · rw [h]; exact Later.refl _
      · rw [hinit] at h; exact ends_in_done (dbxout_types_later E _ _ s2) h
      · rw [hinit] at h; exact ends_in_aborted (dbxout_types_later E _ _ s2) h
    refine ⟨?_, ?_, ?_, ?_, hl.written⟩
    · rw [hl.keep _ (by rw [hi2]; decide), hi2]
    · rw [hl.keep _ (by rw [hc2]; decide), hc2]
    · obtain ⟨st', e, r⟩ := hl.status 1 _ hd1
      rw [e, rank_defined r]
    · obtain ⟨st', e, r⟩ := hl.status 2 _ hd2
      rw [e, rank_defined r]

theorem init_defines_int_and_char_witness :
    0 < 1 ∧ zero_state.TYPE_SYMTAB_ADDRESS example_env.integer_type_node = 0 ∧
    zero_state.TYPE_SYMTAB_ADDRESS example_env.char_type_node = 0 ∧
    example_env.integer_type_node ≠ example_env.char_type_node ∧
    (example_env.node example_env.integer_type_node).TREE_CODE = tree_code.INTEGER_TYPE ∧
    (example_env.node example_env.integer_type_node).TYPE_NAME =
      some (name_node.TYPE_DECL "int") ∧
    (example_env.node example_env.char_type_node).TREE_CODE = tree_code.INTEGER_TYPE ∧
    (example_env.node example_env.char_type_node).TYPE_NAME =
      some (name_node.TYPE_DECL "char") ∧
    ∃ s2 : State,
      dbxout_init example_env 1 [] zero_state = dbxout_types example_env 1 [] s2 ∧
      s2.asmfile = zero_state.asmfile
        ++ ("Ltext:\t.stabs \"" ++ example_env.input_filename ++ "\","
            ++ fmt_d example_env.N_SO ++ ",0,0,Ltext\n")
        ++ (".stabs \"" ++ "int" ++ ":t" ++ "1=r1;"
            ++ fmt_d (example_env.node example_env.integer_type_node).TYPE_MIN_VALUE ++ ";"
            ++ fmt_d (example_env.node example_env.integer_type_node).TYPE_MAX_VALUE ++ ";"
            ++ "\"," ++ fmt_d example_env.N_LSYM ++ ",0,0,0\n")
        ++ (".stabs \"" ++ "char" ++ ":t" ++ "2=r2;0;127;"
            ++ "\"," ++ fmt_d example_env.N_LSYM ++ ",0,0,0\n") ∧
      s2.next_type_number = 3 ∧
      ∀ s', (s' = s2 ∨ dbxout_init example_env 1 [] zero_state = outcome.done s' ∨
          dbxout_init example_env 1 [] zero_state = outcome.aborted s') →
        s'.TYPE_SYMTAB_ADDRESS example_env.integer_type_node = 1 ∧
        s'.TYPE_SYMTAB_ADDRESS example_env.char_type_node = 2 ∧
        s'.typevec[1]? = some typestatus.TYPE_DEFINED ∧
        s'.typevec[2]? = some typestatus.TYPE_DEFINED ∧
        ∃ text, s'.asmfile = s2.asmfile ++ text :=
  ⟨by decide, rfl, rfl, by decide, rfl, rfl, rfl, rfl,
    init_defines_int_and_char example_env 1 [] zero_state "int" "char" (by decide)
      rfl rfl (by decide) rfl rfl rfl rfl⟩

set_option maxRecDepth 10000

theorem status_moves_forward_witness :
    ((∃ type full, dbxout_type example_env 3 type full after_xref = outcome.done after_full ∨
        dbxout_type example_env 3 type full after_xref = outcome.aborted after_full) ∨
      (∃ tags, dbxout_tags example_env 3 tags after_xref = outcome.done after_full ∨
        dbxout_tags example_env 3 tags after_xref = outcome.aborted after_full)) ∧
    after_xref.typevec[3]? = some typestatus.TYPE_XREF ∧
    ∃ st', after_full.typevec[3]? = some st' ∧ typestatus.TYPE_XREF.rank ≤ st'.rank ∧
      (typestatus.TYPE_XREF = typestatus.TYPE_DEFINED → st' = typestatus.TYPE_DEFINED) :=
  ⟨Or.inl ⟨12, true, Or.inl rfl⟩, rfl,
    status_moves_forward example_env 3 after_xref after_full (Or.inl ⟨12, true, Or.inl rfl⟩)
      3 typestatus.TYPE_XREF rfl⟩

theorem reachable_after_init : reachable after_init :=
  reachable.init example_env 1 [] zero_state after_init (fun _ => rfl) rfl

theorem numbers_consecutive_witness :
    reachable after_init ∧
    (numbered after_init ∧
      ∀ s', encoder_step after_init s' →
        numbered s' ∧
        (∀ w, s'.TYPE_SYMTAB_ADDRESS w ≠ after_init.TYPE_SYMTAB_ADDRESS w →
          after_init.TYPE_SYMTAB_ADDRESS w = 0 ∧ s'.TYPE_SYMTAB_ADDRESS w ≠ 0) ∧
        (∀ v w, after_init.TYPE_SYMTAB_ADDRESS v ≠ 0 → after_init.TYPE_SYMTAB_ADDRESS w = 0 →
          s'.TYPE_SYMTAB_ADDRESS w ≠ 0 →
          s'.TYPE_SYMTAB_ADDRESS v < s'.TYPE_SYMTAB_ADDRESS w)) :=
  ⟨reachable_after_init, numbers_consecutive after_init reachable_after_init⟩

/-! ## Two calls on one node (C3) -/

/-- The description part of `dbxout_type` leaves the node defined, or leaves it a
cross-reference and gives no number to any node; the second happens only when
`full` is 0 or the node is a record, union or enum whose size is not known. -/
theorem definition_status {contin : State → State} (hc : ∀ s, Later s (contin s)) (E : Env)
    {ref : tree → State → outcome} (href : ∀ t s, (ref t s).ends_in (Later s))
    (type : tree) (full : Bool) (s : State) (st : typestatus)
    (hn : s.TYPE_SYMTAB_ADDRESS type ≠ 0)
    (hst : s.typevec[s.TYPE_SYMTAB_ADDRESS type]? = some st) :
    (dbxout_type_definition contin E ref type full s).ends_in fun s1 =>
      s1.typevec[s.TYPE_SYMTAB_ADDRESS type]? = some typestatus.TYPE_DEFINED ∨
      (s1.typevec[s.TYPE_SYMTAB_ADDRESS type]? = some typestatus.TYPE_XREF ∧
        s1.next_type_number = s.next_type_number ∧
        (full = false ∨
          (((E.node type).TREE_CODE = tree_code.RECORD_TYPE ∨
              (E.node type).TREE_CODE = tree_code.UNION_TYPE ∨
              (E.node type).TREE_CODE = tree_code.ENUMERAL_TYPE) ∧
            (E.node type).TYPE_SIZE = none))) := by
  have hm : defined_in (set_typevec (s.TYPE_SYMTAB_ADDRESS type) typestatus.TYPE_DEFINED
      (CHARS 1 (fprintf "=" s))) type :=
    ⟨hn, getElem?_set_self_of_some hst _⟩
  have hdef : ∀ {s1 : State}, Later (set_typevec (s.TYPE_SYMTAB_ADDRESS type)
      typestatus.TYPE_DEFINED (CHARS 1 (fprintf "=" s))) s1 →
      s1.typevec[s.TYPE_SYMTAB_ADDRESS type]? = some typestatus.TYPE_DEFINED ∨
      (s1.typevec[s.TYPE_SYMTAB_ADDRESS type]? = some typestatus.TYPE_XREF ∧
        s1.next_type_number = s.next_type_number ∧
        (full = false ∨
          (((E.node type).TREE_CODE = tree_code.RECORD_TYPE ∨
              (E.node type).TREE_CODE = tree_code.UNION_TYPE ∨
              (E.node type).TREE_CODE = tree_code.ENUMERAL_TYPE) ∧
            (E.node type).TYPE_SIZE = none))) := by
    intro s1 hl
    have := defined_in_later hl hm
    have e := hl.keep type hn
    simp only [set_typevec_symtab, CHARS_symtab, fprintf_symtab] at e
    exact Or.inl (by rw [← e]; exact this.2)
  have hxref : ∀ (tag : String) (wrap : State → State),
      (∀ s' : State, (wrap s').typevec =
          s'.typevec.set (s.TYPE_SYMTAB_ADDRESS type) typestatus.TYPE_XREF ∧
        (wrap s').next_type_number = s'.next_type_number) →
      (full = false ∨
          (((E.node type).TREE_CODE = tree_code.RECORD_TYPE ∨
              (E.node type).TREE_CODE = tree_code.UNION_TYPE ∨
              (E.node type).TREE_CODE = tree_code.ENUMERAL_TYPE) ∧
            (E.node type).TYPE_SIZE = none)) →
      ((dbxout_type_name E type (CHARS 3 (fprintf tag
          (set_typevec (s.TYPE_SYMTAB_ADDRESS type) typestatus.TYPE_DEFINED
            (CHARS 1 (fprintf "=" s)))))).bind fun s' => outcome.done (wrap s')).ends_in
        fun s1 =>
          s1.typevec[s.TYPE_SYMTAB_ADDRESS type]? = some typestatus.TYPE_DEFINED ∨
          (s1.typevec[s.TYPE_SYMTAB_ADDRESS type]? = some typestatus.TYPE_XREF ∧
            s1.next_type_number = s.next_type_number ∧
            (full = false ∨
              (((E.node type).TREE_CODE = tree_code.RECORD_TYPE ∨
                  (E.node type).TREE_CODE = tree_code.UNION_TYPE ∨
                  (E.node type).TREE_CODE = tree_code.ENUMERAL_TYPE) ∧
                (E.node type).TYPE_SIZE = none))) := by
    intro tag wrap hwrap hcond
    cases ho : dbxout_type_name E type (CHARS 3 (fprintf tag
        (set_typevec (s.TYPE_SYMTAB_ADDRESS type) typestatus.TYPE_DEFINED
          (CHARS 1 (fprintf "=" s))))) with
    | done s' =>
      obtain ⟨name, rfl, _⟩ := dbxout_type_name_done _ _ _ _ ho
      refine Or.inr ⟨?_, ?_, hcond⟩
      · show (wrap _).typevec[_]? = _
        rw [(hwrap _).1]
        simp only [CHARS_typevec, fprintf_typevec, set_typevec_typevec]
        exact getElem?_set_self_of_some (getElem?_set_self_of_some hst _) _
      · show (wrap _).next_type_number = _
        rw [(hwrap _).2]
        rfl
    | aborted s' =>
      rw [dbxout_type_name_aborted _ _ _ _ ho]
      exact hdef (later_step _ _ (Later.refl _))
    | wild => trivial
    | nofuel => trivial
  have hrecord : ∀ tag : String,
      ((dbxout_fields contin ref (E.node type).TYPE_FIELDS (CHARS 11 (fprintf tag
          (set_typevec (s.TYPE_SYMTAB_ADDRESS type) typestatus.TYPE_DEFINED
            (CHARS 1 (fprintf "=" s)))))).bind fun s' =>
        outcome.done (CHARS 1 (fprintf ";" s'))).ends_in fun s1 =>
          s1.typevec[s.TYPE_SYMTAB_ADDRESS type]? = some typestatus.TYPE_DEFINED ∨
          (s1.typevec[s.TYPE_SYMTAB_ADDRESS type]? = some typestatus.TYPE_XREF ∧
            s1.next_type_number = s.next_type_number ∧
            (full = false ∨
              (((E.node type).TREE_CODE = tree_code.RECORD_TYPE ∨
                  (E.node type).TREE_CODE = tree_code.UNION_TYPE ∨
                  (E.node type).TREE_CODE = tree_code.ENUMERAL_TYPE) ∧
                (E.node type).TYPE_SIZE = none))) := by
    intro tag
    refine ends_in_bind (P := Later (set_typevec (s.TYPE_SYMTAB_ADDRESS type)
      typestatus.TYPE_DEFINED (CHARS 1 (fprintf "=" s))))
      (ends_in_mono (dbxout_fields_later hc href _ _) fun _ h =>
        (later_step tag 11 (Later.refl _)).trans h) (fun _ h => hdef h) ?_
    intro s' h
    exact hdef (later_step ";" 1 h)
  have hfull : ∀ {b : Bool}, (b && !full) = true → full = false := by
    intro b h; cases full <;> simp at h ⊢
  unfold dbxout_type_definition
  simp only []
  split
  · exact hdef (later_step _ _ (Later.refl _))
  · split
    · exact hdef (later_step _ _ (Later.refl _))
    · exact hdef (later_step _ _ (Later.refl _))
  · split
    · trivial
    · exact hdef (later_step _ _ (Later.refl _))
  · split
    · trivial
    · split
      · trivial
      · exact ends_in_mono (href _ _) fun _ h => hdef ((later_step _ _ (Later.refl _)).trans h)
  · next hcode =>
    split
    · next e =>
      exact hxref _ _ (fun _ => ⟨rfl, rfl⟩) (Or.inr ⟨Or.inl hcode, e⟩)
    · split
      · next hb => exact hxref _ _ (fun _ => ⟨rfl, rfl⟩) (Or.inl (hfull hb))
      · exact hrecord _
  · next hcode =>
    split
    · next e =>
      exact hxref _ _ (fun _ => ⟨rfl, rfl⟩) (Or.inr ⟨Or.inr (Or.inl hcode), e⟩)
    · split
      · next hb => exact hxref _ _ (fun _ => ⟨rfl, rfl⟩) (Or.inl (hfull hb))
      · exact hrecord _
  · next hcode =>
    split
    · next hb =>
      refine hxref _ _ (fun _ => ⟨rfl, rfl⟩) ?_
      cases hfl : full
      · exact Or.inl rfl
      · refine Or.inr ⟨Or.inr (Or.inr hcode), ?_⟩
        rw [hfl] at hb
        simpa using hb
    · exact hdef (later_step ";" 1 ((later_step "e" 1 (Later.refl _)).trans
        (dbxout_values_later hc _ _)))
  · split
    · trivial
    · exact ends_in_mono (href _ _) fun _ h => hdef ((later_step _ _ (Later.refl _)).trans h)
  · split
    · trivial
    · exact ends_in_mono (href _ _) fun _ h => hdef ((later_step _ _ (Later.refl _)).trans h)
  · exact hdef (Later.refl _)

/-- The cross-reference written for a record, union or enum whose size is not
known gives no number to any node. -/
theorem definition_xref_next (contin : State → State) (E : Env)
    (ref : tree → State → outcome) (type : tree) (full : Bool) (s : State)
    (hcode : (E.node type).TREE_CODE = tree_code.RECORD_TYPE ∨
      (E.node type).TREE_CODE = tree_code.UNION_TYPE ∨
      (E.node type).TREE_CODE = tree_code.ENUMERAL_TYPE)
    (hsize : (E.node type).TYPE_SIZE = none) :
    (dbxout_type_definition contin E ref type full s).ends_in fun s1 =>
      s1.next_type_number = s.next_type_number := by
  have hx : ∀ (s2 : State) (wrap : State → State),
      s2.next_type_number = s.next_type_number →
      (∀ s' : State, (wrap s').next_type_number = s'.next_type_number) →
      ((dbxout_type_name E type s2).bind fun s' => outcome.done (wrap s')).ends_in fun s1 =>
        s1.next_type_number = s.next_type_number := by
    intro s2 wrap h2 hwrap
    unfold dbxout_type_name
    split
    · exact h2
    · show (wrap _).next_type_number = _
      rw [hwrap]; exact h2
    · show (wrap _).next_type_number = _
      rw [hwrap]; exact h2
    · exact h2
  unfold dbxout_type_definition
  rcases hcode with hcode | hcode | hcode
  · simp only [hcode, hsize]
    exact hx _ _ rfl fun _ => rfl
  · simp only [hcode, hsize]
    exact hx _ _ rfl fun _ => rfl
  · simp only [hcode, hsize, Option.isNone_none, Bool.or_true, if_true]
    exact hx _ _ rfl fun _ => rfl

/-- Two calls of `dbxout_type` on one node with the same `full`: the second gives
no number to any node. -/
theorem second_call_same_full (E : Env) (fuel fuel' : Nat) (type : tree) (full : Bool)
    (s s1 s2 : State) (hnext : s.next_type_number ≠ 0)
    (h1 : dbxout_type E fuel type full s = outcome.done s1)
    (h2 : dbxout_type E fuel' type full s1 = outcome.done s2) :
    s2.next_type_number = s1.next_type_number := by
  obtain ⟨n1, e1, _⟩ := dbxout_type_writes_number E fuel type full s s1 hnext h1
  -- the status the first call leaves
  have hstatus : s1.typevec[s1.TYPE_SYMTAB_ADDRESS type]? = some typestatus.TYPE_DEFINED ∨
      (s1.typevec[s1.TYPE_SYMTAB_ADDRESS type]? = some typestatus.TYPE_XREF ∧
        (full = false ∨
          (((E.node type).TREE_CODE = tree_code.RECORD_TYPE ∨
              (E.node type).TREE_CODE = tree_code.UNION_TYPE ∨
              (E.node type).TREE_CODE = tree_code.ENUMERAL_TYPE) ∧
            (E.node type).TYPE_SIZE = none))) := by
    cases fuel with
    | zero => cases h1
    | succ k =>
      have hn := @assign_symtab_ne_zero type s hnext
      have hdef : ∀ st,
          (CHARS 3 (fprintf (Nat.repr ((assign_type_number type s).TYPE_SYMTAB_ADDRESS type))
            (assign_type_number type s))).typevec[
              (assign_type_number type s).TYPE_SYMTAB_ADDRESS type]? = some st →
          dbxout_type_definition (CONTIN E) E
            (fun t s => dbxout_type_with (CONTIN E) E k t false s) type full
            (CHARS 3 (fprintf (Nat.repr ((assign_type_number type s).TYPE_SYMTAB_ADDRESS type))
              (assign_type_number type s))) = outcome.done s1 →
          s1.typevec[s1.TYPE_SYMTAB_ADDRESS type]? = some typestatus.TYPE_DEFINED ∨
          (s1.typevec[s1.TYPE_SYMTAB_ADDRESS type]? = some typestatus.TYPE_XREF ∧
            (full = false ∨
              (((E.node type).TREE_CODE = tree_code.RECORD_TYPE ∨
                  (E.node type).TREE_CODE = tree_code.UNION_TYPE ∨
                  (E.node type).TREE_CODE = tree_code.ENUMERAL_TYPE) ∧
                (E.node type).TYPE_SIZE = none))) := by
        intro st hst hrun
        have := ends_in_done (definition_status (later_CONTIN E) E
          (fun t s => dbxout_type_with_later (later_CONTIN E) E k t false s) type full
          (CHARS 3 (fprintf (Nat.repr ((assign_type_number type s).TYPE_SYMTAB_ADDRESS type))
            (assign_type_number type s))) st hn hst) hrun
        simp only [CHARS_symtab, fprintf_symtab] at this
        rw [e1]
        rcases this with h | ⟨h, _, h'⟩
        · exact Or.inl h
        · exact Or.inr ⟨h, h'⟩
      unfold dbxout_type dbxout_type_with at h1
      simp only [] at h1
      split at h1
      · cases h1
      · next hst => exact hdef _ hst h1
      · next hst =>
        split at h1
        · next hf =>
          cases h1
          simp only [CHARS_typevec, fprintf_typevec, CHARS_symtab, fprintf_symtab] at hst ⊢
          exact Or.inr ⟨hst, Or.inl (by simpa using hf)⟩
        · exact hdef _ hst h1
      · next hst =>
        cases h1
        simp only [CHARS_typevec, fprintf_typevec, CHARS_symtab, fprintf_symtab] at hst ⊢
        exact Or.inl hst
  -- the second call
  cases fuel' with
  | zero => cases h2
  | succ k' =>
    unfold dbxout_type at h2
    rcases hstatus with hd | ⟨hx, hc⟩
    · rw [dbxout_type_with_defined _ _ _ _ _ _ ⟨n1, hd⟩] at h2
      cases h2; rfl
    · rcases hc with hf | ⟨hcode, hsize⟩
      · rw [hf, dbxout_type_with_xref _ _ _ _ _ n1 hx] at h2
        cases h2; rfl
      · cases hfl : full
        · rw [hfl, dbxout_type_with_xref _ _ _ _ _ n1 hx] at h2
          cases h2; rfl
        · rw [hfl, dbxout_type_with_define _ _ _ _ _ _
            (Or.inr ⟨by rw [assign_of_ne_zero n1]; exact hx, rfl⟩), assign_of_ne_zero n1] at h2
          exact ends_in_done (definition_xref_next _ _ _ _ _
            (CHARS 3 (fprintf (Nat.repr (s1.TYPE_SYMTAB_ADDRESS type)) s1)) hcode hsize) h2

/-- C3 as stated fails: `struct list { struct list *next; }` is first written as
a cross-reference (`full` = 0), which leaves `next_type_number` at 4; the
second call on the same node (`full` = 1) writes the body, numbers the pointer
type in it, and leaves `next_type_number` at 5. -/
theorem second_call_advances_next_type_number :
    dbxout_type example_env 3 13 false at_symbol = outcome.done list_xref ∧
    dbxout_type example_env 3 13 true list_xref = outcome.done list_full ∧
    list_xref.TYPE_SYMTAB_ADDRESS 13 = 3 ∧ list_full.TYPE_SYMTAB_ADDRESS 13 = 3 ∧
    list_xref.next_type_number = 4 ∧ list_full.next_type_number = 5 :=
  ⟨rfl, rfl, rfl, rfl, rfl, rfl⟩

/-- C3, amended: in every registry state with `next_type_number` not 0, two
calls of `dbxout_type` on the same type node write the same type number: the
first call gives the node a number only if it has none (and then the value of
`next_type_number`), the second call leaves the number of the node as it is, and
its numbering step changes nothing (`assign_type_number` is the identity on the
state the first call leaves).  `next_type_number` can advance in the second
call, but only by numbers given to other nodes, which had none, and not at all
when the two calls have the same `full`. -/
theorem same_number_twice (E : Env) (fuel fuel' : Nat) (type : tree) (full full' : Bool)
    (s s1 s2 : State) (hnext : s.next_type_number ≠ 0)
    (h1 : dbxout_type E fuel type full s = outcome.done s1)
    (h2 : dbxout_type E fuel' type full' s1 = outcome.done s2) :
    s1.TYPE_SYMTAB_ADDRESS type ≠ 0 ∧
    (s.TYPE_SYMTAB_ADDRESS type ≠ 0 → s1.TYPE_SYMTAB_ADDRESS type = s.TYPE_SYMTAB_ADDRESS type) ∧
    (s.TYPE_SYMTAB_ADDRESS type = 0 → s1.TYPE_SYMTAB_ADDRESS type = s.next_type_number) ∧
    s2.TYPE_SYMTAB_ADDRESS type = s1.TYPE_SYMTAB_ADDRESS type ∧
    assign_type_number type s1 = s1 ∧
    (∃ text, s1.asmfile = s.asmfile ++ Nat.repr (s1.TYPE_SYMTAB_ADDRESS type) ++ text) ∧
    (∃ text, s2.asmfile = s1.asmfile ++ Nat.repr (s1.TYPE_SYMTAB_ADDRESS type) ++ text) ∧
    (∀ v, s2.TYPE_SYMTAB_ADDRESS v ≠ s1.TYPE_SYMTAB_ADDRESS v →
      v ≠ type ∧ s1.TYPE_SYMTAB_ADDRESS v = 0 ∧ s1.next_type_number ≤ s2.TYPE_SYMTAB_ADDRESS v) ∧
    (full' = full → s2.next_type_number = s1.next_type_number) := by
  obtain ⟨n1, e1, w1⟩ := dbxout_type_writes_number E fuel type full s s1 hnext h1
  have hl1 := ends_in_done (dbxout_type_later E fuel type full s) h1
  have hl2 := ends_in_done (dbxout_type_later E fuel' type full' s1) h2
  have hnext1 : s1.next_type_number ≠ 0 := fun e => hnext (Nat.le_zero.mp (e ▸ hl1.next_le))
  obtain ⟨n2, e2, w2⟩ := dbxout_type_writes_number E fuel' type full' s1 s2 hnext1 h2
  have k2 := hl2.keep type n1
  refine ⟨n1, fun h => hl1.keep type h, fun h => by rw [e1, assign_symtab_of_zero h], k2,
    assign_of_ne_zero n1, w1, by rw [← k2]; exact w2, ?_, ?_⟩
  · intro v hv
    have h0 : s1.TYPE_SYMTAB_ADDRESS v = 0 := by
      by_contra hne; exact hv (hl2.keep v hne)
    exact ⟨fun e => n1 (e ▸ h0), h0, (hl2.fresh v hv).1⟩
  · intro e
    subst e
    exact second_call_same_full E fuel fuel' type full' s s1 s2 hnext h1 h2

theorem same_number_twice_witness :
    at_symbol.next_type_number ≠ 0 ∧
    dbxout_type example_env 3 13 false at_symbol = outcome.done list_xref ∧
    dbxout_type example_env 3 13 true list_xref = outcome.done list_full ∧
    (list_xref.TYPE_SYMTAB_ADDRESS 13 ≠ 0 ∧
    (at_symbol.TYPE_SYMTAB_ADDRESS 13 ≠ 0 →
      list_xref.TYPE_SYMTAB_ADDRESS 13 = at_symbol.TYPE_SYMTAB_ADDRESS 13) ∧
    (at_symbol.TYPE_SYMTAB_ADDRESS 13 = 0 →
      list_xref.TYPE_SYMTAB_ADDRESS 13 = at_symbol.next_type_number) ∧
    list_full.TYPE_SYMTAB_ADDRESS 13 = list_xref.TYPE_SYMTAB_ADDRESS 13 ∧
    assign_type_number 13 list_xref = list_xref ∧
    (∃ text, list_xref.asmfile =
      at_symbol.asmfile ++ Nat.repr (list_xref.TYPE_SYMTAB_ADDRESS 13) ++ text) ∧
    (∃ text, list_full.asmfile =
      list_xref.asmfile ++ Nat.repr (list_xref.TYPE_SYMTAB_ADDRESS 13) ++ text) ∧
    (∀ v, list_full.TYPE_SYMTAB_ADDRESS v ≠ list_xref.TYPE_SYMTAB_ADDRESS v →
      v ≠ 13 ∧ list_xref.TYPE_SYMTAB_ADDRESS v = 0 ∧
        list_xref.next_type_number ≤ list_full.TYPE_SYMTAB_ADDRESS v) ∧
    (true = false → list_full.next_type_number = list_xref.next_type_number)) :=
  ⟨by decide, rfl, rfl,
    same_number_twice example_env 3 3 13 false true at_symbol list_xref list_full (by decide)
      rfl rfl⟩

/-! ## Texts in pieces -/

theorem join_foldl (acc : String) (l : List String) :
    List.foldl (fun r s => r ++ s) acc l = acc ++ String.join l := by
  induction l generalizing acc with
  | nil => simp [String.join]
  | cons a l ih =>
    simp only [String.join, List.foldl_cons]
    rw [ih, ih ("" ++ a)]
    simp [String.append_assoc]

theorem join_cons (a : String) (l : List String) :
    String.join (a :: l) = a ++ String.join l := by
  simp only [String.join, List.foldl_cons]
  rw [join_foldl]
  simp [String.join]

theorem join_nil : String.join [] = "" := rfl

theorem join_append (l l' : List String) :
    String.join (l ++ l') = String.join l ++ String.join l' := by
  induction l with
  | nil => simp [join_nil]
  | cons a l ih => rw [List.cons_append, join_cons, join_cons, ih, String.append_assoc]

theorem intercalate_go_front (p acc sep : String) (l : List String) :
    String.intercalate.go (p ++ acc) sep l = p ++ String.intercalate.go acc sep l := by
  induction l generalizing acc with
  | nil => simp [String.intercalate.go]
  | cons a l ih =>
    simp only [String.intercalate.go]
    rw [← ih]
    simp [String.append_assoc]

theorem intercalate_singleton (sep a : String) : String.intercalate sep [a] = a := rfl

theorem intercalate_cons_cons (sep a b : String) (l : List String) :
    String.intercalate sep (a :: b :: l) = a ++ sep ++ String.intercalate sep (b :: l) := by
  simp only [String.intercalate, String.intercalate.go]
  rw [intercalate_go_front]

theorem intercalate_front (sep p a : String) (l : List String) :
    String.intercalate sep ((p ++ a) :: l) = p ++ String.intercalate sep (a :: l) := by
  simp only [String.intercalate]
  rw [intercalate_go_front]

theorem intercalate_go_snoc (acc sep c : String) (l : List String) :
    String.intercalate.go acc sep (l ++ [c]) = String.intercalate.go acc sep l ++ sep ++ c := by
  induction l generalizing acc with
  | nil => simp [String.intercalate.go]
  | cons a l ih =>
    simp only [List.cons_append, String.intercalate.go]
    exact ih _

theorem intercalate_snoc (sep c : String) (l : List String) (h : l ≠ []) :
    String.intercalate sep (l ++ [c]) = String.intercalate sep l ++ sep ++ c := by
  cases l with
  | nil => exact absurd rfl h
  | cons a l =>
    simp only [List.cons_append, String.intercalate]
    rw [intercalate_go_snoc]

theorem intercalate_snoc_append (sep c a : String) (l : List String) :
    String.intercalate sep (l ++ [c ++ a]) = String.intercalate sep (l ++ [c]) ++ a := by
  cases l with
  | nil => rfl
  | cons b l =>
    rw [intercalate_snoc _ _ _ (List.cons_ne_nil _ _), intercalate_snoc _ _ _ (List.cons_ne_nil _ _)]
    simp [String.append_assoc]

/-! ## Records written in full (C7, C8) -/

theorem CONTIN_short (E : Env) (s : State) (h : s.current_sym_nchars ≤ 80) :
    CONTIN E s = s := by
  unfold CONTIN; rw [if_neg (by omega)]

theorem CONTIN_long (E : Env) (s : State) (h : 80 < s.current_sym_nchars) :
    CONTIN E s =
      { s with asmfile := s.asmfile ++ continuation E s, current_sym_nchars := 0 } := by
  unfold CONTIN; rw [if_pos h, dbxout_continue_eq]; rfl

/-- One named field whose type is already defined: what the body of the loop
does after `CONTIN`. -/
theorem field_step (E : Env) (fuel : Nat) (tem : field_decl) (name : String)
    (hname : tem.DECL_NAME = some name) (c : State) (hd : defined_in c tem.TREE_TYPE)
    (k : State → outcome) :
    ((dbxout_type_with (CONTIN E) E (fuel + 1) tem.TREE_TYPE false
        (CHARS (1 + name.length) (fprintf (name ++ ":") c))).bind fun s =>
      k (CHARS 23 (fprintf ("," ++ fmt_d tem.DECL_OFFSET ++ ","
        ++ fmt_d (tem.DECL_SIZE * tem.DECL_SIZE_UNIT) ++ ";") s))) =
    k { c with asmfile := c.asmfile ++ field_text c tem,
               current_sym_nchars := c.current_sym_nchars + field_chars tem } := by
  have hd' : defined_in (CHARS (1 + name.length) (fprintf (name ++ ":") c)) tem.TREE_TYPE := hd
  rw [dbxout_type_with_defined _ _ _ _ _ _ hd']
  simp only [outcome.bind]
  congr 1
  simp only [CHARS, fprintf, field_text, field_chars, hname, Option.getD_some,
    String.append_assoc, Nat.add_assoc]

/-- The loop over the fields when all are named and have types already defined:
the text is the texts of the fields, cut by continuations. -/
theorem dbxout_fields_defined (E : Env) (fuel : Nat) (fields : List field_decl) :
    ∀ c : State, (∀ tem ∈ fields, tem.DECL_NAME.isSome) →
      (∀ tem ∈ fields, defined_in c tem.TREE_TYPE) →
      ∃ (segs : List String) (n : Nat),
        dbxout_fields (CONTIN E)
          (fun t s => dbxout_type_with (CONTIN E) E (fuel + 1) t false s) fields c =
          outcome.done { c with asmfile := c.asmfile
                                  ++ String.intercalate (continuation E c) segs,
                                current_sym_nchars := n } ∧
        segs ≠ [] ∧
        String.join segs = String.join (fields.map (field_text c)) ∧
        ((fields = [] ∨ c.current_sym_nchars + (fields.dropLast.map field_chars).sum ≤ 80) →
          segs.length = 1) ∧
        (fields ≠ [] → 80 < c.current_sym_nchars + (fields.dropLast.map field_chars).sum →
          2 ≤ segs.length) := by
  induction fields with
  | nil =>
    intro c _ _
    refine ⟨[""], c.current_sym_nchars, ?_, by simp, rfl, fun _ => rfl, fun h => absurd rfl h⟩
    unfold dbxout_fields
    simp [String.intercalate, String.intercalate.go]
  | cons tem rest ih =>
    intro c hnamed hdef
    obtain ⟨name, hname⟩ := Option.isSome_iff_exists.mp (hnamed tem (List.mem_cons_self _ _))
    have hdt := hdef tem (List.mem_cons_self _ _)
    unfold dbxout_fields
    simp only [hname]
    by_cases hlong : 80 < c.current_sym_nchars
    · rw [CONTIN_long E c hlong,
        field_step E fuel tem name hname
          { c with asmfile := c.asmfile ++ continuation E c, current_sym_nchars := 0 } hdt]
      obtain ⟨segs, n, hrun, hne, hjoin, _, _⟩ := ih
        { c with asmfile := c.asmfile ++ continuation E c ++ field_text c tem,
                 current_sym_nchars := 0 + field_chars tem }
        (fun t ht => hnamed t (List.mem_cons_of_mem _ ht))
        (fun t ht => hdef t (List.mem_cons_of_mem _ ht))
      obtain ⟨h, t, rfl⟩ : ∃ h t, segs = h :: t := by
        cases segs with
        | nil => exact absurd rfl hne
        | cons h t => exact ⟨h, t, rfl⟩
      refine ⟨"" :: (field_text c tem ++ h) :: t, n, ?_, by simp, ?_, ?_, ?_⟩
      · refine hrun.trans ?_
        congr 1
        rw [intercalate_cons_cons, intercalate_front]
        simp only [String.append_assoc, String.empty_append]
        rfl
      · rw [join_cons, join_cons, List.map_cons, join_cons, String.empty_append,
          String.append_assoc, ← join_cons, hjoin]
        rfl
      · rintro (h0 | h0)
        · cases h0
        · omega
      · intro _ _
        simp
    · rw [CONTIN_short E c (by omega), field_step E fuel tem name hname c hdt]
      obtain ⟨segs, n, hrun, hne, hjoin, hA, hB⟩ := ih
        { c with asmfile := c.asmfile ++ field_text c tem,
                 current_sym_nchars := c.current_sym_nchars + field_chars tem }
        (fun t ht => hnamed t (List.mem_cons_of_mem _ ht))
        (fun t ht => hdef t (List.mem_cons_of_mem _ ht))
      obtain ⟨h, t, rfl⟩ : ∃ h t, segs = h :: t := by
        cases segs with
        | nil => exact absurd rfl hne
        | cons h t => exact ⟨h, t, rfl⟩
      refine ⟨(field_text c tem ++ h) :: t, n, ?_, by simp, ?_, ?_, ?_⟩
      · refine hrun.trans ?_
        congr 1
        rw [intercalate_front]
        simp only [String.append_assoc]
        rfl
      · rw [join_cons, List.map_cons, join_cons, String.append_assoc, ← join_cons, hjoin]
        rfl
      · rintro (h0 | h0)
        · cases h0
        · by_cases hr : rest = []
          · have := hA (Or.inl hr)
            simpa using this
          · rw [List.dropLast_cons_of_ne_nil hr, List.map_cons, List.sum_cons] at h0
            have := hA (Or.inr (by simp only []; omega))
            simpa using this
      · intro _ h0
        have hr : rest ≠ [] := by
          intro hr
          rw [hr] at h0
          simp at h0
          omega
        rw [List.dropLast_cons_of_ne_nil hr, List.map_cons, List.sum_cons] at h0
        have := hB hr (by simp only []; omega)
        simpa using this

theorem continuation_congr (E : Env) {s s' : State}
    (h1 : s'.current_sym_code = s.current_sym_code)
    (h2 : s'.current_sym_value = s.current_sym_value)
    (h3 : s'.current_sym_addr = s.current_sym_addr) :
    continuation E s' = continuation E s := by
  unfold continuation record_end
  rw [h1, h2, h3]

/-- A record or union of known size, not yet seen, written in full, whose fields
are all named and have types already defined: the text is the number, `=`, `s`
or `u`, the size, the texts of the fields cut into pieces by continuations, and
`;`. -/
theorem record_in_full (E : Env) (fuel : Nat) (type : tree) (s : State) (size : Int)
    (hwf : well_formed s)
    (hcode : (E.node type).TREE_CODE = tree_code.RECORD_TYPE ∨
      (E.node type).TREE_CODE = tree_code.UNION_TYPE)
    (hsize : (E.node type).TYPE_SIZE = some size)
    (hunseen : s.TYPE_SYMTAB_ADDRESS type = 0 ∨
      s.typevec[s.TYPE_SYMTAB_ADDRESS type]? = some typestatus.TYPE_UNSEEN)
    (hnamed : ∀ tem ∈ (E.node type).TYPE_FIELDS, tem.DECL_NAME.isSome)
    (hdefined : ∀ tem ∈ (E.node type).TYPE_FIELDS, defined_in s tem.TREE_TYPE) :
    ∃ (s' : State) (segs : List String),
      dbxout_type E (fuel + 2) type true s = outcome.done s' ∧
      s'.asmfile = s.asmfile ++ Nat.repr (s'.TYPE_SYMTAB_ADDRESS type) ++ "="
        ++ (if (E.node type).TREE_CODE = tree_code.RECORD_TYPE then "s" else "u")
        ++ fmt_d size ++ String.intercalate (continuation E s) segs ++ ";" ∧
      String.join segs = String.join ((E.node type).TYPE_FIELDS.map (field_text s)) ∧
      (((E.node type).TYPE_FIELDS = [] ∨ s.current_sym_nchars + 15
          + ((E.node type).TYPE_FIELDS.dropLast.map field_chars).sum ≤ 80) →
        segs.length = 1) ∧
      ((E.node type).TYPE_FIELDS ≠ [] → 80 < s.current_sym_nchars + 15
          + ((E.node type).TYPE_FIELDS.dropLast.map field_chars).sum →
        2 ≤ segs.length) ∧
      s'.typevec[s'.TYPE_SYMTAB_ADDRESS type]? = some typestatus.TYPE_DEFINED := by
  have hnext : s.next_type_number ≠ 0 := by have := hwf.1.next_pos; omega
  have hU : (assign_type_number type s).typevec[
      (assign_type_number type s).TYPE_SYMTAB_ADDRESS type]? = some typestatus.TYPE_UNSEEN := by
    by_cases h0 : s.TYPE_SYMTAB_ADDRESS type = 0
    · exact assign_fresh_unseen hwf h0
    · rw [assign_of_ne_zero h0]
      rcases hunseen with h | h
      · exact absurd h h0
      · exact h
  obtain ⟨sm, hsm⟩ : ∃ sm, sm = CHARS 11 (fprintf
      ((if (E.node type).TREE_CODE = tree_code.RECORD_TYPE then "s" else "u") ++ fmt_d size)
      (set_typevec ((assign_type_number type s).TYPE_SYMTAB_ADDRESS type)
        typestatus.TYPE_DEFINED (CHARS 1 (fprintf "=" (CHARS 3 (fprintf
          (Nat.repr ((assign_type_number type s).TYPE_SYMTAB_ADDRESS type))
          (assign_type_number type s))))))) := ⟨_, rfl⟩
  have hl : Later s sm := by
    rw [hsm]
    exact later_step _ _ ((later_step "=" 1 (later_step _ 3 (later_assign type s))).trans
      (later_mark type _))
  have hcall : dbxout_type E (fuel + 2) type true s =
      (dbxout_fields (CONTIN E) (fun t s => dbxout_type_with (CONTIN E) E (fuel + 1) t false s)
        (E.node type).TYPE_FIELDS sm).bind fun s => outcome.done (CHARS 1 (fprintf ";" s)) := by
    unfold dbxout_type
    rw [dbxout_type_with_define _ _ _ _ _ _ (Or.inl hU),
      definition_record _ _ _ _ _ _ size hcode hsize (by simp), hsm]
    rfl
  obtain ⟨segs, n, hrun, _, hjoin, hA, hB⟩ := dbxout_fields_defined E fuel
    (E.node type).TYPE_FIELDS sm hnamed fun t ht => defined_in_later hl (hdefined t ht)
  have hcont : continuation E sm = continuation E s := by
    rw [hsm]
    exact continuation_congr E (by simp) (by simp) (by simp)
  have hchars : sm.current_sym_nchars = s.current_sym_nchars + 15 := by
    rw [hsm]; simp [Nat.add_assoc]
  have hsym : sm.TYPE_SYMTAB_ADDRESS type =
      (assign_type_number type s).TYPE_SYMTAB_ADDRESS type := by rw [hsm]; rfl
  have htext : (E.node type).TYPE_FIELDS.map (field_text sm) =
      (E.node type).TYPE_FIELDS.map (field_text s) := by
    apply List.map_congr_left
    intro t ht
    unfold field_text
    rw [hl.keep _ (hdefined t ht).1]
  rw [hrun] at hcall
  refine ⟨_, segs, hcall, ?_, by rw [hjoin, htext], ?_, ?_, ?_⟩
  · simp only [fprintf_asmfile, CHARS_asmfile, CHARS_symtab, fprintf_symtab, hcont, hsym]
    rw [hsm]
    simp only [fprintf_asmfile, CHARS_asmfile, set_typevec_asmfile, assign_asmfile,
      String.append_assoc]
  · rw [hchars] at hA; exact hA
  · rw [hchars] at hB; exact hB
  · simp only [fprintf_typevec, CHARS_typevec, CHARS_symtab, fprintf_symtab, hsym]
    rw [hsm]
    simp only [fprintf_typevec, CHARS_typevec, set_typevec_typevec]
    exact getElem?_set_self_of_some hU _

/-- C7: a record type of known size, not yet seen, whose fields are all named
and have types already Defined, written by `dbxout_type` with `full` = 1 and
enough fuel, when no continuation triggers (the running count, 15 more for the
number, `=` and the size, and 27 more and its name length for every field but
the last, stays at most 80): the text is the record number, `=`, `s`, the
size, then for each field in order name `:` type number `,` bit offset `,` bit
size `;`, then `;`; the record ends Defined. -/
theorem record_fields_encoding (E : Env) (fuel : Nat) (type : tree) (s : State) (size : Int)
    (hfuel : 2 ≤ fuel) (hwf : well_formed s)
    (hcode : (E.node type).TREE_CODE = tree_code.RECORD_TYPE)
    (hsize : (E.node type).TYPE_SIZE = some size)
    (hunseen : s.TYPE_SYMTAB_ADDRESS type = 0 ∨
      s.typevec[s.TYPE_SYMTAB_ADDRESS type]? = some typestatus.TYPE_UNSEEN)
    (hnamed : ∀ tem ∈ (E.node type).TYPE_FIELDS, tem.DECL_NAME.isSome)
    (hdefined : ∀ tem ∈ (E.node type).TYPE_FIELDS, defined_in s tem.TREE_TYPE)
    (hshort : (E.node type).TYPE_FIELDS = [] ∨ s.current_sym_nchars + 15
      + ((E.node type).TYPE_FIELDS.dropLast.map field_chars).sum ≤ 80) :
    ∃ s' : State,
      dbxout_type E fuel type true s = outcome.done s' ∧
      s'.asmfile = s.asmfile ++ Nat.repr (s'.TYPE_SYMTAB_ADDRESS type) ++ "=" ++ "s"
        ++ fmt_d size ++ String.join ((E.node type).TYPE_FIELDS.map (field_text s)) ++ ";" ∧
      s'.typevec[s'.TYPE_SYMTAB_ADDRESS type]? = some typestatus.TYPE_DEFINED := by
  obtain ⟨k, rfl⟩ : ∃ k, fuel = k + 2 := ⟨fuel - 2, by omega⟩
  obtain ⟨s', segs, hrun, htext, hjoin, hA, _, hst⟩ :=
    record_in_full E k type s size hwf (Or.inl hcode) hsize hunseen hnamed hdefined
  obtain ⟨seg, rfl⟩ : ∃ seg, segs = [seg] := List.length_eq_one.mp (hA hshort)
  refine ⟨s', hrun, ?_, hst⟩
  rw [htext, if_pos hcode, intercalate_singleton, ← hjoin, join_cons, join_nil,
    String.append_empty]

theorem record_fields_encoding_witness :
    2 ≤ 2 ∧ well_formed at_symbol ∧
    (example_env.node 12).TREE_CODE = tree_code.RECORD_TYPE ∧
    (example_env.node 12).TYPE_SIZE = some 8 ∧
    (at_symbol.TYPE_SYMTAB_ADDRESS 12 = 0 ∨
      at_symbol.typevec[at_symbol.TYPE_SYMTAB_ADDRESS 12]? = some typestatus.TYPE_UNSEEN) ∧
    (∀ tem ∈ (example_env.node 12).TYPE_FIELDS, tem.DECL_NAME.isSome) ∧
    (∀ tem ∈ (example_env.node 12).TYPE_FIELDS, defined_in at_symbol tem.TREE_TYPE) ∧
    ((example_env.node 12).TYPE_FIELDS = [] ∨ at_symbol.current_sym_nchars + 15
      + ((example_env.node 12).TYPE_FIELDS.dropLast.map field_chars).sum ≤ 80) ∧
    (∃ s' : State,
      dbxout_type example_env 2 12 true at_symbol = outcome.done s' ∧
      s'.asmfile = at_symbol.asmfile ++ Nat.repr (s'.TYPE_SYMTAB_ADDRESS 12) ++ "=" ++ "s"
        ++ fmt_d 8 ++ String.join ((example_env.node 12).TYPE_FIELDS.map (field_text at_symbol))
        ++ ";" ∧
      s'.typevec[s'.TYPE_SYMTAB_ADDRESS 12]? = some typestatus.TYPE_DEFINED) ∧
    ((dbxout_type example_env 2 12 true at_symbol).state_or zero_state).asmfile =
      at_symbol.asmfile ++ "3=s8a:1,0,32;b:1,32,32;;" :=
  ⟨by decide, well_formed_at_symbol, rfl, rfl, Or.inl rfl, by decide, by decide,
    Or.inr (by decide),
    record_fields_encoding example_env 2 12 at_symbol 8 (by decide) well_formed_at_symbol rfl
      rfl (Or.inl rfl) (by decide) (by decide) (Or.inr (by decide)),
    by rfl⟩

/-- C8: the code at a failing input.  The typedef of the example whose name has
83 characters has a description of 96 characters, more than 80, and
`dbxout_type_def` ends normally having written it as one record, with no
continuation: the length is tested only in the loops over the fields and the
enumerators, and the description of an integer type has neither. -/
theorem long_description_one_record :
    long_description.length = 96 ∧ 80 < long_description.length ∧
    ((dbxout_type_def example_env 1 14 after_init).state_or zero_state).asmfile =
      after_init.asmfile ++ ".stabs \"" ++ long_description ++ "\",128,0,0,0\n" ∧
    ∃ s', dbxout_type_def example_env 1 14 after_init = outcome.done s' ∧
      s'.asmfile =
        after_init.asmfile ++ ".stabs \"" ++ long_description ++ "\",128,0,0,0\n" :=
  ⟨by decide, by decide, by rfl, ⟨_, rfl, rfl⟩⟩

/-- Where the code does split: the length is tested before a named field,
against the running count `current_sym_nchars`.
For a record or union of known size, not yet seen, whose fields are all named
and have types already Defined, written with `full` = 1: if the running count,
15 more for the number, `=` and the size, and 27 more and its name length for
every field but the last, exceeds 80, the text of the fields is written in at
least two pieces, each piece but the last followed by the continuation: two
backslashes, the end of the record with the code and value of the symbol, and
the start of a new record. -/
theorem long_record_continued (E : Env) (fuel : Nat) (type : tree) (s : State) (size : Int)
    (hfuel : 2 ≤ fuel) (hwf : well_formed s)
    (hcode : (E.node type).TREE_CODE = tree_code.RECORD_TYPE ∨
      (E.node type).TREE_CODE = tree_code.UNION_TYPE)
    (hsize : (E.node type).TYPE_SIZE = some size)
    (hunseen : s.TYPE_SYMTAB_ADDRESS type = 0 ∨
      s.typevec[s.TYPE_SYMTAB_ADDRESS type]? = some typestatus.TYPE_UNSEEN)
    (hnamed : ∀ tem ∈ (E.node type).TYPE_FIELDS, tem.DECL_NAME.isSome)
    (hdefined : ∀ tem ∈ (E.node type).TYPE_FIELDS, defined_in s tem.TREE_TYPE)
    (hfields : (E.node type).TYPE_FIELDS ≠ [])
    (hlong : 80 < s.current_sym_nchars + 15
      + ((E.node type).TYPE_FIELDS.dropLast.map field_chars).sum) :
    ∃ (s' : State) (segs : List String),
      dbxout_type E fuel type true s = outcome.done s' ∧
      2 ≤ segs.length ∧
      s'.asmfile = s.asmfile ++ Nat.repr (s'.TYPE_SYMTAB_ADDRESS type) ++ "="
        ++ (if (E.node type).TREE_CODE = tree_code.RECORD_TYPE then "s" else "u")
        ++ fmt_d size
        ++ String.intercalate ("\\\\" ++ record_end E s ++ ".stabs \"") segs ++ ";" ∧
      String.join segs = String.join ((E.node type).TYPE_FIELDS.map (field_text s)) := by
  obtain ⟨k, rfl⟩ : ∃ k, fuel = k + 2 := ⟨fuel - 2, by omega⟩
  obtain ⟨s', segs, hrun, htext, hjoin, _, hB, _⟩ :=
    record_in_full E k type s size hwf hcode hsize hunseen hnamed hdefined
  exact ⟨s', segs, hrun, hB hfields hlong, htext, hjoin⟩

theorem long_record_continued_witness :
    2 ≤ 2 ∧ well_formed at_symbol ∧
    ((example_env.node 16).TREE_CODE = tree_code.RECORD_TYPE ∨
      (example_env.node 16).TREE_CODE = tree_code.UNION_TYPE) ∧
    (example_env.node 16).TYPE_SIZE = some 20 ∧
    (at_symbol.TYPE_SYMTAB_ADDRESS 16 = 0 ∨
      at_symbol.typevec[at_symbol.TYPE_SYMTAB_ADDRESS 16]? = some typestatus.TYPE_UNSEEN) ∧
    (∀ tem ∈ (example_env.node 16).TYPE_FIELDS, tem.DECL_NAME.isSome) ∧
    (∀ tem ∈ (example_env.node 16).TYPE_FIELDS, defined_in at_symbol tem.TREE_TYPE) ∧
    (example_env.node 16).TYPE_FIELDS ≠ [] ∧
    80 < at_symbol.current_sym_nchars + 15
      + ((example_env.node 16).TYPE_FIELDS.dropLast.map field_chars).sum ∧
    (∃ (s' : State) (segs : List String),
      dbxout_type example_env 2 16 true at_symbol = outcome.done s' ∧
      2 ≤ segs.length ∧
      s'.asmfile = at_symbol.asmfile ++ Nat.repr (s'.TYPE_SYMTAB_ADDRESS 16) ++ "="
        ++ (if (example_env.node 16).TREE_CODE = tree_code.RECORD_TYPE then "s" else "u")
        ++ fmt_d 20
        ++ String.intercalate ("\\\\" ++ record_end example_env at_symbol ++ ".stabs \"") segs
        ++ ";" ∧
      String.join segs =
        String.join ((example_env.node 16).TYPE_FIELDS.map (field_text at_symbol))) ∧
    ((dbxout_type example_env 2 16 true at_symbol).state_or zero_state).asmfile =
      at_symbol.asmfile ++ "3=s20alpha:1,0,32;beta:1,32,32;\\\\\",128,0,0,0\n.stabs \""
        ++ "gamma:1,64,32;delta:1,96,32;epsilon:1,128,32;;" :=
  ⟨by decide, well_formed_at_symbol, Or.inl rfl, rfl, Or.inl rfl, by decide, by decide,
    by decide, by decide,
    long_record_continued example_env 2 16 at_symbol 20 (by decide) well_formed_at_symbol
      (Or.inl rfl) rfl (Or.inl rfl) (by decide) (by decide) (by decide) (by decide),
    by rfl⟩

/-! ## Splitting does not change the description (C9, C10) -/

theorem pieces_refl (sep base : String) : pieces sep base base base :=
  ⟨[""], by simp, by simp [intercalate_singleton], by simp [join_cons, join_nil]⟩

theorem pieces_write {sep base x y : String} (a : String) (h : pieces sep base x y) :
    pieces sep base (x ++ a) (y ++ a) := by
  obtain ⟨segs, hne, hx, hy⟩ := h
  rcases List.eq_nil_or_concat segs with h0 | ⟨L, b, h0⟩
  · exact absurd h0 hne
  · rw [List.concat_eq_append] at h0
    subst h0
    refine ⟨L ++ [b ++ a], by simp, ?_, ?_⟩
    · rw [hx, intercalate_snoc_append, String.append_assoc]
    · rw [hy, join_append, join_append, join_cons, join_cons, join_nil]
      simp only [String.append_assoc, String.append_empty]

theorem pieces_cut {sep base x y : String} (h : pieces sep base x y) :
    pieces sep base (x ++ sep) y := by
  obtain ⟨segs, hne, hx, hy⟩ := h
  refine ⟨segs ++ [""], by simp, ?_, ?_⟩
  · rw [hx, intercalate_snoc _ _ _ hne]
    simp only [String.append_assoc, String.append_empty]
  · rw [hy, join_append, join_cons, join_nil]
    simp only [String.append_assoc, String.append_empty]

theorem split_of_refl (E : Env) (s : State) :
    split_of E (continuation E s) s.asmfile s s :=
  ⟨rfl, rfl, rfl, rfl, rfl, rfl, rfl, rfl, pieces_refl _ _, rfl⟩

theorem split_of_fprintf {E : Env} {sep base : String} {s u : State} (t : String)
    (h : split_of E sep base s u) : split_of E sep base (fprintf t s) (fprintf t u) :=
  ⟨h.symtab, h.typevec, h.typevec_len, h.next, h.block, h.code, h.value, h.addr,
    pieces_write t h.text, h.sep_eq⟩

theorem split_of_CHARS {E : Env} {sep base : String} {s u : State} (n m : Nat)
    (h : split_of E sep base s u) : split_of E sep base (CHARS n s) (CHARS m u) :=
  ⟨h.symtab, h.typevec, h.typevec_len, h.next, h.block, h.code, h.value, h.addr,
    h.text, h.sep_eq⟩

theorem split_of_step {E : Env} {sep base : String} {s u : State} (t : String) (n : Nat)
    (h : split_of E sep base s u) :
    split_of E sep base (CHARS n (fprintf t s)) (CHARS n (fprintf t u)) :=
  split_of_CHARS n n (split_of_fprintf t h)

theorem split_of_set {E : Env} {sep base : String} {s u : State} (type : tree)
    (v : typestatus) (h : split_of E sep base s u) :
    split_of E sep base (set_typevec (s.TYPE_SYMTAB_ADDRESS type) v s)
      (set_typevec (u.TYPE_SYMTAB_ADDRESS type) v u) :=
  ⟨h.symtab, by simp only [set_typevec_typevec, h.typevec, h.symtab], h.typevec_len, h.next,
    h.block, h.code, h.value, h.addr, h.text, h.sep_eq⟩

theorem split_of_CONTIN {E : Env} {sep base : String} {s u : State}
    (h : split_of E sep base s u) : split_of E sep base (CONTIN E s) u := by
  unfold CONTIN
  split
  · rw [dbxout_continue_eq]
    refine ⟨h.symtab, h.typevec, h.typevec_len, h.next, h.block, h.code, h.value, h.addr,
      ?_, h.sep_eq⟩
    show pieces sep base (s.asmfile ++ continuation E s) u.asmfile
    rw [h.sep_eq]
    exact pieces_cut h.text
  · exact h

theorem split_of_assign {E : Env} {sep base : String} {s u : State} (type : tree)
    (h : split_of E sep base s u) :
    split_of E sep base (assign_type_number type s) (assign_type_number type u) := by
  have hs := h.symtab
  have ht := h.typevec
  have hl := h.typevec_len
  have hn := h.next
  refine ⟨?_, ?_, ?_, ?_, by simp [h.block], by simp [h.code], by simp [h.value],
    by simp [h.addr], by simp only [assign_asmfile]; exact h.text, ?_⟩
  · unfold assign_type_number
    rw [hs, hn, hl]
    split
    · simp only []
      split <;> rfl
    · exact hs
  · unfold assign_type_number
    rw [hs, hn, hl, ht]
    split
    · simp only []
      split <;> rfl
    · exact ht
  · unfold assign_type_number
    rw [hs, hn, hl]
    split
    · simp only []
      split <;> rfl
    · exact hl
  · unfold assign_type_number
    rw [hs, hn, hl]
    split
    · simp only []
      split <;> rfl
    · exact hn
  · rw [← h.sep_eq]
    exact continuation_congr E (by simp) (by simp) (by simp)

theorem split_outcome_done {E : Env} {sep base : String} {s u : State}
    (h : split_of E sep base s u) : split_outcome E sep base (outcome.done s) (outcome.done u) :=
  h

theorem split_outcome_bind {E : Env} {sep base : String} {o o' : outcome}
    {k k' : State → outcome} (h : split_outcome E sep base o o')
    (hk : ∀ s u, split_of E sep base s u → split_outcome E sep base (k s) (k' u)) :
    split_outcome E sep base (o.bind k) (o'.bind k') := by
  cases o <;> cases o' <;> first | exact h.elim | exact hk _ _ h | exact h

theorem split_outcome_name {E : Env} {sep base : String} {s u : State} (type : tree)
    (h : split_of E sep base s u) :
    split_outcome E sep base (dbxout_type_name E type s) (dbxout_type_name E type u) := by
  unfold dbxout_type_name
  cases (E.node type).TYPE_NAME with
  | none => exact h
  | some nm =>
    cases nm with
    | IDENTIFIER_NODE name => exact split_of_step name name.length h
    | TYPE_DECL name => exact split_of_step name name.length h
    | OTHER => exact h

theorem split_outcome_fields {E : Env} {sep base : String}
    {ref ref' : tree → State → outcome}
    (href : ∀ t s u, split_of E sep base s u → split_outcome E sep base (ref t s) (ref' t u))
    (fields : List field_decl) :
    ∀ s u, split_of E sep base s u →
      split_outcome E sep base (dbxout_fields (CONTIN E) ref fields s)
        (dbxout_fields (fun s => s) ref' fields u) := by
  induction fields with
  | nil => intro s u h; exact h
  | cons tem chain ih =>
    intro s u h
    unfold dbxout_fields
    cases tem.DECL_NAME with
    | none => exact ih s u h
    | some name =>
      simp only []
      refine split_outcome_bind (href _ _ _ (split_of_step _ _ (split_of_CONTIN h))) ?_
      intro s1 u1 h1
      exact ih _ _ (split_of_step _ _ h1)

theorem split_of_values {E : Env} {sep base : String} (values : List (String × Int)) :
    ∀ s u, split_of E sep base s u →
      split_of E sep base (dbxout_values (CONTIN E) values s)
        (dbxout_values (fun s => s) values u) := by
  induction values with
  | nil => intro s u h; exact h
  | cons tem chain ih =>
    intro s u h
    unfold dbxout_values
    simp only []
    split
    · exact ih _ _ (split_of_step _ _ h)
    · exact ih _ _ (split_of_CONTIN (split_of_step _ _ h))

theorem split_outcome_definition {E : Env} {sep base : String}
    {ref ref' : tree → State → outcome}
    (href : ∀ t s u, split_of E sep base s u → split_outcome E sep base (ref t s) (ref' t u))
    (type : tree) (full : Bool) (s u : State) (h : split_of E sep base s u) :
    split_outcome E sep base (dbxout_type_definition (CONTIN E) E ref type full s)
      (dbxout_type_definition (fun s => s) E ref' type full u) := by
  have h2 := split_of_set type typestatus.TYPE_DEFINED (split_of_step "=" 1 h)
  simp only [CHARS_symtab, fprintf_symtab] at h2
  have hx1 : ∀ tag : String, split_outcome E sep base
      ((dbxout_type_name E type (CHARS 3 (fprintf tag
          (set_typevec (s.TYPE_SYMTAB_ADDRESS type) typestatus.TYPE_DEFINED
            (CHARS 1 (fprintf "=" s)))))).bind fun s' =>
        outcome.done (set_typevec (s.TYPE_SYMTAB_ADDRESS type) typestatus.TYPE_XREF
          (fprintf ":" s')))
      ((dbxout_type_name E type (CHARS 3 (fprintf tag
          (set_typevec (u.TYPE_SYMTAB_ADDRESS type) typestatus.TYPE_DEFINED
            (CHARS 1 (fprintf "=" u)))))).bind fun u' =>
        outcome.done (set_typevec (u.TYPE_SYMTAB_ADDRESS type) typestatus.TYPE_XREF
          (fprintf ":" u'))) := by
    intro tag
    refine split_outcome_bind (split_outcome_name type (split_of_step tag 3 h2)) ?_
    intro s1 u1 h1
    have := h1.typevec
    exact ⟨h1.symtab, by simp only [set_typevec_typevec, fprintf_typevec, h1.typevec, h.symtab],
      h1.typevec_len, h1.next, h1.block, h1.code, h1.value, h1.addr,
      pieces_write ":" h1.text, h1.sep_eq⟩
  have hx2 : ∀ tag : String, split_outcome E sep base
      ((dbxout_type_name E type (CHARS 3 (fprintf tag
          (set_typevec (s.TYPE_SYMTAB_ADDRESS type) typestatus.TYPE_DEFINED
            (CHARS 1 (fprintf "=" s)))))).bind fun s' =>
        outcome.done (fprintf ":" (set_typevec (s.TYPE_SYMTAB_ADDRESS type)
          typestatus.TYPE_XREF s')))
      ((dbxout_type_name E type (CHARS 3 (fprintf tag
          (set_typevec (u.TYPE_SYMTAB_ADDRESS type) typestatus.TYPE_DEFINED
            (CHARS 1 (fprintf "=" u)))))).bind fun u' =>
        outcome.done (fprintf ":" (set_typevec (u.TYPE_SYMTAB_ADDRESS type)
          typestatus.TYPE_XREF u'))) := by
    intro tag
    refine split_outcome_bind (split_outcome_name type (split_of_step tag 3 h2)) ?_
    intro s1 u1 h1
    exact ⟨h1.symtab, by simp only [set_typevec_typevec, fprintf_typevec, h1.typevec, h.symtab],
      h1.typevec_len, h1.next, h1.block, h1.code, h1.value, h1.addr,
      pieces_write ":" h1.text, h1.sep_eq⟩
  have hrec : ∀ tag : String, split_outcome E sep base
      ((dbxout_fields (CONTIN E) ref (E.node type).TYPE_FIELDS (CHARS 11 (fprintf tag
          (set_typevec (s.TYPE_SYMTAB_ADDRESS type) typestatus.TYPE_DEFINED
            (CHARS 1 (fprintf "=" s)))))).bind fun s' =>
        outcome.done (CHARS 1 (fprintf ";" s')))
      ((dbxout_fields (fun s => s) ref' (E.node type).TYPE_FIELDS (CHARS 11 (fprintf tag
          (set_typevec (u.TYPE_SYMTAB_ADDRESS type) typestatus.TYPE_DEFINED
            (CHARS 1 (fprintf "=" u)))))).bind fun u' =>
        outcome.done (CHARS 1 (fprintf ";" u'))) := by
    intro tag
    refine split_outcome_bind (split_outcome_fields href _ _ _ (split_of_step tag 11 h2)) ?_
    intro s1 u1 h1
    exact split_of_step ";" 1 h1
  unfold dbxout_type_definition
  simp only []
  cases hcode : (E.node type).TREE_CODE <;> simp only []
  · have e : s.TYPE_SYMTAB_ADDRESS type = u.TYPE_SYMTAB_ADDRESS type := by rw [h.symtab]
    have h3 := split_of_step (Nat.repr (s.TYPE_SYMTAB_ADDRESS type)) 3 h2
    rw [e] at h3 ⊢
    exact h3
  · split
    · exact split_of_step _ 25 h2
    · exact split_of_step _ 25 h2
  · cases (E.node type).TYPE_SIZE with
    | none => trivial
    | some size => exact split_of_step _ 16 h2
  · cases (E.node type).TYPE_DOMAIN_MAX with
    | none => trivial
    | some max =>
      cases (E.node type).TREE_TYPE with
      | none => trivial
      | some target => exact href _ _ _ (split_of_step _ 17 h2)
  · cases (E.node type).TYPE_SIZE with
    | none => exact hx1 _
    | some size =>
      simp only []
      split
      · exact hx1 _
      · exact hrec _
  · cases (E.node type).TYPE_SIZE with
    | none => exact hx1 _
    | some size =>
      simp only []
      split
      · exact hx1 _
      · exact hrec _
  · split
    · exact hx2 _
    · exact split_of_step ";" 1 (split_of_values _ _ _ (split_of_step "e" 1 h2))
  · cases (E.node type).TREE_TYPE with
    | none => trivial
    | some target => exact href _ _ _ (split_of_step _ 1 h2)
  · cases (E.node type).TREE_TYPE with
    | none => trivial
    | some target => exact href _ _ _ (split_of_step _ 1 h2)
  · exact h2

theorem split_outcome_type (E : Env) (sep base : String) :
    ∀ (fuel : Nat) (type : tree) (full : Bool) (s u : State), split_of E sep base s u →
      split_outcome E sep base (dbxout_type_with (CONTIN E) E fuel type full s)
        (dbxout_type_with (fun s => s) E fuel type full u) := by
  intro fuel
  induction fuel with
  | zero => intro type full s u _; trivial
  | succ fuel ih =>
    intro type full s u h
    have h1 := split_of_assign type h
    have e : (assign_type_number type s).TYPE_SYMTAB_ADDRESS type =
        (assign_type_number type u).TYPE_SYMTAB_ADDRESS type := by rw [h1.symtab]
    have h2 := split_of_step
      (Nat.repr ((assign_type_number type s).TYPE_SYMTAB_ADDRESS type)) 3 h1
    have hd := fun s' u' (h' : split_of E sep base s' u') =>
      @split_outcome_definition E sep base
        (fun t s => dbxout_type_with (CONTIN E) E fuel t false s)
        (fun t s => dbxout_type_with (fun s => s) E fuel t false s)
        (fun t s u h => ih t false s u h) type full s' u' h'
    unfold dbxout_type_with
    simp only [CHARS_typevec, fprintf_typevec, CHARS_symtab, fprintf_symtab]
    rw [e] at h2 ⊢
    rw [h1.typevec]
    cases (assign_type_number type u).typevec[
        (assign_type_number type u).TYPE_SYMTAB_ADDRESS type]? with
    | none => trivial
    | some st =>
      cases st with
      | TYPE_UNSEEN => exact hd _ _ h2
      | TYPE_XREF =>
        simp only []
        split
        · exact h2
        · exact hd _ _ h2
      | TYPE_DEFINED => exact h2

/-- The two encoders started in the same state: when the one that splits ends
normally, so does the other, with the same registry and the same text but for
the continuations. -/
theorem split_description_done (E : Env) (fuel : Nat) (type : tree) (full : Bool)
    (s s' : State) (hs' : dbxout_type E fuel type full s = outcome.done s') :
    ∃ (u' : State) (segs : List String),
      dbxout_type_unsplit E fuel type full s = outcome.done u' ∧ segs ≠ [] ∧
      s'.asmfile = s.asmfile ++ String.intercalate (continuation E s) segs ∧
      u'.asmfile = s.asmfile ++ String.join segs ∧
      s'.TYPE_SYMTAB_ADDRESS = u'.TYPE_SYMTAB_ADDRESS ∧ s'.typevec = u'.typevec ∧
      s'.typevec_len = u'.typevec_len ∧ s'.next_type_number = u'.next_type_number := by
  have h := split_outcome_type E (continuation E s) s.asmfile fuel type full s s
    (split_of_refl E s)
  unfold dbxout_type at hs'
  unfold dbxout_type_unsplit
  rw [hs'] at h
  cases hu : dbxout_type_with (fun s => s) E fuel type full s with
  | done u' =>
    rw [hu] at h
    obtain ⟨segs, hne, hx, hy⟩ := h.text
    exact ⟨u', segs, rfl, hne, hx, hy, h.symtab, h.typevec, h.typevec_len, h.next⟩
  | aborted u' => rw [hu] at h; exact h.elim
  | wild => rw [hu] at h; exact h.elim
  | nofuel => rw [hu] at h; exact h.elim

/-- C10: splitting does not change what is described.  For every type, `full`
flag and state, the encoder that splits (`dbxout_type`) and the one that does
not (`dbxout_type_unsplit`, the same code with `CONTIN` doing nothing) end the
same way; when they end in states `s'` and `u'`, these have the same type
numbers, statuses, `next_type_number` and symbol variables, and the text written
by the first is the text written by the second cut into pieces, each piece but
the last followed by the continuation (two backslashes, end of record, start of
the next record): taking the continuations out and putting the pieces together
gives the text of the encoder that does not split. -/
theorem split_preserves_description (E : Env) (fuel : Nat) (type : tree) (full : Bool)
    (s : State) :
    split_outcome E (continuation E s) s.asmfile (dbxout_type E fuel type full s)
      (dbxout_type_unsplit E fuel type full s) ∧
    (∀ s', dbxout_type E fuel type full s = outcome.done s' →
      ∃ (u' : State) (segs : List String),
        dbxout_type_unsplit E fuel type full s = outcome.done u' ∧ segs ≠ [] ∧
        s'.asmfile = s.asmfile ++ String.intercalate (continuation E s) segs ∧
        u'.asmfile = s.asmfile ++ String.join segs ∧
        s'.TYPE_SYMTAB_ADDRESS = u'.TYPE_SYMTAB_ADDRESS ∧ s'.typevec = u'.typevec ∧
        s'.typevec_len = u'.typevec_len ∧ s'.next_type_number = u'.next_type_number) ∧
    (∀ u', dbxout_type_unsplit E fuel type full s = outcome.done u' →
      ∃ s', dbxout_type E fuel type full s = outcome.done s') := by
  have h := split_outcome_type E (continuation E s) s.asmfile fuel type full s s
    (split_of_refl E s)
  refine ⟨h, fun s' hs' => split_description_done E fuel type full s s' hs', ?_⟩
  · intro u' hu'
    unfold dbxout_type_unsplit at hu'
    unfold dbxout_type
    rw [hu'] at h
    cases hs : dbxout_type_with (CONTIN E) E fuel type full s with
    | done s' => exact ⟨s', rfl⟩
    | aborted s' => rw [hs] at h; exact h.elim
    | wild => rw [hs] at h; exact h.elim
    | nofuel => rw [hs] at h; exact h.elim

/-- C9: the records of one description share code and value.  `dbxout_continue`
writes two backslashes, then what `dbxout_finish_symbol` writes (the closing
quote, the code, `0`, `0` and the value or address), then the start of the next
record.  In every completed call of `dbxout_type` the text written is the text
of the encoder that does not split, cut into pieces, each piece but the last
followed by that continuation with the code and the value or address the symbol
had when the call started; the call leaves them unchanged, so the
`dbxout_finish_symbol` that follows ends the last record with the same code and
value. -/
theorem continued_records_share_code_and_value (E : Env) (fuel : Nat) (type : tree)
    (full : Bool) (s s' : State) (h : dbxout_type E fuel type full s = outcome.done s') :
    (∀ c : State, (dbxout_continue E c).asmfile =
      c.asmfile ++ "\\\\" ++ record_end E c ++ ".stabs \"") ∧
    (∃ (u' : State) (segs : List String),
      dbxout_type_unsplit E fuel type full s = outcome.done u' ∧ segs ≠ [] ∧
      u'.asmfile = s.asmfile ++ String.join segs ∧
      s'.asmfile = s.asmfile
        ++ String.intercalate ("\\\\" ++ record_end E s ++ ".stabs \"") segs) ∧
    (dbxout_finish_symbol E s').asmfile = s'.asmfile ++ record_end E s ∧
    same_symbol s s' := by
  have hsame := ends_in_done
    (dbxout_type_with_same_symbol (same_symbol_CONTIN E) E fuel type full s) h
  obtain ⟨u', segs, hu, hne, hx, hy, _⟩ := split_description_done E fuel type full s s' h
  refine ⟨?_, ⟨u', segs, hu, hne, hy, hx⟩, ?_, hsame⟩
  · intro c
    rw [dbxout_continue_eq]
    simp only [fprintf_asmfile, continuation, String.append_assoc]
  · rw [dbxout_finish_symbol_asmfile]
    congr 1
    unfold record_end
    rw [hsame.1, hsame.2.1, hsame.2.2.1]

theorem continued_records_share_code_and_value_witness :
    dbxout_type example_env 2 16 true at_symbol = outcome.done after_big ∧
    ((∀ c : State, (dbxout_continue example_env c).asmfile =
      c.asmfile ++ "\\\\" ++ record_end example_env c ++ ".stabs \"") ∧
    (∃ (u' : State) (segs : List String),
      dbxout_type_unsplit example_env 2 16 true at_symbol = outcome.done u' ∧ segs ≠ [] ∧
      u'.asmfile = at_symbol.asmfile ++ String.join segs ∧
      after_big.asmfile = at_symbol.asmfile
        ++ String.intercalate ("\\\\" ++ record_end example_env at_symbol ++ ".stabs \"")
          segs) ∧
    (dbxout_finish_symbol example_env after_big).asmfile =
      after_big.asmfile ++ record_end example_env at_symbol ∧
    same_symbol at_symbol after_big) ∧
    (dbxout_finish_symbol example_env after_big).asmfile =
      at_symbol.asmfile ++ "3=s20alpha:1,0,32;beta:1,32,32;\\\\\",128,0,0,0\n"
        ++ ".stabs \"gamma:1,64,32;delta:1,96,32;epsilon:1,128,32;;\",128,0,0,0\n" :=
  ⟨rfl,
    continued_records_share_code_and_value example_env 2 16 true at_symbol after_big rfl,
    by rfl⟩

theorem split_preserves_description_witness :
    (split_outcome example_env (continuation example_env at_symbol) at_symbol.asmfile
      (dbxout_type example_env 2 16 true at_symbol)
      (dbxout_type_unsplit example_env 2 16 true at_symbol) ∧
    (∀ s', dbxout_type example_env 2 16 true at_symbol = outcome.done s' →
      ∃ (u' : State) (segs : List String),
        dbxout_type_unsplit example_env 2 16 true at_symbol = outcome.done u' ∧ segs ≠ [] ∧
        s'.asmfile = at_symbol.asmfile
          ++ String.intercalate (continuation example_env at_symbol) segs ∧
        u'.asmfile = at_symbol.asmfile ++ String.join segs ∧
        s'.TYPE_SYMTAB_ADDRESS = u'.TYPE_SYMTAB_ADDRESS ∧ s'.typevec = u'.typevec ∧
        s'.typevec_len = u'.typevec_len ∧ s'.next_type_number = u'.next_type_number) ∧
    (∀ u', dbxout_type_unsplit example_env 2 16 true at_symbol = outcome.done u' →
      ∃ s', dbxout_type example_env 2 16 true at_symbol = outcome.done s')) ∧
    ((dbxout_type_unsplit example_env 2 16 true at_symbol).state_or zero_state).asmfile =
      at_symbol.asmfile
        ++ "3=s20alpha:1,0,32;beta:1,32,32;gamma:1,64,32;delta:1,96,32;epsilon:1,128,32;;" ∧
    after_big.asmfile =
      at_symbol.asmfile ++ "3=s20alpha:1,0,32;beta:1,32,32;"
        ++ continuation example_env at_symbol
        ++ "gamma:1,64,32;delta:1,96,32;epsilon:1,128,32;;" :=
  ⟨split_preserves_description example_env 2 16 true at_symbol, by rfl, by rfl⟩

/-! ## Self-reference (C1) -/

/-- A record whose only field is a pointer to the record itself, neither of them
numbered yet, written in full: `N=s<size>name:M=*N,<offset>,<bits>;;` with `N` the
next type number and `M` the one after. -/
theorem self_referential_record (E : Env) (fuel : Nat) (type p : tree) (s : State)
    (size : Int) (tem : field_decl) (name : String) (hwf : well_formed s)
    (hcode : (E.node type).TREE_CODE = tree_code.RECORD_TYPE)
    (hsize : (E.node type).TYPE_SIZE = some size)
    (hfields : (E.node type).TYPE_FIELDS = [tem])
    (hname : tem.DECL_NAME = some name) (hp : tem.TREE_TYPE = p)
    (hpcode : (E.node p).TREE_CODE = tree_code.POINTER_TYPE)
    (hptarget : (E.node p).TREE_TYPE = some type)
    (h0 : s.TYPE_SYMTAB_ADDRESS type = 0) (hp0 : s.TYPE_SYMTAB_ADDRESS p = 0)
    (hshort : s.current_sym_nchars + 15 ≤ 80) :
    ∃ s' : State, dbxout_type E (fuel + 3) type true s = outcome.done s' ∧
      s'.asmfile = s.asmfile ++ Nat.repr s.next_type_number ++ "=" ++ "s" ++ fmt_d size
        ++ name ++ ":" ++ Nat.repr (s.next_type_number + 1) ++ "=" ++ "*"
        ++ Nat.repr s.next_type_number ++ "," ++ fmt_d tem.DECL_OFFSET ++ ","
        ++ fmt_d (tem.DECL_SIZE * tem.DECL_SIZE_UNIT) ++ ";" ++ ";" ∧
      s'.TYPE_SYMTAB_ADDRESS type = s.next_type_number ∧
      s'.TYPE_SYMTAB_ADDRESS p = s.next_type_number + 1 := by
  have hne : p ≠ type := by
    intro e; rw [e, hcode] at hpcode; cases hpcode
  have hnext : s.next_type_number ≠ 0 := by have := hwf.1.next_pos; omega
  have hU := assign_fresh_unseen hwf h0
  have hn := assign_symtab_of_zero h0
  -- the state in which the fields start
  obtain ⟨sm, hsm⟩ : ∃ sm, sm = CHARS 11 (fprintf
      ((if (E.node type).TREE_CODE = tree_code.RECORD_TYPE then "s" else "u") ++ fmt_d size)
      (set_typevec ((assign_type_number type s).TYPE_SYMTAB_ADDRESS type)
        typestatus.TYPE_DEFINED (CHARS 1 (fprintf "=" (CHARS 3 (fprintf
          (Nat.repr ((assign_type_number type s).TYPE_SYMTAB_ADDRESS type))
          (assign_type_number type s))))))) := ⟨_, rfl⟩
  have hlm : Later s sm := by
    rw [hsm]
    exact later_step _ _ ((later_step "=" 1 (later_step _ 3 (later_assign type s))).trans
      (later_mark type _))
  have hcall : dbxout_type E (fuel + 3) type true s =
      (dbxout_fields (CONTIN E) (fun t s => dbxout_type_with (CONTIN E) E (fuel + 2) t false s)
        [tem] sm).bind fun s => outcome.done (CHARS 1 (fprintf ";" s)) := by
    unfold dbxout_type
    rw [dbxout_type_with_define _ _ _ _ _ _ (Or.inl hU),
      definition_record _ _ _ _ _ _ size (Or.inl hcode) hsize (by simp), hsm, hfields]
    rfl
  have hmchars : sm.current_sym_nchars = s.current_sym_nchars + 15 := by
    rw [hsm]; simp [Nat.add_assoc]
  have hmsym : sm.TYPE_SYMTAB_ADDRESS = (assign_type_number type s).TYPE_SYMTAB_ADDRESS := by
    rw [hsm]; rfl
  have hmdef : defined_in sm type := by
    refine ⟨by rw [hmsym, hn]; exact hnext, ?_⟩
    rw [hmsym, hsm]
    simp only [CHARS_typevec, fprintf_typevec, set_typevec_typevec]
    exact getElem?_set_self_of_some hU _
  -- the field: its name, then the pointer type
  obtain ⟨c1, hc1⟩ : ∃ c1, c1 = CHARS (1 + name.length) (fprintf (name ++ ":") sm) := ⟨_, rfl⟩
  have hl1 : Later sm c1 := by rw [hc1]; exact later_step _ _ (Later.refl sm)
  have hwf1 : well_formed c1 := (hlm.trans hl1).wf hwf
  have hp1 : c1.TYPE_SYMTAB_ADDRESS p = 0 := by
    rw [hc1]
    simp only [CHARS_symtab, fprintf_symtab, hmsym]
    rw [assign_symtab_other _ hne, hp0]
  have hUp := assign_fresh_unseen hwf1 hp1
  have hnp := assign_symtab_of_zero hp1
  have hnext1 : c1.next_type_number = s.next_type_number + 1 := by
    rw [hc1, hsm]
    simp only [CHARS_next, fprintf_next, set_typevec_next]
    exact assign_next_of_zero h0
  obtain ⟨c2, hc2⟩ : ∃ c2, c2 = CHARS 1 (fprintf "*"
      (set_typevec ((assign_type_number p c1).TYPE_SYMTAB_ADDRESS p) typestatus.TYPE_DEFINED
        (CHARS 1 (fprintf "=" (CHARS 3 (fprintf
          (Nat.repr ((assign_type_number p c1).TYPE_SYMTAB_ADDRESS p))
          (assign_type_number p c1))))))) := ⟨_, rfl⟩
  have hl2 : Later c1 c2 := by
    rw [hc2]
    exact later_step _ _ ((later_step "=" 1 (later_step _ 3 (later_assign p c1))).trans
      (later_mark p _))
  have hd2 : defined_in c2 type := defined_in_later (hl1.trans hl2) hmdef
  have h2sym : c2.TYPE_SYMTAB_ADDRESS type = s.next_type_number := by
    rw [(hl1.trans hl2).keep type hmdef.1, hmsym, hn]
  have hpointer : dbxout_type_with (CONTIN E) E (fuel + 2) p false c1 =
      outcome.done (CHARS 3 (fprintf (Nat.repr (c2.TYPE_SYMTAB_ADDRESS type)) c2)) := by
    rw [dbxout_type_with_define _ _ _ _ _ _ (Or.inl hUp),
      definition_pointer _ _ _ _ _ _ type hpcode hptarget]
    simp only [CHARS_symtab, fprintf_symtab]
    rw [← hc2]
    exact dbxout_type_with_defined _ _ _ _ _ _ hd2
  have hloop : dbxout_fields (CONTIN E)
      (fun t s => dbxout_type_with (CONTIN E) E (fuel + 2) t false s) [tem] sm =
      outcome.done (CHARS 23 (fprintf ("," ++ fmt_d tem.DECL_OFFSET ++ ","
        ++ fmt_d (tem.DECL_SIZE * tem.DECL_SIZE_UNIT) ++ ";")
        (CHARS 3 (fprintf (Nat.repr (c2.TYPE_SYMTAB_ADDRESS type)) c2)))) := by
    unfold dbxout_fields
    simp only [hname]
    rw [CONTIN_short E sm (by omega), ← hc1, hp, hpointer]
    simp only [outcome.bind]
    unfold dbxout_fields
    rfl
  rw [hloop] at hcall
  refine ⟨_, hcall, ?_, ?_, ?_⟩
  · simp only [outcome.bind, fprintf_asmfile, CHARS_asmfile, h2sym]
    rw [hc2]
    simp only [fprintf_asmfile, CHARS_asmfile, set_typevec_asmfile, assign_asmfile, hnp,
      hnext1]
    rw [hc1, hsm]
    simp only [fprintf_asmfile, CHARS_asmfile, set_typevec_asmfile, assign_asmfile, hn,
      if_pos hcode, String.append_assoc]
  · simp only [fprintf_symtab, CHARS_symtab]
    exact h2sym
  · simp only [fprintf_symtab, CHARS_symtab]
    rw [hc2]
    simp only [fprintf_symtab, CHARS_symtab, set_typevec_symtab, hnp, hnext1]

/-- C1: `dbxout_type` terminates on every finite type graph, cycles included.
For a set `dom` of nodes closed under the references `dbxout_type` follows, fuel
above the number of nodes is enough: from a well-formed registry and sound nodes
the call ends normally, and from any registry with `next_type_number` not 0 it
does not run out of fuel.  A type met again while its own definition is being
written has the status `TYPE_DEFINED` (it is set before the body), and a call on
such a type writes its number alone: no `=` and no second body.  So a record
whose field `name` is a pointer to the record itself, neither numbered yet, is
written in full as `N=s<size>name:M=*N,<offset>,<bits>;;`. -/
theorem self_reference_terminates (E : Env) (dom : Finset tree) (hclosed : closed E dom)
    (hsound : ∀ v ∈ dom, (E.node v).sound = true) (fuel : Nat) (type : tree) (full : Bool)
    (s : State) (htype : type ∈ dom) (hwf : well_formed s) (hfuel : dom.card < fuel) :
    (∃ s', dbxout_type E fuel type full s = outcome.done s') ∧
    (∀ s0 : State, s0.next_type_number ≠ 0 →
      dbxout_type E fuel type full s0 ≠ outcome.nofuel) ∧
    (∀ (s0 : State) (full0 : Bool), defined_in s0 type →
      dbxout_type E fuel type full0 s0 =
        outcome.done (CHARS 3 (fprintf (Nat.repr (s0.TYPE_SYMTAB_ADDRESS type)) s0))) ∧
    (∀ (p : tree) (size : Int) (tem : field_decl) (name : String),
      (E.node type).TREE_CODE = tree_code.RECORD_TYPE →
      (E.node type).TYPE_SIZE = some size →
      (E.node type).TYPE_FIELDS = [tem] →
      tem.DECL_NAME = some name → tem.TREE_TYPE = p →
      (E.node p).TREE_CODE = tree_code.POINTER_TYPE →
      (E.node p).TREE_TYPE = some type →
      s.TYPE_SYMTAB_ADDRESS type = 0 → s.TYPE_SYMTAB_ADDRESS p = 0 →
      s.current_sym_nchars + 15 ≤ 80 → 3 ≤ fuel →
      ∃ s' : State, dbxout_type E fuel type true s = outcome.done s' ∧
        s'.asmfile = s.asmfile ++ Nat.repr s.next_type_number ++ "=" ++ "s" ++ fmt_d size
          ++ name ++ ":" ++ Nat.repr (s.next_type_number + 1) ++ "=" ++ "*"
          ++ Nat.repr s.next_type_number ++ "," ++ fmt_d tem.DECL_OFFSET ++ ","
          ++ fmt_d (tem.DECL_SIZE * tem.DECL_SIZE_UNIT) ++ ";" ++ ";" ∧
        s'.TYPE_SYMTAB_ADDRESS type = s.next_type_number ∧
        s'.TYPE_SYMTAB_ADDRESS p = s.next_type_number + 1) := by
  refine ⟨dbxout_type_total E dom hclosed hsound fuel type full s htype hwf hfuel,
    fun s0 h0 => dbxout_type_terminates E dom hclosed fuel type full s0 htype h0 hfuel, ?_, ?_⟩
  · intro s0 full0 hd
    obtain ⟨k, rfl⟩ : ∃ k, fuel = k + 1 := ⟨fuel - 1, by omega⟩
    exact dbxout_type_with_defined _ E k type full0 s0 hd
  · intro p size tem name hcode hsize hfields hname hp hpcode hptarget h0 hp0 hshort h3
    obtain ⟨k, rfl⟩ : ∃ k, fuel = k + 3 := ⟨fuel - 3, by omega⟩
    exact self_referential_record E k type p s size tem name hwf hcode hsize hfields hname hp
      hpcode hptarget h0 hp0 hshort

theorem self_reference_terminates_witness :
    closed example_env {10, 11} ∧
    (∀ v ∈ ({10, 11} : Finset tree), (example_env.node v).sound = true) ∧
    (10 : tree) ∈ ({10, 11} : Finset tree) ∧ well_formed at_symbol ∧
    ({10, 11} : Finset tree).card < 3 ∧
    ((∃ s', dbxout_type example_env 3 10 true at_symbol = outcome.done s') ∧
    (∀ s0 : State, s0.next_type_number ≠ 0 →
      dbxout_type example_env 3 10 true s0 ≠ outcome.nofuel) ∧
    (∀ (s0 : State) (full0 : Bool), defined_in s0 10 →
      dbxout_type example_env 3 10 full0 s0 =
        outcome.done (CHARS 3 (fprintf (Nat.repr (s0.TYPE_SYMTAB_ADDRESS 10)) s0))) ∧
    (∀ (p : tree) (size : Int) (tem : field_decl) (name : String),
      (example_env.node 10).TREE_CODE = tree_code.RECORD_TYPE →
      (example_env.node 10).TYPE_SIZE = some size →
      (example_env.node 10).TYPE_FIELDS = [tem] →
      tem.DECL_NAME = some name → tem.TREE_TYPE = p →
      (example_env.node p).TREE_CODE = tree_code.POINTER_TYPE →
      (example_env.node p).TREE_TYPE = some 10 →
      at_symbol.TYPE_SYMTAB_ADDRESS 10 = 0 → at_symbol.TYPE_SYMTAB_ADDRESS p = 0 →
      at_symbol.current_sym_nchars + 15 ≤ 80 → 3 ≤ 3 →
      ∃ s' : State, dbxout_type example_env 3 10 true at_symbol = outcome.done s' ∧
        s'.asmfile = at_symbol.asmfile ++ Nat.repr at_symbol.next_type_number ++ "=" ++ "s"
          ++ fmt_d size ++ name ++ ":" ++ Nat.repr (at_symbol.next_type_number + 1) ++ "="
          ++ "*" ++ Nat.repr at_symbol.next_type_number ++ "," ++ fmt_d tem.DECL_OFFSET ++ ","
          ++ fmt_d (tem.DECL_SIZE * tem.DECL_SIZE_UNIT) ++ ";" ++ ";" ∧
        s'.TYPE_SYMTAB_ADDRESS 10 = at_symbol.next_type_number ∧
        s'.TYPE_SYMTAB_ADDRESS p = at_symbol.next_type_number + 1)) ∧
    ((dbxout_type example_env 3 10 true at_symbol).state_or zero_state).asmfile =
      at_symbol.asmfile ++ "3=s4next:4=*3,0,32;;" :=
  ⟨by decide, by decide, by decide, well_formed_at_symbol, by decide,
    self_reference_terminates example_env {10, 11} (by decide) (by decide) 3 10 true at_symbol
      (by decide) well_formed_at_symbol (by decide),
    by rfl⟩

/-! ## Declarations that get no record (C12) -/

/-- With `local` zero, `dbxout_symbol` is `dbxout_tags (gettags ())` and
`dbxout_types (get_permanent_types ())` followed by what it does with `local`
nonzero. -/
theorem dbxout_symbol_global (E : Env) (fuel : Nat) (gettags : List tag_link)
    (get_permanent_types : List tree) (decl : decl) (s : State) :
    dbxout_symbol E fuel gettags get_permanent_types decl false s =
      ((dbxout_tags E fuel gettags s).bind fun s =>
        dbxout_types E fuel get_permanent_types s).bind fun s =>
        dbxout_symbol E fuel gettags get_permanent_types decl true s := by
  unfold dbxout_symbol
  simp only [Bool.false_eq_true, if_false, if_true]
  rfl

/-- A declaration that `dbxout_symbol` leaves out, with `local` nonzero. -/
theorem dbxout_symbol_skipped (E : Env) (fuel : Nat) (gettags : List tag_link)
    (get_permanent_types : List tree) (decl : decl) (s : State)
    (h : (decl.TREE_EXTERNAL = true ∧
        (decl.TREE_CODE = decl_code.FUNCTION_DECL ∨ decl.TREE_CODE = decl_code.VAR_DECL)) ∨
      (decl.TREE_CODE = decl_code.VAR_DECL ∧ decl.DECL_RTL = rtx.REG (-1))) :
    dbxout_symbol E fuel gettags get_permanent_types decl true s =
      outcome.done (symbol_start decl s) := by
  unfold dbxout_symbol
  simp only [if_true, outcome.bind]
  rcases h with ⟨he, hc | hc⟩ | ⟨hc, hr⟩
  · simp only [hc, he, if_true]; rfl
  · simp only [hc, he, if_true]; rfl
  · simp only [hc, hr, if_true]
    split <;> rfl

/-- C12, as the claim states it, fails: `extern int x;` written at file level
(`local` = 0) while the tag of `struct pair` is pending.  The call writes the
record of the tag. -/
theorem external_symbol_writes_pending_tag :
    extern_x.TREE_CODE = decl_code.VAR_DECL ∧ extern_x.TREE_EXTERNAL = true ∧
    ∃ s', dbxout_symbol example_env 3 [⟨some "pair", 12⟩] [] extern_x false after_init =
        outcome.done s' ∧
      s'.asmfile = after_init.asmfile ++
        ".stabs \"pair:T3=s8a:1,0,32;b:1,32,32;;\",128,0,0,0\n" :=
  ⟨rfl, rfl, _, rfl, rfl⟩

/-- C12, amended: for an external function or variable, or a variable whose
register is number -1, `dbxout_symbol` with `local` nonzero ends normally and
writes nothing: only the variables of the current symbol change.  With `local`
zero it does the same after `dbxout_tags (gettags ())` and
`dbxout_types (get_permanent_types ())`, so the text it writes is the text these
two write, and nothing when both lists are empty. -/
theorem skipped_declaration_writes_no_record (E : Env) (fuel : Nat) (gettags : List tag_link)
    (get_permanent_types : List tree) (decl : decl) (s : State)
    (h : (decl.TREE_EXTERNAL = true ∧
        (decl.TREE_CODE = decl_code.FUNCTION_DECL ∨ decl.TREE_CODE = decl_code.VAR_DECL)) ∨
      (decl.TREE_CODE = decl_code.VAR_DECL ∧ decl.DECL_RTL = rtx.REG (-1))) :
    (∃ s', dbxout_symbol E fuel gettags get_permanent_types decl true s = outcome.done s' ∧
      s'.asmfile = s.asmfile ∧ s'.TYPE_SYMTAB_ADDRESS = s.TYPE_SYMTAB_ADDRESS ∧
      s'.typevec = s.typevec ∧ s'.next_type_number = s.next_type_number) ∧
    dbxout_symbol E fuel gettags get_permanent_types decl false s =
      (((dbxout_tags E fuel gettags s).bind fun s =>
        dbxout_types E fuel get_permanent_types s).bind fun s0 =>
        outcome.done (symbol_start decl s0)) ∧
    (∀ s0, ((dbxout_tags E fuel gettags s).bind fun s =>
        dbxout_types E fuel get_permanent_types s) = outcome.done s0 →
      ∃ s', dbxout_symbol E fuel gettags get_permanent_types decl false s = outcome.done s' ∧
        s'.asmfile = s0.asmfile ∧ s'.TYPE_SYMTAB_ADDRESS = s0.TYPE_SYMTAB_ADDRESS ∧
        s'.typevec = s0.typevec ∧ s'.next_type_number = s0.next_type_number) ∧
    (∃ s', dbxout_symbol E fuel [] [] decl false s = outcome.done s' ∧
      s'.asmfile = s.asmfile ∧ s'.TYPE_SYMTAB_ADDRESS = s.TYPE_SYMTAB_ADDRESS ∧
      s'.typevec = s.typevec ∧ s'.next_type_number = s.next_type_number) := by
  have hg : ∀ tags types, dbxout_symbol E fuel tags types decl false s =
      (((dbxout_tags E fuel tags s).bind fun s => dbxout_types E fuel types s).bind fun s0 =>
        outcome.done (symbol_start decl s0)) := by
    intro tags types
    rw [dbxout_symbol_global]
    congr 1
    funext s0
    exact dbxout_symbol_skipped E fuel tags types decl s0 h
  refine ⟨⟨_, dbxout_symbol_skipped E fuel _ _ decl s h, rfl, rfl, rfl, rfl⟩, hg _ _, ?_,
    ⟨_, hg [] [], rfl, rfl, rfl, rfl⟩⟩
  intro s0 h0
  refine ⟨symbol_start decl s0, ?_, rfl, rfl, rfl, rfl⟩
  rw [hg, h0]
  rfl

theorem skipped_declaration_writes_no_record_witness :
    ((extern_x.TREE_EXTERNAL = true ∧
        (extern_x.TREE_CODE = decl_code.FUNCTION_DECL ∨
          extern_x.TREE_CODE = decl_code.VAR_DECL)) ∨
      (extern_x.TREE_CODE = decl_code.VAR_DECL ∧ extern_x.DECL_RTL = rtx.REG (-1))) ∧
    ∃ s', dbxout_symbol example_env 3 [] [] extern_x true after_init = outcome.done s' ∧
      s'.asmfile = after_init.asmfile ∧
      s'.TYPE_SYMTAB_ADDRESS = after_init.TYPE_SYMTAB_ADDRESS ∧
      s'.typevec = after_init.typevec ∧ s'.next_type_number = after_init.next_type_number :=
  ⟨Or.inl ⟨rfl, Or.inr rfl⟩,
    (skipped_declaration_writes_no_record example_env 3 [] [] extern_x after_init
      (Or.inl ⟨rfl, Or.inr rfl⟩)).1⟩

/-! ## Termination of the tag and type lists -/

/-- With fuel above the number of nodes, `dbxout_type_def` does not run out of
fuel, and ends normally on good inputs, for a type whose name is a `TYPE_DECL`. -/
theorem dbxout_type_def_fine (G : Prop) (E : Env) (dom : Finset tree) (hclosed : closed E dom)
    (hsound : G → ∀ v ∈ dom, (E.node v).sound = true) (fuel : Nat) (type : tree) (s : State)
    (name : String) (hname : (E.node type).TYPE_NAME = some (name_node.TYPE_DECL name))
    (htype : type ∈ dom) (hnext : s.next_type_number ≠ 0) (hwf : G → well_formed s)
    (hfuel : dom.card < fuel) : (dbxout_type_def E fuel type s).fine G := by
  unfold dbxout_type_def
  simp only [hname]
  refine fine_bind ?_ fun s1 _ => fine_done G _
  refine dbxout_type_with_fine G (later_CONTIN E) E dom hclosed hsound fuel type true _ htype
    hnext (fun g => ?_)
    (lt_of_le_of_lt (Finset.card_le_card (Finset.filter_subset _ _)) hfuel)
  exact (Later.trans (later_sym _ _ _ _ s) (later_fprintf _ _)).wf (hwf g)

/-- With fuel above the number of nodes, `dbxout_types` does not run out of fuel,
and ends normally on good inputs. -/
theorem dbxout_types_fine (G : Prop) (E : Env) (dom : Finset tree) (hclosed : closed E dom)
    (hsound : G → ∀ v ∈ dom, (E.node v).sound = true) (fuel : Nat) (hfuel : dom.card < fuel)
    (types : List tree) :
    ∀ s : State, (∀ t ∈ types, t ∈ dom) → s.next_type_number ≠ 0 → (G → well_formed s) →
      (dbxout_types E fuel types s).fine G := by
  induction types with
  | nil => intro s _ _ _; exact fine_done G s
  | cons t chain ih =>
    intro s hin hnext hwf
    unfold dbxout_types
    split
    · next name hname =>
      refine fine_bind (dbxout_type_def_fine G E dom hclosed hsound fuel t s name hname
        (hin t (List.mem_cons_self _ _)) hnext hwf hfuel) ?_
      intro s1 e1
      have hl := ends_in_done (dbxout_type_def_later E fuel t s) e1
      exact ih s1 (fun u hu => hin u (List.mem_cons_of_mem _ hu))
        (fun e => hnext (Nat.le_zero.mp (e ▸ hl.next_le))) fun g => hl.wf (hwf g)
    · exact ih s (fun u hu => hin u (List.mem_cons_of_mem _ hu)) hnext hwf

/-- With fuel above the number of nodes, `dbxout_tags` does not run out of fuel,
and ends normally on good inputs. -/
theorem dbxout_tags_fine (G : Prop) (E : Env) (dom : Finset tree) (hclosed : closed E dom)
    (hsound : G → ∀ v ∈ dom, (E.node v).sound = true) (fuel : Nat) (hfuel : dom.card < fuel)
    (tags : List tag_link) :
    ∀ s : State, (∀ link ∈ tags, link.TREE_VALUE ∈ dom) → s.next_type_number ≠ 0 →
      (G → well_formed s) → (dbxout_tags E fuel tags s).fine G := by
  induction tags with
  | nil => intro s _ _ _; exact fine_done G s
  | cons link chain ih =>
    intro s hin hnext hwf
    have hin' : ∀ l ∈ chain, l.TREE_VALUE ∈ dom := fun l hl => hin l (List.mem_cons_of_mem _ hl)
    unfold dbxout_tags
    simp only []
    split
    · exact ih s hin' hnext hwf
    · next name _ =>
      split
      · next hnone =>
        refine ⟨fun h => (by cases h), fun g => ?_⟩
        exfalso
        obtain ⟨st, hst⟩ := well_formed_index (hwf g) link.TREE_VALUE
        unfold tag_not_defined at hnone
        split at hnone
        · cases hnone
        · rw [hst] at hnone; cases hnone
      · exact ih s hin' hnext hwf
      · split
        · exact ih s hin' hnext hwf
        · have h0 : Later s (fprintf (".stabs \"" ++ name ++ ":T")
              { s with current_sym_code := E.N_LSYM, current_sym_value := 0,
                       current_sym_addr := none,
                       current_sym_nchars := 2 + name.length }) :=
            Later.trans (later_sym _ _ _ _ s) (later_fprintf _ _)
          refine fine_bind (dbxout_type_with_fine G (later_CONTIN E) E dom hclosed hsound fuel
            link.TREE_VALUE true _ (hin link (List.mem_cons_self _ _)) hnext
            (fun g => h0.wf (hwf g))
            (lt_of_le_of_lt (Finset.card_le_card (Finset.filter_subset _ _)) hfuel)) ?_
          intro s1 e1
          have hl : Later s s1 := h0.trans (ends_in_done (dbxout_type_later E fuel _ true _) e1)
          have hl2 : Later s (set_typevec ((dbxout_finish_symbol E s1).TYPE_SYMTAB_ADDRESS
              link.TREE_VALUE) typestatus.TYPE_DEFINED (dbxout_finish_symbol E s1)) :=
            (hl.trans (later_finish E s1)).trans (later_mark _ _)
          exact ih _ hin' (fun e => hnext (Nat.le_zero.mp (e ▸ hl2.next_le)))
            fun g => hl2.wf (hwf g)

/-- With fuel above the number of nodes, the tags and types `dbxout_symbol`
writes first when `local` is zero do not run out of fuel, and end normally on
good inputs. -/
theorem flush_fine (G : Prop) (E : Env) (dom : Finset tree) (hclosed : closed E dom)
    (hsound : G → ∀ v ∈ dom, (E.node v).sound = true) (fuel : Nat) (hfuel : dom.card < fuel)
    (gettags : List tag_link) (get_permanent_types : List tree) (s : State)
    (htags : ∀ link ∈ gettags, link.TREE_VALUE ∈ dom)
    (htypes : ∀ t ∈ get_permanent_types, t ∈ dom)
    (hnext : s.next_type_number ≠ 0) (hwf : G → well_formed s) :
    ((dbxout_tags E fuel gettags s).bind fun s =>
      dbxout_types E fuel get_permanent_types s).fine G := by
  refine fine_bind (dbxout_tags_fine G E dom hclosed hsound fuel hfuel gettags s htags hnext
    hwf) ?_
  intro s1 e1
  have hl := ends_in_done (dbxout_tags_later E fuel gettags s) e1
  exact dbxout_types_fine G E dom hclosed hsound fuel hfuel get_permanent_types s1 htypes
    (fun e => hnext (Nat.le_zero.mp (e ▸ hl.next_le))) fun g => hl.wf (hwf g)

/-! ## Parameter declarations (C14) -/

/-- C14: for a `PARM_DECL`, `dbxout_symbol` never ends normally.  With `local`
nonzero it ends in `abort ()` with nothing written.  With `local` zero it ends in
`abort ()` as soon as the tags and types written first end, normally or in
`abort ()`, and the text written is theirs: no record of the parameter.  With
fuel above the number of type nodes the call does not run out of fuel, and from
a well-formed registry with sound nodes it does end in `abort ()`. -/
theorem parameter_declaration_aborts (E : Env) (fuel : Nat) (gettags : List tag_link)
    (get_permanent_types : List tree) (decl : decl) (s : State)
    (h : decl.TREE_CODE = decl_code.PARM_DECL) :
    (∀ local_ s', dbxout_symbol E fuel gettags get_permanent_types decl local_ s ≠
      outcome.done s') ∧
    (∃ s', dbxout_symbol E fuel gettags get_permanent_types decl true s = outcome.aborted s' ∧
      s'.asmfile = s.asmfile) ∧
    (∀ s0, ((dbxout_tags E fuel gettags s).bind fun s =>
        dbxout_types E fuel get_permanent_types s) = outcome.done s0 →
      ∃ s', dbxout_symbol E fuel gettags get_permanent_types decl false s =
          outcome.aborted s' ∧ s'.asmfile = s0.asmfile) ∧
    (∀ s0, ((dbxout_tags E fuel gettags s).bind fun s =>
        dbxout_types E fuel get_permanent_types s) = outcome.aborted s0 →
      dbxout_symbol E fuel gettags get_permanent_types decl false s = outcome.aborted s0) ∧
    (∀ dom : Finset tree, closed E dom → (∀ link ∈ gettags, link.TREE_VALUE ∈ dom) →
      (∀ t ∈ get_permanent_types, t ∈ dom) → s.next_type_number ≠ 0 → dom.card < fuel →
      (∀ local_, dbxout_symbol E fuel gettags get_permanent_types decl local_ s ≠
        outcome.nofuel) ∧
      ((∀ v ∈ dom, (E.node v).sound = true) → well_formed s →
        ∀ local_, ∃ s', dbxout_symbol E fuel gettags get_permanent_types decl local_ s =
          outcome.aborted s')) := by
  have hl : ∀ s0, dbxout_symbol E fuel gettags get_permanent_types decl true s0 =
      outcome.aborted (symbol_start decl s0) := by
    intro s0
    unfold dbxout_symbol
    simp only [if_true, outcome.bind, h]
    rfl
  have hg := dbxout_symbol_global E fuel gettags get_permanent_types decl s
  refine ⟨?_, ⟨_, hl s, rfl⟩, ?_, ?_, ?_⟩
  · intro local_ s' e
    cases local_
    · rw [hg] at e
      obtain ⟨s1, _, e1⟩ := bind_done e
      rw [hl] at e1
      cases e1
    · rw [hl] at e
      cases e
  · intro s0 h0
    refine ⟨symbol_start decl s0, ?_, rfl⟩
    rw [hg, h0]
    exact hl s0
  · intro s0 h0
    rw [hg, h0]
    rfl
  · intro dom hclosed htags htypes hnext hfuel
    refine ⟨?_, ?_⟩
    · intro local_
      cases local_
      · have hf := flush_fine False E dom hclosed (fun g => g.elim) fuel hfuel gettags
          get_permanent_types s htags htypes hnext (fun g => g.elim)
        rw [hg]
        intro e
        cases hflush : ((dbxout_tags E fuel gettags s).bind fun s =>
            dbxout_types E fuel get_permanent_types s) with
        | done s0 => rw [hflush] at e; simp only [outcome.bind, hl] at e; cases e
        | aborted s0 => rw [hflush] at e; cases e
        | wild => rw [hflush] at e; cases e
        | nofuel => exact hf.1 hflush
      · rw [hl]; intro e; cases e
    · intro hsound hwf local_
      cases local_
      · obtain ⟨s0, h0⟩ := (flush_fine True E dom hclosed (fun _ => hsound) fuel hfuel gettags
          get_permanent_types s htags htypes hnext (fun _ => hwf)).2 trivial
        refine ⟨symbol_start decl s0, ?_⟩
        rw [hg, h0]
        exact hl s0
      · exact ⟨_, hl s⟩

theorem parameter_declaration_aborts_witness :
    parm_n.TREE_CODE = decl_code.PARM_DECL ∧
    ∃ s', dbxout_symbol example_env 3 [] [] parm_n true after_init = outcome.aborted s' ∧
      s'.asmfile = after_init.asmfile :=
  ⟨rfl, (parameter_declaration_aborts example_env 3 [] [] parm_n after_init rfl).2.1⟩

/-! ## The character count after a record (C17) -/

/-- C17, as the claim states it, fails: `dbxout_finish_symbol` leaves the
character count as it is, and the state `dbxout_init` ends in, just after the
record of `char` has been finished, has a count that is not zero. -/
theorem count_not_zero_after_record :
    (dbxout_finish_symbol example_env at_symbol).current_sym_nchars = 3 ∧
    ∃ s', dbxout_init example_env 1 [] zero_state = outcome.done s' ∧
      s'.current_sym_nchars = 35 :=
  ⟨rfl, _, rfl, rfl⟩

/-- C17, amended: `dbxout_finish_symbol` does not change `current_sym_nchars`.
The count is zero after the record `dbxout_continue` ends, and it is set at the
start of a record, not zeroed at its end: what `dbxout_type_def`, `dbxout_symbol`
(after its tags and types) and `dbxout_parms` do does not depend on the count
the record before has left. -/
theorem character_count_set_at_record_start (E : Env) (fuel : Nat) (s : State) (n : Nat) :
    (dbxout_finish_symbol E s).current_sym_nchars = s.current_sym_nchars ∧
    (dbxout_continue E s).current_sym_nchars = 0 ∧
    (∀ type, dbxout_type_def E fuel type { s with current_sym_nchars := n } =
      dbxout_type_def E fuel type s) ∧
    (∀ gettags get_permanent_types decl,
      dbxout_symbol E fuel gettags get_permanent_types decl true
          { s with current_sym_nchars := n } =
        dbxout_symbol E fuel gettags get_permanent_types decl true s) ∧
    (∀ parms chain, dbxout_parms E fuel (parms :: chain) { s with current_sym_nchars := n } =
      dbxout_parms E fuel (parms :: chain) s) := by
  refine ⟨?_, ?_, ?_, ?_, ?_⟩
  · rw [dbxout_finish_symbol_eq]; rfl
  · rw [dbxout_continue_eq]
  · intro type
    unfold dbxout_type_def
    rfl
  · intro gettags get_permanent_types decl
    unfold dbxout_symbol
    rfl
  · intro parms chain
    unfold dbxout_parms
    cases E.BYTES_BIG_ENDIAN <;> rfl

/-! ## The status vector is long enough (C18) -/

/-- What `assign_type_number` does to the status vector: nothing, or, when the
new value of `next_type_number` reaches `typevec_len`, it doubles the length and
fills the new half with `TYPE_UNSEEN`. -/
theorem assign_typevec (type : tree) (s : State) :
    ((assign_type_number type s).typevec_len = s.typevec_len ∧
      (assign_type_number type s).typevec = s.typevec ∧
      ¬ (s.TYPE_SYMTAB_ADDRESS type = 0 ∧ s.next_type_number + 1 = s.typevec_len)) ∨
    ((assign_type_number type s).typevec_len = s.typevec_len * 2 ∧
      (assign_type_number type s).typevec =
        s.typevec ++ List.replicate s.typevec_len typestatus.TYPE_UNSEEN ∧
      s.TYPE_SYMTAB_ADDRESS type = 0 ∧ s.next_type_number + 1 = s.typevec_len) := by
  unfold assign_type_number
  by_cases h0 : s.TYPE_SYMTAB_ADDRESS type = 0
  · rw [if_pos h0]
    simp only []
    by_cases h1 : s.next_type_number + 1 = s.typevec_len
    · rw [if_pos h1]
      exact Or.inr ⟨rfl, rfl, h0, h1⟩
    · rw [if_neg h1]
      exact Or.inl ⟨rfl, rfl, fun h => h1 h.2⟩
  · rw [if_neg h0]
    exact Or.inl ⟨rfl, rfl, fun h => h0 h.1⟩

/-- The invariant of the status vector is kept by `assign_type_number`. -/
theorem typevec_ok_assign_any (type : tree) {s : State} (htv : typevec_ok s) :
    typevec_ok (assign_type_number type s) := by
  by_cases h0 : s.TYPE_SYMTAB_ADDRESS type = 0
  · exact typevec_ok_assign htv h0
  · rw [assign_of_ne_zero h0]; exact htv

/-- C18: in every state reachable from `dbxout_init`, `next_type_number` is below
`typevec_len`, which is the length of `typevec`, and the number of every node is
inside `typevec`.  This is still so after `dbxout_type` has given its argument a
number, so the status it then reads and the statuses it writes at that number
are inside the vector.  The vector grows exactly when a node gets the number
`typevec_len - 1`; then `typevec_len` doubles, the entries there were are kept,
and every new entry is `TYPE_UNSEEN`. -/
theorem type_numbers_inside_typevec (s : State) (h : reachable s) :
    s.next_type_number < s.typevec_len ∧ s.typevec.length = s.typevec_len ∧
    (∀ v, s.TYPE_SYMTAB_ADDRESS v < s.typevec.length) ∧
    ∀ type,
      (assign_type_number type s).next_type_number < (assign_type_number type s).typevec_len ∧
      (assign_type_number type s).typevec.length = (assign_type_number type s).typevec_len ∧
      (assign_type_number type s).TYPE_SYMTAB_ADDRESS type <
        (assign_type_number type s).typevec.length ∧
      (∃ st, (assign_type_number type s).typevec[
        (assign_type_number type s).TYPE_SYMTAB_ADDRESS type]? = some st) ∧
      ((assign_type_number type s).typevec_len ≠ s.typevec_len ↔
        (s.TYPE_SYMTAB_ADDRESS type = 0 ∧ s.next_type_number + 1 = s.typevec_len)) ∧
      ((assign_type_number type s).typevec_len ≠ s.typevec_len →
        (assign_type_number type s).typevec_len = 2 * s.typevec_len ∧
        (assign_type_number type s).typevec.length = 2 * s.typevec.length ∧
        (∀ i, i < s.typevec_len → (assign_type_number type s).typevec[i]? = s.typevec[i]?) ∧
        ∀ i, s.typevec_len ≤ i → i < (assign_type_number type s).typevec_len →
          (assign_type_number type s).typevec[i]? = some typestatus.TYPE_UNSEEN) := by
  have hwf := reachable_well_formed h
  have hlen := hwf.2.len
  have hroom := hwf.2.room
  refine ⟨hroom, hlen, fun v => by have := hwf.1.below v; omega, ?_⟩
  intro type
  have hwf1 : well_formed (assign_type_number type s) := (later_assign type s).wf hwf
  have hidx : (assign_type_number type s).TYPE_SYMTAB_ADDRESS type <
      (assign_type_number type s).typevec.length := by
    have := hwf1.1.below type
    have := hwf1.2.room
    have := hwf1.2.len
    omega
  refine ⟨hwf1.2.room, hwf1.2.len, hidx, well_formed_index hwf1 type, ?_, ?_⟩
  · rcases assign_typevec type s with ⟨a, _, c⟩ | ⟨a, _, c, d⟩
    · exact ⟨fun hne => absurd a hne, fun hc => absurd hc c⟩
    · refine ⟨fun _ => ⟨c, d⟩, fun _ => ?_⟩
      rw [a]; omega
  · intro hne
    rcases assign_typevec type s with ⟨a, _, _⟩ | ⟨a, b, _, _⟩
    · exact absurd a hne
    · refine ⟨by rw [a]; omega, ?_, ?_, ?_⟩
      · rw [b, List.length_append, List.length_replicate, hlen]; omega
      · intro i hi
        rw [b, List.getElem?_append_left (by rw [hlen]; exact hi)]
      · intro i hi hi'
        rw [b, List.getElem?_append_right (by rw [hlen]; exact hi), List.getElem?_replicate]
        rw [a] at hi'
        rw [if_pos (by rw [hlen]; omega)]

theorem type_numbers_inside_typevec_witness :
    reachable after_init ∧ after_init.next_type_number < after_init.typevec_len ∧
    after_init.typevec.length = after_init.typevec_len :=
  ⟨reachable_after_init,
    (type_numbers_inside_typevec after_init reachable_after_init).1,
    (type_numbers_inside_typevec after_init reachable_after_init).2.1⟩

/-! ## The records of symbols -/

theorem record_end_congr (E : Env) {s s' : State}
    (h1 : s'.current_sym_code = s.current_sym_code)
    (h2 : s'.current_sym_value = s.current_sym_value)
    (h3 : s'.current_sym_addr = s.current_sym_addr) :
    record_end E s' = record_end E s := by
  unfold record_end
  rw [h1, h2, h3]

/-- A record made of a start already written, of what `dbxout_type` writes, and of
the end `dbxout_finish_symbol` writes: the end is the one of the code, value and
address the record started with. -/
theorem symbol_record (E : Env) (fuel : Nat) (type : tree) (full : Bool) (start s' : State)
    (h : ((dbxout_type E fuel type full start).bind fun s =>
      outcome.done (dbxout_finish_symbol E s)) = outcome.done s') :
    ∃ s1 text, dbxout_type E fuel type full start = outcome.done s1 ∧
      s1.asmfile = start.asmfile ++ text ∧
      s'.asmfile = start.asmfile ++ text ++ record_end E start ∧
      s'.TYPE_SYMTAB_ADDRESS = s1.TYPE_SYMTAB_ADDRESS ∧ s'.typevec = s1.typevec ∧
      s'.next_type_number = s1.next_type_number := by
  obtain ⟨s1, h1, h2⟩ := bind_done h
  have hl := ends_in_done (dbxout_type_later E fuel type full start) h1
  have hs := ends_in_done (dbxout_type_with_same_symbol (same_symbol_CONTIN E) E fuel type full
    start) h1
  obtain ⟨text, htext⟩ := hl.written
  refine ⟨s1, text, h1, htext, ?_, ?_, ?_, ?_⟩
  · cases h2
    rw [dbxout_finish_symbol_asmfile, htext, record_end_congr E hs.1 hs.2.1 hs.2.2.1]
  all_goals
    cases h2
    rw [dbxout_finish_symbol_eq]
    rfl

@[simp] theorem symbol_vars_asmfile (decl : decl) (c v : Int) (a : Option rtx) (s : State) :
    (symbol_vars decl c v a s).asmfile = s.asmfile := rfl
@[simp] theorem symbol_vars_symtab (decl : decl) (c v : Int) (a : Option rtx) (s : State) :
    (symbol_vars decl c v a s).TYPE_SYMTAB_ADDRESS = s.TYPE_SYMTAB_ADDRESS := rfl
@[simp] theorem symbol_vars_typevec (decl : decl) (c v : Int) (a : Option rtx) (s : State) :
    (symbol_vars decl c v a s).typevec = s.typevec := rfl
@[simp] theorem symbol_vars_typevec_len (decl : decl) (c v : Int) (a : Option rtx)
    (s : State) : (symbol_vars decl c v a s).typevec_len = s.typevec_len := rfl
@[simp] theorem symbol_vars_next (decl : decl) (c v : Int) (a : Option rtx) (s : State) :
    (symbol_vars decl c v a s).next_type_number = s.next_type_number := rfl
@[simp] theorem symbol_vars_code (decl : decl) (c v : Int) (a : Option rtx) (s : State) :
    (symbol_vars decl c v a s).current_sym_code = c := rfl
@[simp] theorem symbol_vars_value (decl : decl) (c v : Int) (a : Option rtx) (s : State) :
    (symbol_vars decl c v a s).current_sym_value = v := rfl
@[simp] theorem symbol_vars_addr (decl : decl) (c v : Int) (a : Option rtx) (s : State) :
    (symbol_vars decl c v a s).current_sym_addr = a := rfl

/-! ## Typedef declarations (C13) -/

/-- The case `VAR_DECL` of `dbxout_symbol`, with `local` nonzero, for a variable
that is not external, not public, and whose `DECL_RTL` is a `MEM` of a
`SYMBOL_REF`. -/
theorem dbxout_symbol_static (E : Env) (fuel : Nat) (gettags : List tag_link)
    (get_permanent_types : List tree) (decl : decl) (s : State) (name : String)
    (hcode : decl.TREE_CODE = decl_code.VAR_DECL) (hext : decl.TREE_EXTERNAL = false)
    (hpub : decl.TREE_PUBLIC = false) (hrtl : decl.DECL_RTL = rtx.MEM (rtx.SYMBOL_REF name)) :
    dbxout_symbol E fuel gettags get_permanent_types decl true s =
      (dbxout_type E fuel decl.TREE_TYPE false
        (fprintf (if decl.TREE_PERMANENT then "S" else "v")
          (fprintf (".stabs \"" ++ decl.DECL_NAME ++ ":")
            (symbol_vars decl
              (if decl.DECL_INITIAL = false then E.N_LCSYM
               else if decl.TREE_READONLY = true ∧ decl.TREE_VOLATILE = false then E.N_FUN
               else E.N_STSYM)
              0 (some (rtx.SYMBOL_REF name)) s)))).bind fun s =>
        outcome.done (dbxout_finish_symbol E s) := by
  unfold dbxout_symbol
  simp only [if_true, outcome.bind, hcode, hext, hpub, hrtl, Bool.false_eq_true, if_false,
    reduceCtorEq]
  cases decl.DECL_INITIAL <;> cases decl.TREE_READONLY <;> cases decl.TREE_VOLATILE <;> rfl

/-- C15: the code at a failing input.  For the public variable `int g;`, in
static storage at the address symbol `g`, `dbxout_symbol` ends the record with
the literal 0; for the same declaration not public it ends it with the reference
`_g` to the address symbol. -/
theorem public_variable_value_is_zero :
    public_g.TREE_CODE = decl_code.VAR_DECL ∧ public_g.TREE_EXTERNAL = false ∧
    public_g.TREE_PUBLIC = true ∧ public_g.DECL_RTL = rtx.MEM (rtx.SYMBOL_REF "g") ∧
    example_env.output_addr_const (rtx.SYMBOL_REF "g") = "_g" ∧
    (∃ s', dbxout_symbol example_env 3 [] [] public_g false after_init = outcome.done s' ∧
      s'.asmfile = after_init.asmfile ++ ".stabs \"g:G1\",32,0,0,0\n") ∧
    (∃ s', dbxout_symbol example_env 3 [] [] public_g true after_init = outcome.done s' ∧
      s'.asmfile = after_init.asmfile ++ ".stabs \"g:G1\",32,0,0,0\n") ∧
    ∃ s', dbxout_symbol example_env 3 [] [] static_g false after_init = outcome.done s' ∧
      s'.asmfile = after_init.asmfile ++ ".stabs \"g:S1\",40,0,0,_g\n" :=
  ⟨rfl, rfl, rfl, rfl, rfl, ⟨_, rfl, rfl⟩, ⟨_, rfl, rfl⟩, _, rfl, rfl⟩

/-- C16, as the claim states it, fails: `static const volatile int k = 1;` has an
initial value and is read-only, and its record has the code `N_STSYM` (38), not
`N_FUN` (36). -/
theorem read_only_volatile_is_not_function_style :
    const_volatile_k.TREE_CODE = decl_code.VAR_DECL ∧
    const_volatile_k.TREE_EXTERNAL = false ∧ const_volatile_k.TREE_PUBLIC = false ∧
    const_volatile_k.DECL_RTL = rtx.MEM (rtx.SYMBOL_REF "k") ∧
    const_volatile_k.DECL_INITIAL = true ∧ const_volatile_k.TREE_READONLY = true ∧
    example_env.N_FUN = 36 ∧ example_env.N_STSYM = 38 ∧
    ∃ s', dbxout_symbol example_env 3 [] [] const_volatile_k true after_init =
        outcome.done s' ∧
      s'.asmfile = after_init.asmfile ++ ".stabs \"k:S1\",38,0,0,_k\n" :=
  ⟨rfl, rfl, rfl, rfl, rfl, rfl, rfl, rfl, _, rfl, rfl⟩

/-- C16, amended: for a variable that is not external, not public, and in static
storage, the record `dbxout_symbol` writes has the letter `S` when the
declaration is permanent and `v` otherwise, and the code `N_LCSYM` when there is
no initial value, `N_FUN` when there is one and the variable is read-only and
not volatile, `N_STSYM` when there is one and the variable is not read-only or
is volatile; it ends with the reference to the address symbol.  When the type is
already defined the call ends normally and the type is written as its number. -/
theorem static_variable_letter_and_code (E : Env) (fuel : Nat) (gettags : List tag_link)
    (get_permanent_types : List tree) (decl : decl) (s : State) (name : String)
    (hcode : decl.TREE_CODE = decl_code.VAR_DECL) (hext : decl.TREE_EXTERNAL = false)
    (hpub : decl.TREE_PUBLIC = false) (hrtl : decl.DECL_RTL = rtx.MEM (rtx.SYMBOL_REF name)) :
    ∃ (letter : String) (code : Int),
      (decl.TREE_PERMANENT = true → letter = "S") ∧
      (decl.TREE_PERMANENT = false → letter = "v") ∧
      (decl.DECL_INITIAL = false → code = E.N_LCSYM) ∧
      (decl.DECL_INITIAL = true → decl.TREE_READONLY = true → decl.TREE_VOLATILE = false →
        code = E.N_FUN) ∧
      (decl.DECL_INITIAL = true → decl.TREE_READONLY = false ∨ decl.TREE_VOLATILE = true →
        code = E.N_STSYM) ∧
      (∀ s', dbxout_symbol E fuel gettags get_permanent_types decl true s = outcome.done s' →
        ∃ text, s'.asmfile = s.asmfile ++ ".stabs \"" ++ decl.DECL_NAME ++ ":" ++ letter
          ++ text ++ "\"," ++ fmt_d code ++ ",0,0,"
          ++ E.output_addr_const (rtx.SYMBOL_REF name) ++ "\n") ∧
      (0 < fuel → defined_in s decl.TREE_TYPE →
        ∃ s', dbxout_symbol E fuel gettags get_permanent_types decl true s = outcome.done s' ∧
          s'.asmfile = s.asmfile ++ ".stabs \"" ++ decl.DECL_NAME ++ ":" ++ letter
            ++ Nat.repr (s.TYPE_SYMTAB_ADDRESS decl.TREE_TYPE) ++ "\"," ++ fmt_d code
            ++ ",0,0," ++ E.output_addr_const (rtx.SYMBOL_REF name) ++ "\n") := by
  have heq := dbxout_symbol_static E fuel gettags get_permanent_types decl s name hcode hext
    hpub hrtl
  have hend : ∀ (s1 : State) (c : Int), s1.current_sym_code = c →
      s1.current_sym_addr = some (rtx.SYMBOL_REF name) →
      record_end E s1 = "\"," ++ fmt_d c ++ ",0,0,"
        ++ E.output_addr_const (rtx.SYMBOL_REF name) ++ "\n" := by
    intro s1 c h1 h3
    unfold record_end
    rw [h1, h3]
  refine ⟨if decl.TREE_PERMANENT then "S" else "v",
    if decl.DECL_INITIAL = false then E.N_LCSYM
    else if decl.TREE_READONLY = true ∧ decl.TREE_VOLATILE = false then E.N_FUN
    else E.N_STSYM, ?_, ?_, ?_, ?_, ?_, ?_, ?_⟩
  · intro h; rw [h]; rfl
  · intro h; rw [h]; rfl
  · intro h; rw [if_pos h]
  · intro h1 h2 h3
    rw [if_neg (by rw [h1]; decide), if_pos ⟨h2, h3⟩]
  · intro h1 h2
    rw [if_neg (by rw [h1]; decide), if_neg]
    rintro ⟨h3, h4⟩
    rcases h2 with h2 | h2
    · rw [h3] at h2; cases h2
    · rw [h4] at h2; cases h2
  · intro s' h
    rw [heq] at h
    obtain ⟨s1, text, _, _, hb, _⟩ := symbol_record E fuel _ false _ s' h
    refine ⟨text, ?_⟩
    rw [hb, hend _ _ rfl rfl]
    simp only [fprintf_asmfile, symbol_vars_asmfile, fprintf_code, symbol_vars_code,
      String.append_assoc]
  · intro hfuel hdef
    obtain ⟨k, rfl⟩ : ∃ k, fuel = k + 1 := ⟨fuel - 1, by omega⟩
    have h1 := dbxout_type_with_defined (CONTIN E) E k decl.TREE_TYPE false
      (fprintf (if decl.TREE_PERMANENT then "S" else "v")
        (fprintf (".stabs \"" ++ decl.DECL_NAME ++ ":")
          (symbol_vars decl
            (if decl.DECL_INITIAL = false then E.N_LCSYM
             else if decl.TREE_READONLY = true ∧ decl.TREE_VOLATILE = false then E.N_FUN
             else E.N_STSYM)
            0 (some (rtx.SYMBOL_REF name)) s))) hdef
    refine ⟨_, by rw [heq]; unfold dbxout_type; rw [h1]; rfl, ?_⟩
    rw [dbxout_finish_symbol_asmfile, hend _ _ rfl rfl]
    simp only [fprintf_asmfile, CHARS_asmfile, fprintf_symtab, symbol_vars_asmfile,
      symbol_vars_symtab, fprintf_code, CHARS_code, symbol_vars_code, String.append_assoc]

theorem static_variable_letter_and_code_witness :
    const_volatile_k.TREE_CODE = decl_code.VAR_DECL ∧
    const_volatile_k.TREE_EXTERNAL = false ∧ const_volatile_k.TREE_PUBLIC = false ∧
    const_volatile_k.DECL_RTL = rtx.MEM (rtx.SYMBOL_REF "k") ∧
    ∃ (letter : String) (code : Int),
      (const_volatile_k.TREE_PERMANENT = true → letter = "S") ∧
      (const_volatile_k.TREE_PERMANENT = false → letter = "v") ∧
      (const_volatile_k.DECL_INITIAL = false → code = example_env.N_LCSYM) ∧
      (const_volatile_k.DECL_INITIAL = true → const_volatile_k.TREE_READONLY = true →
        const_volatile_k.TREE_VOLATILE = false → code = example_env.N_FUN) ∧
      (const_volatile_k.DECL_INITIAL = true →
        const_volatile_k.TREE_READONLY = false ∨ const_volatile_k.TREE_VOLATILE = true →
        code = example_env.N_STSYM) ∧
      (∀ s', dbxout_symbol example_env 3 [] [] const_volatile_k true after_init =
          outcome.done s' →
        ∃ text, s'.asmfile = after_init.asmfile ++ ".stabs \"" ++ const_volatile_k.DECL_NAME
          ++ ":" ++ letter ++ text ++ "\"," ++ fmt_d code ++ ",0,0,"
          ++ example_env.output_addr_const (rtx.SYMBOL_REF "k") ++ "\n") ∧
      (0 < 3 → defined_in after_init const_volatile_k.TREE_TYPE →
        ∃ s', dbxout_symbol example_env 3 [] [] const_volatile_k true after_init =
            outcome.done s' ∧
          s'.asmfile = after_init.asmfile ++ ".stabs \"" ++ const_volatile_k.DECL_NAME ++ ":"
            ++ letter ++ Nat.repr (after_init.TYPE_SYMTAB_ADDRESS const_volatile_k.TREE_TYPE)
            ++ "\"," ++ fmt_d code ++ ",0,0,"
            ++ example_env.output_addr_const (rtx.SYMBOL_REF "k") ++ "\n") :=
  ⟨rfl, rfl, rfl, rfl,
    static_variable_letter_and_code example_env 3 [] [] const_volatile_k after_init "k"
      rfl rfl rfl rfl⟩

/-! ## Nameless fields (C19) -/

/-- The loop over the fields does the same on a field list and on its named
fields. -/
theorem dbxout_fields_named (contin : State → State) (ref : tree → State → outcome)
    (fields : List field_decl) :
    ∀ s, dbxout_fields contin ref (fields.filter fun tem => tem.DECL_NAME.isSome) s =
      dbxout_fields contin ref fields s := by
  induction fields with
  | nil => intro s; rfl
  | cons tem chain ih =>
    intro s
    cases h : tem.DECL_NAME with
    | none =>
      rw [List.filter_cons_of_neg (by simp [h])]
      conv_rhs => unfold dbxout_fields
      simp only [h]
      exact ih s
    | some name =>
      rw [List.filter_cons_of_pos (by simp [h])]
      unfold dbxout_fields
      simp only [h]
      congr 1
      funext s1
      exact ih _

/-- The description of a type is the same when the nameless fields of a node are
taken out. -/
theorem definition_without_nameless (contin : State → State) (E : Env) (type : tree)
    (ref : tree → State → outcome) (t : tree) (full : Bool) (s : State) :
    dbxout_type_definition contin (without_nameless_fields E type) ref t full s =
      dbxout_type_definition contin E ref t full s := by
  by_cases ht : t = type
  · subst ht
    unfold dbxout_type_definition dbxout_type_name
    simp only [without_nameless_fields, Function.update_same, dbxout_fields_named]
  · unfold dbxout_type_definition dbxout_type_name
    simp only [without_nameless_fields, Function.update_noteq ht]

/-- With the nameless fields of a node taken out, `dbxout_type` does the same. -/
theorem dbxout_type_with_without_nameless (contin : State → State) (E : Env) (type : tree) :
    ∀ (fuel : Nat) (t : tree) (full : Bool) (s : State),
      dbxout_type_with contin (without_nameless_fields E type) fuel t full s =
        dbxout_type_with contin E fuel t full s := by
  intro fuel
  induction fuel with
  | zero => intro t full s; rfl
  | succ fuel ih =>
    intro t full s
    have e : (fun t s => dbxout_type_with contin (without_nameless_fields E type) fuel t false s)
        = fun t s => dbxout_type_with contin E fuel t false s := by
      funext t s; exact ih t false s
    unfold dbxout_type_with
    simp only [e, definition_without_nameless]

/-- A relation `R` that every step of `dbxout_type` keeps, when the step that
numbers a node keeps it for the nodes of a set `D` closed under the references
`dbxout_type` follows, holds between the start and the end of a call on a node
of `D`. -/
theorem dbxout_type_with_preserves_on (R : State → State → Prop) (D : tree → Prop)
    (hrefl : ∀ s, R s s) (htrans : ∀ a b c, R a b → R b c → R a c)
    (hf : ∀ t s, R s (fprintf t s)) (hC : ∀ n s, R s (CHARS n s))
    (hset : ∀ n v s, R s (set_typevec n v s))
    (ha : ∀ t s, D t → R s (assign_type_number t s))
    {contin : State → State} (hc : ∀ s, R s (contin s)) (E : Env)
    (hD : ∀ t, D t → ∀ w ∈ (E.node t).children, D w) :
    ∀ (fuel : Nat) (type : tree) (full : Bool) (s : State), D type →
    (dbxout_type_with contin E fuel type full s).ends_in (R s) := by
  have step : ∀ {s a : State} (t : String) (n : Nat), R s a → R s (CHARS n (fprintf t a)) :=
    fun t n h => htrans _ _ _ h (htrans _ _ _ (hf _ _) (hC _ _))
  have hname : ∀ type s, (dbxout_type_name E type s).ends_in (R s) := by
    intro type s
    unfold dbxout_type_name
    split
    · exact hrefl s
    · exact step _ _ (hrefl s)
    · exact step _ _ (hrefl s)
    · exact hrefl s
  have hfields : ∀ (ref : tree → State → outcome) (fields : List field_decl),
      (∀ tem ∈ fields, tem.DECL_NAME.isSome → ∀ s, (ref tem.TREE_TYPE s).ends_in (R s)) →
      ∀ s, (dbxout_fields contin ref fields s).ends_in (R s) := by
    intro ref fields
    induction fields with
    | nil => intro _ s; exact hrefl s
    | cons tem chain ih =>
      intro href s
      have ih' := ih fun t ht => href t (List.mem_cons_of_mem _ ht)
      unfold dbxout_fields
      split
      · exact ih' s
      · next name hn =>
        refine ends_in_bind (ends_in_mono (href tem (List.mem_cons_self _ _)
          (by rw [hn]; rfl) _) fun _ h =>
          htrans _ _ _ (htrans _ _ _ (hc s) (step (name ++ ":") (1 + name.length) (hrefl _))) h)
          (fun _ h => h) ?_
        intro s' hs'
        exact ends_in_mono (ih' _) fun _ h => htrans _ _ _ (step _ _ hs') h
  have hvalues : ∀ values s, R s (dbxout_values contin values s) := by
    intro values
    induction values with
    | nil => intro s; exact hrefl s
    | cons tem chain ih =>
      intro s
      unfold dbxout_values
      simp only []
      have h1 : R s (CHARS (11 + tem.1.length)
          (fprintf (tem.1 ++ ":" ++ fmt_d tem.2 ++ ",") s)) := step _ _ (hrefl s)
      split
      · exact htrans _ _ _ h1 (ih _)
      · exact htrans _ _ _ h1 (htrans _ _ _ (hc _) (ih _))
  have hdef : ∀ (ref : tree → State → outcome) (type : tree),
      (∀ w ∈ (E.node type).children, ∀ s, (ref w s).ends_in (R s)) →
      ∀ full s, (dbxout_type_definition contin E ref type full s).ends_in (R s) := by
    intro ref type href full s
    have h2 : R s (set_typevec (s.TYPE_SYMTAB_ADDRESS type) typestatus.TYPE_DEFINED
        (CHARS 1 (fprintf "=" s))) :=
      htrans _ _ _ (step "=" 1 (hrefl s)) (hset _ _ _)
    have hx1 : ∀ tag, ((dbxout_type_name E type (CHARS 3 (fprintf tag
        (set_typevec (s.TYPE_SYMTAB_ADDRESS type) typestatus.TYPE_DEFINED
          (CHARS 1 (fprintf "=" s)))))).bind fun s' =>
        outcome.done (set_typevec (s.TYPE_SYMTAB_ADDRESS type) typestatus.TYPE_XREF
          (fprintf ":" s'))).ends_in (R s) := fun tag =>
      ends_in_bind (ends_in_mono (hname _ _) fun _ h => htrans _ _ _ (step tag 3 h2) h)
        (fun _ h => h) fun s' h => htrans _ _ _ (htrans _ _ _ h (hf _ _)) (hset _ _ _)
    have hx2 : ∀ tag, ((dbxout_type_name E type (CHARS 3 (fprintf tag
        (set_typevec (s.TYPE_SYMTAB_ADDRESS type) typestatus.TYPE_DEFINED
          (CHARS 1 (fprintf "=" s)))))).bind fun s' =>
        outcome.done (fprintf ":" (set_typevec (s.TYPE_SYMTAB_ADDRESS type)
          typestatus.TYPE_XREF s'))).ends_in (R s) := fun tag =>
      ends_in_bind (ends_in_mono (hname _ _) fun _ h => htrans _ _ _ (step tag 3 h2) h)
        (fun _ h => h) fun s' h => htrans _ _ _ (htrans _ _ _ h (hset _ _ _)) (hf _ _)
    have hrec : ((E.node type).TREE_CODE = tree_code.RECORD_TYPE ∨
        (E.node type).TREE_CODE = tree_code.UNION_TYPE) → ∀ (tag : String) (s2 : State),
        R s s2 →
        ((dbxout_fields contin ref (E.node type).TYPE_FIELDS (CHARS 11 (fprintf tag s2))).bind
          fun s' => outcome.done (CHARS 1 (fprintf ";" s'))).ends_in (R s) := by
      intro hcode tag s2 h
      refine ends_in_bind (ends_in_mono (hfields ref _ ?_ _) fun _ h' =>
        htrans _ _ _ (step tag 11 h) h') (fun _ h => h) fun s' h => step ";" 1 h
      intro tem htem hn
      refine href _ ?_
      unfold type_node.children
      rcases hcode with hcode | hcode <;> rw [hcode] <;>
        exact List.mem_map.mpr ⟨tem, List.mem_filter.mpr ⟨htem, hn⟩, rfl⟩
    have htarget : ((E.node type).TREE_CODE = tree_code.ARRAY_TYPE ∨
        (E.node type).TREE_CODE = tree_code.POINTER_TYPE ∨
        (E.node type).TREE_CODE = tree_code.FUNCTION_TYPE) → ∀ target,
        (E.node type).TREE_TYPE = some target → ∀ s, (ref target s).ends_in (R s) := by
      intro hcode target ht
      refine href _ ?_
      unfold type_node.children
      rcases hcode with hcode | hcode | hcode <;> rw [hcode, ht] <;> exact List.mem_singleton.mpr rfl
    unfold dbxout_type_definition
    simp only []
    split
    · exact step _ _ h2
    · split
      · exact step _ _ h2
      · exact step _ _ h2
    · split
      · trivial
      · exact step _ _ h2
    · next hcode =>
      split
      · trivial
      · split
        · trivial
        · next target ht =>
          exact ends_in_mono (htarget (Or.inl hcode) target ht _) fun _ h =>
            htrans _ _ _ (step _ _ h2) h
    · next hcode =>
      split
      · exact hx1 _
      · split
        · exact hx1 _
        · exact hrec (Or.inl hcode) _ _ h2
    · next hcode =>
      split
      · exact hx1 _
      · split
        · exact hx1 _
        · exact hrec (Or.inr hcode) _ _ h2
    · split
      · exact hx2 _
      · exact step ";" 1 (htrans _ _ _ (step "e" 1 h2) (hvalues _ _))
    · next hcode =>
      split
      · trivial
      · next target ht =>
        exact ends_in_mono (htarget (Or.inr (Or.inl hcode)) target ht _) fun _ h =>
          htrans _ _ _ (step _ _ h2) h
    · next hcode =>
      split
      · trivial
      · next target ht =>
        exact ends_in_mono (htarget (Or.inr (Or.inr hcode)) target ht _) fun _ h =>
          htrans _ _ _ (step _ _ h2) h
    · exact h2
  intro fuel
  induction fuel with
  | zero => intro type full s _; trivial
  | succ fuel ih =>
    intro type full s hDt
    have h2 : R s (CHARS 3 (fprintf
        (Nat.repr ((assign_type_number type s).TYPE_SYMTAB_ADDRESS type))
        (assign_type_number type s))) :=
      htrans _ _ _ (ha type s hDt) (step _ _ (hrefl _))
    have hd := fun s' (h : R s s') => ends_in_mono (hdef
      (fun t s => dbxout_type_with contin E fuel t false s) type
      (fun w hw s => ih w false s (hD type hDt w hw)) full s') fun _ h' => htrans _ _ _ h h'
    unfold dbxout_type_with
    simp only []
    split
    · trivial
    · exact hd _ h2
    · split
      · exact h2
      · exact hd _ h2
    · exact h2

theorem CONTIN_symtab (E : Env) (s : State) :
    (CONTIN E s).TYPE_SYMTAB_ADDRESS = s.TYPE_SYMTAB_ADDRESS := by
  unfold Dbxout.CONTIN
  split
  · rw [dbxout_continue_eq]; rfl
  · rfl

/-- A call of `dbxout_type` on a node of a closed set gives no number to a node
outside the set. -/
theorem numbers_only_inside (E : Env) (dom : Finset tree) (hclosed : closed E dom)
    (v : tree) (hv : v ∉ dom) (fuel : Nat) (type : tree) (full : Bool) (s : State)
    (htype : type ∈ dom) :
    (dbxout_type E fuel type full s).ends_in fun s' =>
      s'.TYPE_SYMTAB_ADDRESS v = s.TYPE_SYMTAB_ADDRESS v :=
  dbxout_type_with_preserves_on
    (fun s s' => s'.TYPE_SYMTAB_ADDRESS v = s.TYPE_SYMTAB_ADDRESS v) (fun t => t ∈ dom)
    (fun _ => rfl) (fun _ _ _ h1 h2 => h2.trans h1) (fun _ _ => rfl) (fun _ _ => rfl)
    (fun _ _ _ => rfl)
    (fun _ s ht => assign_symtab_other s (fun e => hv (e ▸ ht)))
    (fun s => congrFun (CONTIN_symtab E s) v) E hclosed fuel type full s htype

/-- C19: nameless fields are skipped.  For every type node and every state,
`dbxout_type` ends the same way, with the same text and the same registry, as on
the same node with the nameless fields taken out of its field list.  The call
gives no number to a node outside a set of nodes that holds the type and is
closed under the references `dbxout_type` follows (the element, target and
result types, and the types of the named fields): the type of a nameless field
gets no number unless it is referred to in another way. -/
theorem nameless_fields_skipped (E : Env) (fuel : Nat) (type : tree) (full : Bool)
    (s : State) :
    dbxout_type (without_nameless_fields E type) fuel type full s =
      dbxout_type E fuel type full s ∧
    ∀ (dom : Finset tree) (tem : field_decl), closed E dom → type ∈ dom →
      tem ∈ (E.node type).TYPE_FIELDS → tem.DECL_NAME = none → tem.TREE_TYPE ∉ dom →
      ∀ s', dbxout_type E fuel type full s = outcome.done s' →
        s'.TYPE_SYMTAB_ADDRESS tem.TREE_TYPE = s.TYPE_SYMTAB_ADDRESS tem.TREE_TYPE := by
  have e : dbxout_type (without_nameless_fields E type) fuel type full s =
      dbxout_type E fuel type full s := by
    unfold dbxout_type
    exact dbxout_type_with_without_nameless (CONTIN E) E type fuel type full s
  refine ⟨e, ?_⟩
  intro dom tem hclosed htype _ _ hv s' h
  exact ends_in_done (numbers_only_inside E dom hclosed tem.TREE_TYPE hv fuel type full s htype) h

/-- The record of the examples with a nameless field: the field is not written,
and its type, the node 18, gets no number. -/
theorem nameless_field_example :
    ∃ s', dbxout_type example_env 2 17 true at_symbol = outcome.done s' ∧
      s'.asmfile = at_symbol.asmfile ++ "3=s12a:1,0,32;b:1,64,32;;" ∧
      s'.TYPE_SYMTAB_ADDRESS 18 = 0 ∧ s'.next_type_number = 4 :=
  ⟨_, rfl, rfl, rfl, rfl⟩

/-! ## The continuation before the first field (C20) -/

/-- The text `CONTIN` writes: the continuation when the count is above 80, and
nothing otherwise. -/
theorem CONTIN_asmfile (E : Env) (s : State) :
    (CONTIN E s).asmfile =
      s.asmfile ++ (if 80 < s.current_sym_nchars then continuation E s else "") := by
  by_cases h : 80 < s.current_sym_nchars
  · rw [CONTIN_long E s h, if_pos h]
  · rw [CONTIN_short E s (by omega), if_neg h, String.append_empty]

/-- C20, as the claim states it, fails: `struct pair` written in full when the
description has reached 70 characters.  The count is 85 after the size, and the
continuation comes between `s8` and the first field `a`. -/
theorem continuation_before_first_field_example :
    ∃ s', dbxout_type example_env 2 12 true at_long_symbol = outcome.done s' ∧
      s'.asmfile = at_long_symbol.asmfile ++ "3=s8" ++ "\\\\\",128,0,0,0\n.stabs \""
        ++ "a:1,0,32;b:1,32,32;;" :=
  ⟨_, rfl, rfl⟩

/-- C20, amended: when a record or union is written in full, `CONTIN` is tested
before every named field, the first one too.  The text starts with the number,
`=`, `s` or `u` and the size; between these and the name of the first named
field comes the continuation exactly when the count there, 15 more than at the
call, is above 80.  With no named field the text is closed by `;` with no
continuation. -/
theorem continuation_before_first_field (E : Env) (fuel : Nat) (type : tree) (full : Bool)
    (s s' : State) (size : Int) (htv : typevec_ok s) (hnext : s.next_type_number ≠ 0)
    (hcode : (E.node type).TREE_CODE = tree_code.RECORD_TYPE ∨
      (E.node type).TREE_CODE = tree_code.UNION_TYPE)
    (hsize : (E.node type).TYPE_SIZE = some size)
    (hfull : ((E.node type).TYPE_NAME.isSome && !full) = false)
    (hstatus : s.TYPE_SYMTAB_ADDRESS type = 0 ∨
      s.typevec[s.TYPE_SYMTAB_ADDRESS type]? = some typestatus.TYPE_UNSEEN ∨
      (s.TYPE_SYMTAB_ADDRESS type ≠ 0 ∧
        s.typevec[s.TYPE_SYMTAB_ADDRESS type]? = some typestatus.TYPE_XREF ∧ full = true))
    (h : dbxout_type E fuel type full s = outcome.done s') :
    (∀ tem rest name,
      ((E.node type).TYPE_FIELDS.filter fun tem => tem.DECL_NAME.isSome) = tem :: rest →
      tem.DECL_NAME = some name →
      ∃ text, s'.asmfile = s.asmfile ++ Nat.repr (s'.TYPE_SYMTAB_ADDRESS type) ++ "="
        ++ (if (E.node type).TREE_CODE = tree_code.RECORD_TYPE then "s" else "u")
        ++ fmt_d size
        ++ (if 80 < s.current_sym_nchars + 15 then continuation E s else "")
        ++ name ++ ":" ++ text) ∧
    (((E.node type).TYPE_FIELDS.filter fun tem => tem.DECL_NAME.isSome) = [] →
      s'.asmfile = s.asmfile ++ Nat.repr (s'.TYPE_SYMTAB_ADDRESS type) ++ "="
        ++ (if (E.node type).TREE_CODE = tree_code.RECORD_TYPE then "s" else "u")
        ++ fmt_d size ++ ";") := by
  obtain ⟨k, rfl⟩ : ∃ k, fuel = k + 1 := by
    cases fuel with
    | zero => cases h
    | succ k => exact ⟨k, rfl⟩
  have hnum := (dbxout_type_writes_number E (k + 1) type full s s' hnext h).2.1
  have hU : (assign_type_number type s).typevec[
        (assign_type_number type s).TYPE_SYMTAB_ADDRESS type]? =
        some typestatus.TYPE_UNSEEN ∨
      ((assign_type_number type s).typevec[
          (assign_type_number type s).TYPE_SYMTAB_ADDRESS type]? =
        some typestatus.TYPE_XREF ∧ full = true) := by
    by_cases h0 : s.TYPE_SYMTAB_ADDRESS type = 0
    · exact Or.inl (assign_fresh_unseen_of_typevec_ok htv h0)
    · rw [assign_of_ne_zero h0]
      rcases hstatus with h1 | h1 | ⟨_, h1, h2⟩
      · exact absurd h1 h0
      · exact Or.inl h1
      · exact Or.inr ⟨h1, h2⟩
  obtain ⟨sm, hsm⟩ : ∃ sm, sm = CHARS 11 (fprintf
      ((if (E.node type).TREE_CODE = tree_code.RECORD_TYPE then "s" else "u") ++ fmt_d size)
      (set_typevec ((assign_type_number type s).TYPE_SYMTAB_ADDRESS type)
        typestatus.TYPE_DEFINED (CHARS 1 (fprintf "=" (CHARS 3 (fprintf
          (Nat.repr ((assign_type_number type s).TYPE_SYMTAB_ADDRESS type))
          (assign_type_number type s))))))) := ⟨_, rfl⟩
  have hcall : dbxout_type E (k + 1) type full s =
      (dbxout_fields (CONTIN E) (fun t s => dbxout_type_with (CONTIN E) E k t false s)
        ((E.node type).TYPE_FIELDS.filter fun tem => tem.DECL_NAME.isSome) sm).bind
        fun s => outcome.done (CHARS 1 (fprintf ";" s)) := by
    unfold dbxout_type
    rw [dbxout_type_with_define _ _ _ _ _ _ hU,
      definition_record _ _ _ _ _ _ size hcode hsize hfull, hsm, dbxout_fields_named]
    rfl
  have hcont : continuation E sm = continuation E s := by
    rw [hsm]
    exact continuation_congr E (by simp) (by simp) (by simp)
  have hchars : sm.current_sym_nchars = s.current_sym_nchars + 15 := by
    rw [hsm]; simp [Nat.add_assoc]
  have hasm : sm.asmfile = s.asmfile ++ Nat.repr (s'.TYPE_SYMTAB_ADDRESS type) ++ "="
      ++ (if (E.node type).TREE_CODE = tree_code.RECORD_TYPE then "s" else "u")
      ++ fmt_d size := by
    rw [hsm, hnum]
    simp only [fprintf_asmfile, CHARS_asmfile, set_typevec_asmfile, assign_asmfile,
      String.append_assoc]
  rw [hcall] at h
  refine ⟨?_, ?_⟩
  · intro tem rest name hfields hname
    rw [hfields] at h
    unfold dbxout_fields at h
    simp only [hname] at h
    have hl : Later (CHARS (1 + name.length) (fprintf (name ++ ":") (CONTIN E sm))) s' := by
      refine ends_in_done (ends_in_bind_later (ends_in_bind_later
        (dbxout_type_with_later (later_CONTIN E) E k tem.TREE_TYPE false _) ?_) ?_) h
      · intro s1 _
        exact ends_in_mono (dbxout_fields_later (later_CONTIN E)
          (fun t s => dbxout_type_with_later (later_CONTIN E) E k t false s) rest _)
          fun _ h' => (later_step _ 23 (Later.refl s1)).trans h'
      · intro s2 _
        exact later_step ";" 1 (Later.refl s2)
    obtain ⟨text, htext⟩ := hl.written
    refine ⟨text, ?_⟩
    rw [htext]
    simp only [CHARS_asmfile, fprintf_asmfile, CONTIN_asmfile, hasm, hchars, hcont,
      String.append_assoc]
  · intro hfields
    rw [hfields] at h
    cases h
    simp only [CHARS_asmfile, fprintf_asmfile, hasm]

theorem typevec_ok_at_long_symbol : typevec_ok at_long_symbol :=
  @typevec_ok_congr after_init at_long_symbol rfl rfl rfl well_formed_after_init.2

theorem continuation_before_first_field_witness :
    typevec_ok at_long_symbol ∧ at_long_symbol.next_type_number ≠ 0 ∧
    ∃ s', dbxout_type example_env 2 12 true at_long_symbol = outcome.done s' ∧
      ∃ text, s'.asmfile = at_long_symbol.asmfile ++ Nat.repr (s'.TYPE_SYMTAB_ADDRESS 12) ++ "="
        ++ (if (example_env.node 12).TREE_CODE = tree_code.RECORD_TYPE then "s" else "u")
        ++ fmt_d 8
        ++ (if 80 < at_long_symbol.current_sym_nchars + 15
            then continuation example_env at_long_symbol else "")
        ++ "a" ++ ":" ++ text :=
  ⟨typevec_ok_at_long_symbol, by decide, _, rfl,
    (continuation_before_first_field example_env 2 12 true at_long_symbol _ 8
      typevec_ok_at_long_symbol (by decide) (Or.inl rfl) rfl rfl
      (Or.inl rfl) rfl).1 ⟨some "a", 1, 0, 32, 1⟩ [⟨some "b", 1, 32, 32, 1⟩] "a" rfl rfl⟩

/-! ## Nested sequences of markers -/

/-- What the test of `dbxout_tags` gives for a type that is defined. -/
theorem tag_not_defined_of_defined {type : tree} {s : State} (h : defined_in s type) :
    tag_not_defined type s = some false := by
  unfold tag_not_defined
  rw [if_neg h.1, h.2]
  rfl

/-- The test of `dbxout_tags` reads inside `typevec` in a well-formed state. -/
theorem tag_not_defined_isSome {s : State} (hwf : well_formed s) (type : tree) :
    tag_not_defined type s ≠ none := by
  unfold tag_not_defined
  split
  · exact fun h => (by cases h)
  · obtain ⟨st, hst⟩ := well_formed_index hwf type
    rw [hst]
    exact fun h => (by cases h)

/-- When the test of `dbxout_tags` says a type is defined, it is. -/
theorem defined_of_tag_not_defined {type : tree} {s : State}
    (h : tag_not_defined type s = some false) : defined_in s type := by
  unfold tag_not_defined at h
  split at h
  · cases h
  · next h0 =>
    split at h
    · cases h
    · next st hst =>
      refine ⟨h0, ?_⟩
      cases st
      · exact absurd h (by decide)
      · exact absurd h (by decide)
      · exact hst

/-- After `dbxout_tags`, every type of the list with a tag name and a known size
is defined. -/
theorem dbxout_tags_defined (E : Env) (fuel : Nat) (tags : List tag_link) :
    ∀ s s1 : State, well_formed s → dbxout_tags E fuel tags s = outcome.done s1 →
      ∀ link ∈ tags, link.TREE_PURPOSE ≠ none → (E.node link.TREE_VALUE).TYPE_SIZE ≠ none →
        defined_in s1 link.TREE_VALUE := by
  induction tags with
  | nil => intro s s1 _ _ link hl; cases hl
  | cons link chain ih =>
    intro s s1 hwf h l hl hp hs
    unfold dbxout_tags at h
    simp only [] at h
    split at h
    · next hnone =>
      rcases List.mem_cons.mp hl with e | e
      · subst e; exact absurd hnone hp
      · exact ih s s1 hwf h l e hp hs
    · next name hname =>
      split at h
      · cases h
      · next hdef =>
        rcases List.mem_cons.mp hl with e | e
        · subst e
          exact defined_in_later (ends_in_done (dbxout_tags_later E fuel chain s) h)
            (defined_of_tag_not_defined hdef)
        · exact ih s s1 hwf h l e hp hs
      · split at h
        · next hsize =>
          rcases List.mem_cons.mp hl with e | e
          · subst e
            exfalso
            cases hz : (E.node l.TREE_VALUE).TYPE_SIZE with
            | none => exact hs hz
            | some v => rw [hz] at hsize; cases hsize
          · exact ih s s1 hwf h l e hp hs
        · obtain ⟨s2, h2, h3⟩ := bind_done h
          have l0 : Later s (fprintf (".stabs \"" ++ name ++ ":T")
              { s with current_sym_code := E.N_LSYM, current_sym_value := 0,
                       current_sym_addr := none,
                       current_sym_nchars := 2 + name.length }) :=
            Later.trans (later_sym _ _ _ _ s) (later_fprintf _ _)
          have l2 : Later s s2 := l0.trans (ends_in_done (dbxout_type_later E fuel _ true _) h2)
          have hwf2 : well_formed (dbxout_finish_symbol E s2) :=
            (l2.trans (later_finish E s2)).wf hwf
          have hnext : s.next_type_number ≠ 0 := by have := hwf.1.next_pos; omega
          have hnum := (dbxout_type_writes_number E fuel link.TREE_VALUE true _ s2 (by exact hnext) h2).1
          have hnum' : (dbxout_finish_symbol E s2).TYPE_SYMTAB_ADDRESS link.TREE_VALUE ≠ 0 := by
            rw [dbxout_finish_symbol_eq]; exact hnum
          have l3 := later_mark link.TREE_VALUE (dbxout_finish_symbol E s2)
          have hd3 : defined_in (set_typevec
              ((dbxout_finish_symbol E s2).TYPE_SYMTAB_ADDRESS link.TREE_VALUE)
              typestatus.TYPE_DEFINED (dbxout_finish_symbol E s2)) link.TREE_VALUE := by
            obtain ⟨st, hst⟩ := well_formed_index hwf2 link.TREE_VALUE
            exact ⟨hnum', getElem?_set_self_of_some hst _⟩
          rcases List.mem_cons.mp hl with e | e
          · subst e
            exact defined_in_later (ends_in_done (dbxout_tags_later E fuel chain _) h3) hd3
          · exact ih _ s1 (l3.wf hwf2) h3 l e hp hs

/-- In a well-formed state where every type of the list with a tag name and a
known size is defined, `dbxout_tags` does nothing. -/
theorem dbxout_tags_nothing (E : Env) (fuel : Nat) (tags : List tag_link) (s : State)
    (hwf : well_formed s)
    (h : ∀ link ∈ tags, link.TREE_PURPOSE ≠ none →
      (E.node link.TREE_VALUE).TYPE_SIZE ≠ none → defined_in s link.TREE_VALUE) :
    dbxout_tags E fuel tags s = outcome.done s := by
  induction tags with
  | nil => rfl
  | cons link chain ih =>
    have ih' := ih fun l hl => h l (List.mem_cons_of_mem _ hl)
    unfold dbxout_tags
    simp only []
    split
    · exact ih'
    · next name hname =>
      split
      · next hnone => exact absurd hnone (tag_not_defined_isSome hwf _)
      · exact ih'
      · next htrue =>
        split
        · exact ih'
        · next hsize =>
          exfalso
          have hd := h link (List.mem_cons_self _ _) (by rw [hname]; exact fun e => (by cases e))
            (fun e => hsize (by rw [e]; rfl))
          rw [tag_not_defined_of_defined hd] at htrue
          cases htrue

/-- C23: writing the tags is idempotent.  When `dbxout_tags` ends normally from a
well-formed registry, every type of the list with a tag name and a known size is
`TYPE_DEFINED` afterwards, and `dbxout_tags` called again on the same list ends
normally in the same state: it writes nothing and changes no number and no
status. -/
theorem tags_written_once (E : Env) (fuel fuel' : Nat) (tags : List tag_link) (s s1 : State)
    (hwf : well_formed s) (h : dbxout_tags E fuel tags s = outcome.done s1) :
    (∀ link ∈ tags, link.TREE_PURPOSE ≠ none → (E.node link.TREE_VALUE).TYPE_SIZE ≠ none →
      s1.TYPE_SYMTAB_ADDRESS link.TREE_VALUE ≠ 0 ∧
      s1.typevec[s1.TYPE_SYMTAB_ADDRESS link.TREE_VALUE]? = some typestatus.TYPE_DEFINED) ∧
    dbxout_tags E fuel' tags s1 = outcome.done s1 ∧
    ∀ s2, dbxout_tags E fuel' tags s1 = outcome.done s2 →
      s2.asmfile = s1.asmfile ∧ s2.TYPE_SYMTAB_ADDRESS = s1.TYPE_SYMTAB_ADDRESS ∧
      s2.typevec = s1.typevec ∧ s2.next_type_number = s1.next_type_number := by
  have hd := dbxout_tags_defined E fuel tags s s1 hwf h
  have hwf1 := (ends_in_done (dbxout_tags_later E fuel tags s) h).wf hwf
  have h2 := dbxout_tags_nothing E fuel' tags s1 hwf1 hd
  refine ⟨hd, h2, ?_⟩
  intro s2 e
  rw [h2] at e
  cases e
  exact ⟨rfl, rfl, rfl, rfl⟩

theorem tags_written_once_witness :
    well_formed after_init ∧
    ∃ s1, dbxout_tags example_env 3 [⟨some "pair", 12⟩, ⟨some "list", 13⟩, ⟨none, 16⟩]
        after_init = outcome.done s1 ∧
      s1.asmfile = after_init.asmfile
        ++ ".stabs \"pair:T3=s8a:1,0,32;b:1,32,32;;\",128,0,0,0\n"
        ++ ".stabs \"list:T4=s4next:5=*4,0,32;;\",128,0,0,0\n" ∧
      dbxout_tags example_env 0 [⟨some "pair", 12⟩, ⟨some "list", 13⟩, ⟨none, 16⟩] s1 =
        outcome.done s1 :=
  ⟨well_formed_after_init, _, rfl, rfl,
    (tags_written_once example_env 3 0 [⟨some "pair", 12⟩, ⟨some "list", 13⟩, ⟨none, 16⟩]
      after_init _ well_formed_after_init rfl).2.1⟩

/-! ## The records of the parameters (C22) -/

end Dbxout
